import Mathlib

/-!
# marko: an HTTP server framework

A shallow embedding of the request router (`RequestHandlerRegistry`), of the reply
builder (`RequestHandler::BuildResponse`), of the request handlers and of the
incremental request parser, followed by theorems about them.

Conventions of the embedding
* `std::string` is `Str`, the list of its bytes (one `Char` per byte);
* `std::map<std::string, V>` is `StdMap V`, the list of its entries in the order in
  which the map is iterated;
* a pointer that may be null is an `Option`;
* a C++ exception leaving a function is `Except.error`.
-/

namespace Marko

/-! ## Strings -/

/-- A `std::string`: the sequence of its bytes. -/
abbrev Str := List Char

/-- The call `s.compare(0, p.length(), p) == 0`: the first `p.length()` bytes of `s`
(fewer when `s` is shorter) are compared with `p`. -/
def compare_eq (s p : Str) : Bool :=
  decide (s.take p.length = p)

/-- The comparison `a < b` of two `std::string`s: lexicographic on the bytes. -/
def strLess : Str → Str → Bool
  | [], [] => false
  | [], _ :: _ => true
  | _ :: _, [] => false
  | a :: as, b :: bs =>
    if a.toNat < b.toNat then true
    else if b.toNat < a.toNat then false
    else strLess as bs

/-- The result of `std::to_string` on an unsigned value: its decimal digits. -/
def to_string (n : Nat) : Str :=
  (Nat.repr n).toList

/-- The text an output stream writes for an `int`: decimal, with a sign when negative. -/
def int_to_string (i : Int) : Str :=
  (toString i).toList

/-- Helper of `find`: the first index, counted from `i`, at which `sub` starts. -/
def findAux (sub : Str) : Str → Nat → Option Nat
  | [], i => if sub.isEmpty then some i else none
  | c :: cs, i => if sub.isPrefixOf (c :: cs) then some i else findAux sub cs (i + 1)

/-- The call `s.find(sub, pos)`; `none` is `std::string::npos`. -/
def find (s sub : Str) (pos : Nat) : Option Nat :=
  if pos > s.length then none else findAux sub (s.drop pos) pos

/-- The call `s.find(c)` for a single byte `c`. -/
def find_char (s : Str) (c : Char) : Option Nat :=
  find s [c] 0

/-- Helper of `find_last_of`: the last index, counted from `i`, that holds `c`. -/
def findLastAux (c : Char) : Str → Nat → Option Nat → Option Nat
  | [], _, acc => acc
  | d :: ds, i, acc => findLastAux c ds (i + 1) (if d = c then some i else acc)

/-- The call `s.find_last_of(c)` for a single byte `c`. -/
def find_last_of (s : Str) (c : Char) : Option Nat :=
  findLastAux c s 0 none

/-- The call `s.substr(pos, n)` for `pos <= s.size()`. -/
def substr (s : Str) (pos n : Nat) : Str :=
  (s.drop pos).take n

/-! ## Ordered maps -/

/-- A `std::map<std::string, V>`: its entries, in iteration order. -/
abbrev StdMap (V : Type) := List (Str × V)

namespace StdMap

/-- The lookup `m.find(k)`: the mapped value, `none` for `m.end()`. -/
def find {V : Type} : StdMap V → Str → Option V
  | [], _ => none
  | (k', v) :: rest, k => if k' = k then some v else find rest k

/-- The assignment `m[k] = v`: overwrite the entry of `k`, or insert one at the place
the key order gives it. -/
def set {V : Type} : StdMap V → Str → V → StdMap V
  | [], k, v => [(k, v)]
  | (k', v') :: rest, k, v =>
    if k = k' then (k, v) :: rest
    else if strLess k k' then (k, v) :: (k', v') :: rest
    else (k', v') :: set rest k v

/-- The access `m.at(k)`, which throws `std::out_of_range` for a missing key. -/
def at_ {V : Type} (m : StdMap V) (k : Str) : Except Str V :=
  match m.find k with
  | some v => .ok v
  | none => .error "std::out_of_range".toList

/-- The keys of the map, in iteration order. -/
def keys {V : Type} (m : StdMap V) : List Str :=
  m.map Prod.fst

/-- The invariant of a `std::map`: keys strictly ascending. -/
def Ordered {V : Type} (m : StdMap V) : Prop :=
  List.Pairwise (fun a b => strLess a.1 b.1 = true) m

end StdMap

/-! ## Configuration tree (config_parser.h) -/

mutual
/-- The class `NginxConfigStatement`: tokens and an optional child block. -/
inductive NginxConfigStatement where
  | mk (tokens_ : List Str) (child_block_ : Option NginxConfig)
/-- The class `NginxConfig`: a sequence of statements. -/
inductive NginxConfig where
  | mk (statements_ : List NginxConfigStatement)
end

/-- The struct `HandlerConfig`. -/
structure HandlerConfig where
  type : Str
  config : Option NginxConfig

/-! ## Requests and replies -/

/-- Modelled from the spec: the struct `header` (header.hpp is not part of the
sources): a name and a value. -/
structure header where
  name : Str
  value : Str
deriving DecidableEq, Repr

/-- Modelled from the spec: the struct `request` (request.hpp is not part of the
sources), with the fields the spec lists and the tests read. -/
structure request where
  method : Str
  uri : Str
  http_version_major : Int
  http_version_minor : Int
  headers : List header
  body : Str
deriving DecidableEq, Repr

/-- Modelled from the spec: the enumeration `reply::status_type` (reply.hpp is not part
of the sources). The tests cast arbitrary integers to it, so it is the integer code. -/
abbrev status_type := Nat

/-- Modelled from the spec: the struct `reply` (reply.hpp is not part of the sources):
status, headers and content. -/
structure reply where
  status : status_type
  headers : List header
  content : Str
deriving DecidableEq, Repr

namespace reply
/-- Modelled from the spec: the status `reply::ok`, serialised as `200 OK`. -/
def ok : status_type := 200
/-- Modelled from the spec: the status `reply::moved_temporarily`, serialised as `302`. -/
def moved_temporarily : status_type := 302
/-- Modelled from the spec: the status `reply::bad_request`, serialised as `400`. -/
def bad_request : status_type := 400
/-- Modelled from the spec: the status `reply::not_found`, serialised as `404`. -/
def not_found : status_type := 404
/-- Modelled from the spec: the status `reply::internal_server_error`, serialised as `500`. -/
def internal_server_error : status_type := 500
/-- Modelled from the spec: the status `reply::not_implemented`, serialised as `501`. -/
def not_implemented : status_type := 501
end reply

/-! ## RequestHandler::BuildResponse (request_handler.hpp) -/

/-- The loop `for (h : headers) if (h.name == name) { found = true; break; }`. -/
def has_header (name : Str) : List header → Bool
  | [] => false
  | h :: rest => if h.name = name then true else has_header name rest

/-- The helper `RequestHandler::BuildResponse`, on the path where nothing throws. -/
def BuildResponse (status : status_type) (content : Str) (headers : List header) : reply :=
  let rep_headers := headers
  let has_content_length := has_header "Content-Length".toList rep_headers
  let rep_headers :=
    if !has_content_length then
      rep_headers ++ [{ name := "Content-Length".toList, value := to_string content.length }]
    else rep_headers
  let has_content_type := has_header "Content-Type".toList rep_headers
  let rep_headers :=
    if !has_content_type then
      rep_headers ++ [{ name := "Content-Type".toList, value := "text/plain".toList }]
    else rep_headers
  { status := status, content := content, headers := rep_headers }

/-- The invariant of a reply: exactly one header is named `Content-Length`, its value is
the decimal byte length of the content, and exactly one header is named
`Content-Type`. -/
def reply.has_content_headers (r : reply) : Prop :=
  r.headers.filter (fun h => decide (h.name = "Content-Length".toList))
      = [{ name := "Content-Length".toList, value := to_string r.content.length }]
    ∧ (r.headers.filter (fun h => decide (h.name = "Content-Type".toList))).length = 1

/-! ## The outside world -/

/-- The interface of `EntityProcessor` as `APIHandler` sees it: the answer of each
operation. `CreateEntity` answers the new id (empty on failure); `RetrieveEntity` and
`ListEntities` answer `none` where the C++ function returns `false`. -/
structure EntityProcessor where
  CreateEntity : Str → Str → Str
  RetrieveEntity : Str → Str → Option Str
  UpdateEntity : Str → Str → Str → Bool
  DeleteEntity : Str → Str → Bool
  ListEntities : Str → Option (List Str)

/-- What the handlers obtain from outside the program: the file system, the clock and
random source, the database, the regular-expression and stream libraries, and the
literal text of the HTML pages. Every theorem holds for every such world. -/
structure World where
  /-- The answer of `StaticFileHandler::ReadFile(file_path, content)`: the content,
  `none` for `false`, and the exception that leaves the call when `content.resize(size)`
  throws: a path that opens without a size, such as a directory, gives `tellg()` no
  position, and the size made from it is refused with `std::length_error`. -/
  ReadFile : Str → Except Str (Option Str)
  /-- The answer of `UploadHandler::generate_file_id()`: timestamp and random number. -/
  generate_file_id : Str
  /-- The answer of `UploadHandler::save_file_to_disk(content, file_path)`. -/
  save_file_to_disk : Str → Str → Bool
  /-- The literal page of `UploadHandler::create_upload_form`. -/
  upload_form_html : Str
  /-- The page of `UploadHandler::create_success_response(file_id, filename)` for a
  handler with the given path prefix. -/
  upload_success_html : Str → Str → Str → Str
  /-- The page of `UploadHandler::create_error_response(error_message)` for a handler
  with the given path prefix. -/
  upload_error_html : Str → Str → Str
  /-- The character that `ss << std::hex << hex; ss >> value` followed by
  `static_cast<char>(value)` gives for the two characters after a `%`. -/
  hex_value : Char → Char → Char
  /-- The answer of `TextViewHandler::read_file(id, content)` in the given `view_dir_`. -/
  read_file : Str → Str → Option Str
  /-- The answer of `TextViewHandler::parse_file_extension(id, ext)`, a match of the
  regex `^(.+)\.(.+)$`: the extension, `none` for `false`. -/
  parse_file_extension : Str → Option Str
  /-- The answer of `TextViewHandler::render_markdown(content)`. -/
  render_markdown : Str → Str
  /-- The answer of `TextViewHandler::read_pdf(content, id)` in the given `view_dir_`:
  the new content, `none` for `false`. -/
  read_pdf : Str → Str → Str → Option Str
  /-- The answer of `SimpleAuthHandler::isValidEmail(email)`: a regex match. -/
  isValidEmail : Str → Bool
  /-- The answer of `DatabaseManager::createOrUpdateUser(email, name)` on the database
  at the given path; `Except.error` when it throws. -/
  createOrUpdateUser : Str → Str → Str → Except Str Int
  /-- The answer of `SimpleAuthHandler::createSession(user_id, email)`: the random
  session token. -/
  createSession : Int → Str → Str
  /-- The literal page of `SimpleAuthHandler::serveLoginForm`. -/
  login_form_html : Str

/-! ## EchoHandler, NotFoundHandler, HealthHandler, SleepHandler -/

/-- A `Content-Type` header with the given value. -/
def content_type_header (value : Str) : header :=
  { name := "Content-Type".toList, value := value }

/-- The loop of `EchoHandler::handle_request` over the request headers. -/
def echo_headers : List header → Str
  | [] => []
  | h :: rest => h.name ++ ": ".toList ++ h.value ++ "\r\n".toList ++ echo_headers rest

/-- The function `EchoHandler::handle_request` (echo_handler.cpp). -/
def EchoHandler.handle_request (request : request) : reply :=
  let content := request.method ++ " ".toList ++ request.uri ++ " HTTP/".toList
    ++ int_to_string request.http_version_major ++ ".".toList
    ++ int_to_string request.http_version_minor ++ "\r\n".toList
    ++ echo_headers request.headers ++ "\r\n".toList
  let headers := [content_type_header "text/plain".toList]
  BuildResponse reply.ok content headers

/-- The function `NotFoundHandler::handle_request` (not_found_handler.cpp). -/
def NotFoundHandler.handle_request (request : request) : reply :=
  let content := "404 Not Found\n".toList
  let content := content ++ ("The requested resource '".toList ++ request.uri
    ++ "' was not found on this server.".toList)
  let headers := [content_type_header "text/plain".toList]
  BuildResponse reply.not_found content headers

/-- The function `HealthHandler::handle_request` (health_handler.cc). -/
def HealthHandler.handle_request (_request : request) : reply :=
  let content := "OK\r\n".toList
  BuildResponse reply.ok content []

/-- The function `SleepHandler::handle_request` (sleep_handler.cc); the five seconds
it sleeps are not part of the model. -/
def SleepHandler.handle_request (_request : request) : reply :=
  let sleep_time : Int := 5
  let content := "The request slept for ".toList ++ int_to_string sleep_time
    ++ " seconds\r\n".toList
  let headers := [content_type_header "text/plain".toList]
  BuildResponse reply.ok content headers

/-! ## APIHandler (api_handler.cc) -/

/-- The function `APIHandler::ParseUri`: `some (entity_type, id)` when it returns true. -/
def APIHandler.ParseUri (path_prefix_ uri : Str) : Option (Str × Str) :=
  if !compare_eq uri path_prefix_ then none
  else
    let path := uri.drop path_prefix_.length
    let path := if !path.isEmpty && path.head? = some '/' then path.drop 1 else path
    let slash_pos := find_char path '/'
    let r : Str × Str :=
      match slash_pos with
      | none => (path, [])
      | some slash_pos => (substr path 0 slash_pos, path.drop (slash_pos + 1))
    if !r.1.isEmpty then some r else none

/-- The function `APIHandler::HandleCreate`. -/
def APIHandler.HandleCreate (ep : EntityProcessor) (entity_type json_data : Str) : reply :=
  if json_data.isEmpty then BuildResponse reply.bad_request "Invalid JSON data".toList []
  else
    let id := ep.CreateEntity entity_type json_data
    if id.isEmpty then
      BuildResponse reply.internal_server_error "Failed to create entity".toList []
    else
      let response := "\x7b\"id\": ".toList ++ id ++ "\x7d".toList
      BuildResponse reply.ok response [content_type_header "application/json".toList]

/-- The function `APIHandler::HandleRetrieve`. -/
def APIHandler.HandleRetrieve (ep : EntityProcessor) (entity_type id : Str) : reply :=
  match ep.RetrieveEntity entity_type id with
  | none => BuildResponse reply.not_found "404 Not Found".toList []
  | some json_data =>
    BuildResponse reply.ok json_data [content_type_header "application/json".toList]

/-- The function `APIHandler::HandleUpdate`. -/
def APIHandler.HandleUpdate (ep : EntityProcessor) (entity_type id json_data : Str) : reply :=
  if json_data.isEmpty then BuildResponse reply.bad_request "Invalid JSON data".toList []
  else if !ep.UpdateEntity entity_type id json_data then
    BuildResponse reply.not_found "404 Not Found".toList []
  else
    BuildResponse reply.ok "\x7b\"status\": \"success\"\x7d".toList
      [content_type_header "application/json".toList]

/-- The function `APIHandler::HandleDelete`. -/
def APIHandler.HandleDelete (ep : EntityProcessor) (entity_type id : Str) : reply :=
  if !ep.DeleteEntity entity_type id then
    BuildResponse reply.not_found "404 Not Found".toList []
  else
    BuildResponse reply.ok "\x7b\"status\": \"success\"\x7d".toList
      [content_type_header "application/json".toList]

/-- The loop of `APIHandler::HandleList` that joins the ids with commas. -/
def APIHandler.join_ids : List Str → Str
  | [] => []
  | [id] => id
  | id :: rest => id ++ ",".toList ++ join_ids rest

/-- The function `APIHandler::HandleList`. -/
def APIHandler.HandleList (ep : EntityProcessor) (entity_type : Str) : reply :=
  match ep.ListEntities entity_type with
  | none => BuildResponse reply.not_found "404 Not Found".toList []
  | some ids =>
    let response := "[".toList ++ APIHandler.join_ids ids ++ "]".toList
    BuildResponse reply.ok response [content_type_header "application/json".toList]

/-- The function `APIHandler::handle_request`. -/
def APIHandler.handle_request (path_prefix_ : Str) (ep : EntityProcessor)
    (request : request) : reply :=
  match APIHandler.ParseUri path_prefix_ request.uri with
  | none => BuildResponse reply.bad_request "Invalid API request URI".toList []
  | some (entity_type, id) =>
    if request.method = "POST".toList && !entity_type.isEmpty && id.isEmpty then
      APIHandler.HandleCreate ep entity_type request.body
    else if request.method = "GET".toList && !entity_type.isEmpty && !id.isEmpty then
      APIHandler.HandleRetrieve ep entity_type id
    else if request.method = "PUT".toList && !entity_type.isEmpty && !id.isEmpty then
      APIHandler.HandleUpdate ep entity_type id request.body
    else if request.method = "DELETE".toList && !entity_type.isEmpty && !id.isEmpty then
      APIHandler.HandleDelete ep entity_type id
    else if request.method = "GET".toList && !entity_type.isEmpty && id.isEmpty then
      APIHandler.HandleList ep entity_type
    else
      BuildResponse reply.not_found "404 Not Found".toList []

/-! ## StaticFileHandler (static_handler.cc) -/

/-- The table that `StaticFileHandler::InitMimeTypeMap` fills. -/
def StaticFileHandler.mime_type_map_ : StdMap Str :=
  let m : StdMap Str := []
  let m := m.set ".html".toList "text/html".toList
  let m := m.set ".htm".toList "text/html".toList
  let m := m.set ".css".toList "text/css".toList
  let m := m.set ".js".toList "application/javascript".toList
  let m := m.set ".txt".toList "text/plain".toList
  let m := m.set ".jpg".toList "image/jpeg".toList
  let m := m.set ".jpeg".toList "image/jpeg".toList
  let m := m.set ".png".toList "image/png".toList
  let m := m.set ".gif".toList "image/gif".toList
  let m := m.set ".svg".toList "image/svg+xml".toList
  let m := m.set ".ico".toList "image/x-icon".toList
  let m := m.set ".zip".toList "application/zip".toList
  let m := m.set ".pdf".toList "application/pdf".toList
  let m := m.set ".json".toList "application/json".toList
  let m := m.set ".xml".toList "application/xml".toList
  m

/-- The function `StaticFileHandler::GetMimeType`. -/
def StaticFileHandler.GetMimeType (file_path : Str) : Str :=
  match find_last_of file_path '.' with
  | some dot_pos =>
    let ext := file_path.drop dot_pos
    match StaticFileHandler.mime_type_map_.find ext with
    | some t => t
    | none => "application/octet-stream".toList
  | none => "application/octet-stream".toList

/-- The function `StaticFileHandler::handle_request`: the reply, or the exception of
`ReadFile`, which nothing in the function catches. -/
def StaticFileHandler.handle_request (w : World) (root_dir_ path_prefix_ : Str)
    (request : request) : Except Str reply :=
  let path := request.uri
  let path :=
    match find_char path '?' with
    | some query_pos => substr path 0 query_pos
    | none => path
  if !compare_eq path path_prefix_ then
    .ok (BuildResponse reply.not_found "404 Not Found".toList [])
  else
    let relative_path := path.drop path_prefix_.length
    let relative_path :=
      if !relative_path.isEmpty && relative_path.head? = some '/' then relative_path.drop 1
      else relative_path
    let file_path := ".".toList ++ root_dir_ ++ "/".toList ++ relative_path
    match w.ReadFile file_path with
    | .error e => .error e
    | .ok (some content) =>
      let headers := [content_type_header (StaticFileHandler.GetMimeType file_path)]
      .ok (BuildResponse reply.ok content headers)
    | .ok none => .ok (BuildResponse reply.not_found "404 Not Found".toList [])

/-! ## UploadHandler (upload_handler.cc) -/

/-- The struct `UploadHandler::FormData`. -/
structure FormData where
  filename : Str
  content : Str
  course_code : Str
  title : Str
  content_type : Str
deriving DecidableEq, Repr

/-- The function `UploadHandler::is_valid_upload_path`. -/
def UploadHandler.is_valid_upload_path (path_prefix_ uri : Str) : Bool :=
  if uri = path_prefix_ then true
  else if uri.length > path_prefix_.length && compare_eq uri path_prefix_
      && uri.get? path_prefix_.length = some '/' then true
  else false

/-- The member `allowed_extensions_` as the constructor of `UploadHandler` sets it. -/
def UploadHandler.allowed_extensions_ : List Str :=
  [".txt".toList, ".md".toList, ".pdf".toList]

/-- The function `UploadHandler::validate_file`. -/
def UploadHandler.validate_file (max_file_size_ : Nat) (filename : Str) (size : Nat) : Bool :=
  if size > max_file_size_ then false
  else
    match find_last_of filename '.' with
    | none => false
    | some dot_pos =>
      let ext := filename.drop dot_pos
      let ext := ext.map Char.toLower
      decide (ext ∈ UploadHandler.allowed_extensions_)

/-- The first replacement of `UploadHandler::sanitize_filename`: every byte outside
`[a-zA-Z0-9._-]` becomes an underscore. -/
def UploadHandler.replace_special (c : Char) : Char :=
  if c.isAlphanum || c = '.' || c = '_' || c = '-' then c else '_'

/-- The second replacement of `UploadHandler::sanitize_filename`: a run of two or more
underscores becomes one underscore. -/
def UploadHandler.collapse_underscores : Str → Str
  | [] => []
  | [c] => [c]
  | c :: d :: rest =>
    if c = '_' && d = '_' then collapse_underscores (d :: rest)
    else c :: collapse_underscores (d :: rest)

/-- The function `UploadHandler::sanitize_filename`. -/
def UploadHandler.sanitize_filename (filename : Str) : Str :=
  UploadHandler.collapse_underscores (filename.map UploadHandler.replace_special)

/-- The function `UploadHandler::extract_boundary`. -/
def UploadHandler.extract_boundary (content_type : Str) : Str :=
  match find content_type "boundary=".toList 0 with
  | none => []
  | some boundary_pos =>
    let boundary := content_type.drop (boundary_pos + 9)
    let boundary :=
      if !boundary.isEmpty && boundary.head? = some '"' then boundary.drop 1 else boundary
    let boundary :=
      if !boundary.isEmpty && boundary.getLast? = some '"' then boundary.dropLast else boundary
    boundary

/-- The part of the loop body of `UploadHandler::parse_multipart_form` that reads the
headers of the file field into `form_data`. -/
def UploadHandler.parse_file_field (headers content : Str) (form_data : FormData) : FormData :=
  let form_data :=
    match find headers "filename=\"".toList 0 with
    | some filename_pos =>
      let filename_pos := filename_pos + 10
      match find headers "\"".toList filename_pos with
      | some filename_end =>
        { form_data with filename := substr headers filename_pos (filename_end - filename_pos) }
      | none => form_data
    | none => form_data
  let form_data :=
    match find headers "Content-Type: ".toList 0 with
    | some content_type_pos =>
      let content_type_pos := content_type_pos + 14
      match find headers "\r\n".toList content_type_pos with
      | some content_type_end =>
        { form_data with
          content_type := substr headers content_type_pos (content_type_end - content_type_pos) }
      | none => form_data
    | none => form_data
  { form_data with content := content }

/-- One iteration of the `while` loop of `UploadHandler::parse_multipart_form`, entered
with `pos < body.length()`: the position and form data after it, or `none` when the
iteration leaves the loop through a `break`. -/
def UploadHandler.parse_multipart_step (body delimiter : Str) (pos : Nat)
    (form_data : FormData) : Option (Nat × FormData) :=
  match find body delimiter pos with
  | none => none
  | some boundary_start =>
    let pos := boundary_start + delimiter.length
    let pos :=
      if pos + 1 < body.length && substr body pos 2 = "\r\n".toList then pos + 2 else pos
    match find body "\r\n\r\n".toList pos with
    | none => none
    | some headers_end =>
      let headers := substr body pos (headers_end - pos)
      let pos := headers_end + 4
      match find body delimiter pos with
      | none => none
      | some next_boundary =>
        let content := substr body pos (next_boundary - pos)
        let content :=
          if content.length ≥ 2 && content.drop (content.length - 2) = "\r\n".toList then
            substr content 0 (content.length - 2)
          else content
        let form_data :=
          if (find headers "name=\"file\"".toList 0).isSome then
            UploadHandler.parse_file_field headers content form_data
          else if (find headers "name=\"course_code\"".toList 0).isSome then
            { form_data with course_code := content }
          else if (find headers "name=\"title\"".toList 0).isSome then
            { form_data with title := content }
          else form_data
        some (next_boundary, form_data)

/-- The `while (pos < body.length())` loop of `UploadHandler::parse_multipart_form`,
run for at most `fuel` iterations. -/
def UploadHandler.parse_multipart_loop (body delimiter : Str) :
    Nat → Nat → FormData → FormData
  | 0, _, form_data => form_data
  | fuel + 1, pos, form_data =>
    if pos < body.length then
      match UploadHandler.parse_multipart_step body delimiter pos form_data with
      | none => form_data
      | some (pos, form_data) =>
        UploadHandler.parse_multipart_loop body delimiter fuel pos form_data
    else form_data

/-- The function `UploadHandler::parse_multipart_form`: the returned flag and the form
data it leaves. Every iteration moves the position forward, so `body.length()`
iterations are enough. -/
def UploadHandler.parse_multipart_form (body boundary : Str) (form_data : FormData) :
    Bool × FormData :=
  let delimiter := "--".toList ++ boundary
  let form_data := UploadHandler.parse_multipart_loop body delimiter (body.length + 1) 0 form_data
  (!form_data.filename.isEmpty && !form_data.content.isEmpty, form_data)

/-- The loop of `UploadHandler::handle_request` that finds the `Content-Type` header of
the request: the value of the first one, the empty string when there is none. -/
def UploadHandler.find_content_type : List header → Str
  | [] => []
  | h :: rest => if h.name = "Content-Type".toList then h.value else find_content_type rest

/-- The function `UploadHandler::create_upload_form`. -/
def UploadHandler.create_upload_form (w : World) : reply :=
  BuildResponse reply.ok w.upload_form_html [content_type_header "text/html".toList]

/-- The function `UploadHandler::create_success_response`. -/
def UploadHandler.create_success_response (w : World) (path_prefix_ file_id filename : Str) :
    reply :=
  BuildResponse reply.ok (w.upload_success_html path_prefix_ file_id filename)
    [content_type_header "text/html".toList]

/-- The function `UploadHandler::create_error_response`. -/
def UploadHandler.create_error_response (w : World) (path_prefix_ error_message : Str) :
    reply :=
  BuildResponse reply.bad_request (w.upload_error_html path_prefix_ error_message)
    [content_type_header "text/html".toList]

/-- The function `UploadHandler::handle_request`. -/
def UploadHandler.handle_request (w : World) (upload_dir_ path_prefix_ : Str)
    (max_file_size_ : Nat) (request : request) : reply :=
  if !UploadHandler.is_valid_upload_path path_prefix_ request.uri then
    BuildResponse reply.not_found "404 Not Found".toList []
  else if request.method = "GET".toList then
    UploadHandler.create_upload_form w
  else if request.method = "POST".toList then
    let content_type := UploadHandler.find_content_type request.headers
    if (find content_type "multipart/form-data".toList 0).isNone then
      UploadHandler.create_error_response w path_prefix_
        "Invalid content type. Expected multipart/form-data.".toList
    else
      let boundary := UploadHandler.extract_boundary content_type
      if boundary.isEmpty then
        UploadHandler.create_error_response w path_prefix_
          "Missing boundary in Content-Type header.".toList
      else
        let parsed := UploadHandler.parse_multipart_form request.body boundary
          { filename := [], content := [], course_code := [], title := [], content_type := [] }
        let form_data := parsed.2
        if !parsed.1 then
          UploadHandler.create_error_response w path_prefix_ "Failed to parse form data.".toList
        else if !UploadHandler.validate_file max_file_size_ form_data.filename
            form_data.content.length then
          UploadHandler.create_error_response w path_prefix_
            "File validation failed. Check file type and size.".toList
        else
          let file_id := w.generate_file_id
          let sanitized_name := UploadHandler.sanitize_filename form_data.filename
          let file_path := upload_dir_ ++ "/".toList ++ file_id ++ "_".toList ++ sanitized_name
          if !w.save_file_to_disk form_data.content file_path then
            UploadHandler.create_error_response w path_prefix_
              "Failed to save file to disk.".toList
          else
            UploadHandler.create_success_response w path_prefix_ file_id form_data.filename
  else
    BuildResponse reply.bad_request "Method not allowed".toList []

/-! ## TextViewHandler (text_view_handler.cc) -/

/-- The function `urlDecode` of `TextViewHandler` and of `SimpleAuthHandler`: a `%` with
at least two bytes after it is replaced, with them, by the byte they encode; `+`
becomes a space. -/
def urlDecode (w : World) : Str → Str
  | [] => []
  | [c] => [if c = '+' then ' ' else c]
  | [c, d] => (if c = '+' then ' ' else c) :: urlDecode w [d]
  | c :: a :: b :: rest =>
    if c = '%' then w.hex_value a b :: urlDecode w rest
    else (if c = '+' then ' ' else c) :: urlDecode w (a :: b :: rest)

/-- The function `TextViewHandler::parse_uri`: the regular expression `^\/view\/(.+)$`
matches a URI that is `/view/` followed by at least one byte, which is the id; an id
with `..` in it or with a leading `/` is refused. -/
def TextViewHandler.parse_uri (uri : Str) : Option Str :=
  if "/view/".toList.isPrefixOf uri && uri.length > 6 then
    let id := uri.drop 6
    if (find id "..".toList 0).isSome || id.head? = some '/' then none
    else some id
  else none

/-- The function `TextViewHandler::handle_request`. -/
def TextViewHandler.handle_request (w : World) (view_dir_ : Str) (request : request) : reply :=
  let uri := urlDecode w request.uri
  match TextViewHandler.parse_uri uri with
  | none => BuildResponse reply.bad_request "Invalid request uri\r\n".toList []
  | some id =>
    match w.read_file view_dir_ id with
    | none => BuildResponse reply.not_found "File could not be found\r\n".toList []
    | some content =>
      match w.parse_file_extension id with
      | none =>
        BuildResponse reply.internal_server_error
          "File extension could not be extracted\r\n".toList []
      | some file_extension =>
        if file_extension = "md".toList then
          let headers := [content_type_header "text/html".toList]
          BuildResponse reply.ok (w.render_markdown content) headers
        else if file_extension = "pdf".toList then
          match w.read_pdf view_dir_ content id with
          | some content => BuildResponse reply.ok content []
          | none =>
            BuildResponse reply.internal_server_error
              "Text from PDF could not be extracted".toList []
        else if file_extension = "txt".toList then
          BuildResponse reply.ok (content ++ "\r\n".toList) []
        else
          BuildResponse reply.not_implemented "File type is not supported by server\r\n".toList []

/-! ## SimpleAuthHandler (simple_auth_handler.cc) -/

/-- The function `SimpleAuthHandler::extractFormField`. -/
def SimpleAuthHandler.extractFormField (w : World) (body field_name : Str) : Str :=
  let search := field_name ++ "=".toList
  match find body search 0 with
  | none => []
  | some pos =>
    let pos := pos + search.length
    let end_pos :=
      match find body "&".toList pos with
      | some e => e
      | none => body.length
    let value := substr body pos (end_pos - pos)
    urlDecode w value

/-- The function `SimpleAuthHandler::serveLoginForm`. -/
def SimpleAuthHandler.serveLoginForm (w : World) : reply :=
  BuildResponse reply.ok w.login_form_html [content_type_header "text/html".toList]

/-- The function `SimpleAuthHandler::handleLogin`. -/
def SimpleAuthHandler.handleLogin (w : World) (db_path : Str) (request : request) : reply :=
  let email := SimpleAuthHandler.extractFormField w request.body "email".toList
  if email.isEmpty then BuildResponse reply.bad_request "Email required".toList []
  else if !w.isValidEmail email then
    BuildResponse reply.bad_request "Invalid email format".toList []
  else
    match w.createOrUpdateUser db_path email "Student".toList with
    | .ok user_id =>
      if user_id ≤ 0 then
        BuildResponse reply.internal_server_error "Failed to create user account".toList []
      else
        let session_token := w.createSession user_id email
        let location : header := { name := "Location".toList, value := "/upload".toList }
        let cookie : header :=
          { name := "Set-Cookie".toList,
            value := "session_token=".toList ++ session_token
              ++ "; Path=/; Max-Age=3600; HttpOnly".toList }
        let headers := [location, cookie]
        BuildResponse reply.ok "Login successful. Redirecting...".toList headers
    | .error _ =>
      BuildResponse reply.internal_server_error "Login failed. Please try again.".toList []

/-- The function `SimpleAuthHandler::handleLogout`; the session it clears is read by no
reply. -/
def SimpleAuthHandler.handleLogout (_request : request) : reply :=
  let location : header := { name := "Location".toList, value := "/login".toList }
  let cookie : header :=
    { name := "Set-Cookie".toList,
      value := "session_token=; Path=/; Max-Age=0; HttpOnly".toList }
  let headers := [location, cookie]
  BuildResponse reply.moved_temporarily [] headers

/-- The function `SimpleAuthHandler::handle_request`; the table of sessions that it
cleans up first is read by no reply. -/
def SimpleAuthHandler.handle_request (w : World) (path_prefix_ db_path : Str)
    (request : request) : reply :=
  let decoded_uri := urlDecode w request.uri
  if (decoded_uri = "/login".toList || decoded_uri = path_prefix_)
      && request.method = "GET".toList then
    SimpleAuthHandler.serveLoginForm w
  else if (decoded_uri = "/login".toList || decoded_uri = path_prefix_)
      && request.method = "POST".toList then
    SimpleAuthHandler.handleLogin w db_path request
  else if decoded_uri = "/logout".toList && request.method = "POST".toList then
    SimpleAuthHandler.handleLogout request
  else
    BuildResponse reply.not_found "Authentication endpoint not found".toList []

/-! ## The handler objects -/

/-- An object of a class derived from `RequestHandler`, with its members. -/
inductive RequestHandler where
  | EchoHandler
  | NotFoundHandler
  | HealthHandler
  | SleepHandler
  | APIHandler (path_prefix_ : Str) (entity_processor_ : EntityProcessor)
  | StaticFileHandler (root_dir_ path_prefix_ : Str)
  | UploadHandler (upload_dir_ path_prefix_ : Str) (max_file_size_ : Nat)
  | TextViewHandler (view_dir_ : Str)
  | SimpleAuthHandler (path_prefix_ db_path : Str)

/-- The virtual call `handler->handle_request(request)`: the reply, or the exception
that leaves the call. -/
def RequestHandler.handle_request (w : World) : RequestHandler → request → Except Str reply
  | .EchoHandler, r => .ok (EchoHandler.handle_request r)
  | .NotFoundHandler, r => .ok (NotFoundHandler.handle_request r)
  | .HealthHandler, r => .ok (HealthHandler.handle_request r)
  | .SleepHandler, r => .ok (SleepHandler.handle_request r)
  | .APIHandler path_prefix_ ep, r => .ok (APIHandler.handle_request path_prefix_ ep r)
  | .StaticFileHandler root_dir_ path_prefix_, r =>
    StaticFileHandler.handle_request w root_dir_ path_prefix_ r
  | .UploadHandler upload_dir_ path_prefix_ max_file_size_, r =>
    .ok (UploadHandler.handle_request w upload_dir_ path_prefix_ max_file_size_ r)
  | .TextViewHandler view_dir_, r => .ok (TextViewHandler.handle_request w view_dir_ r)
  | .SimpleAuthHandler path_prefix_ db_path, r =>
    .ok (SimpleAuthHandler.handle_request w path_prefix_ db_path r)

/-! ## RequestHandlerRegistry (request_handler_registry.cc) -/

/-- What a factory call leaves: the handler, which may be null, or the exception that
leaves the factory. -/
abbrev factory_result := Except Str (Option RequestHandler)

/-- The type `RequestHandlerFactory`: from a path prefix and a config, which may be
null, to a handler, which may be null; the call may also raise. -/
abbrev RequestHandlerFactory := Str → Option NginxConfig → factory_result

/-- The process-wide table `factory_map_` behind `GetFactoryMap()`. -/
abbrev FactoryMap := StdMap RequestHandlerFactory

/-- The class `RequestHandlerRegistry`: its member `handler_configs_`. -/
structure RequestHandlerRegistry where
  handler_configs_ : StdMap HandlerConfig

namespace RequestHandlerRegistry

/-- The function `RequestHandlerRegistry::RegisterHandler`: the returned flag and the
factory table after the call. -/
def RegisterHandler (factory_map_ : FactoryMap) (name : Str) (factory : RequestHandlerFactory) :
    Bool × FactoryMap :=
  (true, factory_map_.set name factory)

/-- The body of the loop of `RequestHandlerRegistry::Init` for one entry of its argument. -/
def Init_entry (handler_configs_ : StdMap HandlerConfig) (entry : Str × HandlerConfig) :
    StdMap HandlerConfig :=
  let path := entry.1
  let config := entry.2
  let new_config : HandlerConfig := { type := [], config := none }
  let new_config := { new_config with type := config.type }
  let new_config :=
    match config.config with
    | some c => { new_config with config := some c }
    | none => new_config
  handler_configs_.set path new_config

/-- The function `RequestHandlerRegistry::Init`: the returned flag and the registry
after the call. -/
def Init (_self : RequestHandlerRegistry) (handler_configs : StdMap HandlerConfig) :
    Bool × RequestHandlerRegistry :=
  let handler_configs_ : StdMap HandlerConfig := []
  let handler_configs_ := handler_configs.foldl Init_entry handler_configs_
  (true, { handler_configs_ := handler_configs_ })

/-- The body of the loop of `RequestHandlerRegistry::FindBestMatch` for one entry. -/
def FindBestMatch_entry (uri : Str) (best_match : Str) (entry : Str × HandlerConfig) : Str :=
  let path_prefix := entry.1
  if compare_eq uri path_prefix then
    if path_prefix.length > best_match.length then path_prefix else best_match
  else best_match

/-- The function `RequestHandlerRegistry::FindBestMatch`. -/
def FindBestMatch (self : RequestHandlerRegistry) (uri : Str) : Str :=
  self.handler_configs_.foldl (FindBestMatch_entry uri) []

/-- What a call of `CreateHandler` leaves: the returned pointer (or the exception that
left the call), the reference parameter `handler_name`, the registry and the
process-wide factory table. -/
structure CreateHandlerResult where
  handler : Except Str (Option RequestHandler)
  handler_name : Str
  self : RequestHandlerRegistry
  factory_map_ : FactoryMap

/-- The function `RequestHandlerRegistry::CreateHandler`. -/
def CreateHandler (self : RequestHandlerRegistry) (factory_map_ : FactoryMap)
    (uri handler_name : Str) : CreateHandlerResult :=
  let path_prefix := self.FindBestMatch uri
  if path_prefix.isEmpty then
    { handler := .ok (some .NotFoundHandler), handler_name := handler_name,
      self := self, factory_map_ := factory_map_ }
  else
    match self.handler_configs_.at_ path_prefix with
    | .error e =>
      { handler := .error e, handler_name := handler_name,
        self := self, factory_map_ := factory_map_ }
    | .ok handler_config =>
      let handler_name := handler_config.type
      match factory_map_.find handler_config.type with
      | none =>
        { handler := .ok (some .NotFoundHandler), handler_name := handler_name,
          self := self, factory_map_ := factory_map_ }
      | some factory =>
        match factory path_prefix handler_config.config with
        | .error e =>
          { handler := .error e, handler_name := handler_name,
            self := self, factory_map_ := factory_map_ }
        | .ok none =>
          { handler := .ok (some .NotFoundHandler), handler_name := handler_name,
            self := self, factory_map_ := factory_map_ }
        | .ok (some handler) =>
          { handler := .ok (some handler), handler_name := handler_name,
            self := self, factory_map_ := factory_map_ }

/-- A sequence of `CreateHandler` calls, one for each URI, each with its own empty
`handler_name` as in `session::handle_read`: the result of every call, and the
registry and factory table after the last one. -/
def CreateHandler_calls :
    RequestHandlerRegistry → FactoryMap → List Str →
      List CreateHandlerResult × RequestHandlerRegistry × FactoryMap
  | self, factory_map_, [] => ([], self, factory_map_)
  | self, factory_map_, uri :: uris =>
    let r := CreateHandler self factory_map_ uri []
    let rest := CreateHandler_calls r.self r.factory_map_ uris
    (r :: rest.1, rest.2)

end RequestHandlerRegistry

/-! ## The request parser

The file request_parser.cpp is not part of the sources; only its tests
(tests/request_parser_test.cc) and its caller (session.cc) are. The parser below
follows section 4.2 of the specification. -/

namespace requestParser

/-- Modelled from the spec: the result of a `parse` call: `good` (request complete),
`bad` (malformed) or `indeterminate` (more bytes needed). -/
inductive result_type where
  | good
  | bad
  | indeterminate
deriving DecidableEq, Repr

/-- Modelled from the spec: the states of the parser, in the order in which section 4.2
lists them: method, space, URI, space, the literal `HTTP/`, major version, `.`, minor
version, CR LF, then the header-line loop (name, `:`, one space, value, continuation
lines) and the CR LF of the blank line. -/
inductive state where
  | method_start
  | method
  | uri
  | http_version_h
  | http_version_t_1
  | http_version_t_2
  | http_version_p
  | http_version_slash
  | http_version_major_start
  | http_version_major
  | http_version_minor_start
  | http_version_minor
  | expecting_newline_1
  | header_line_start
  | header_lws
  | header_name
  | space_before_header_value
  | header_value
  | expecting_newline_2
  | expecting_newline_3
deriving DecidableEq, Repr

/-- Modelled from the spec: a control character, `0x00`-`0x1F` or `0x7F`. -/
def is_ctl (c : Char) : Bool :=
  c.toNat ≤ 31 || c.toNat = 127

/-- Modelled from the spec: a 7-bit character. -/
def is_char (c : Char) : Bool :=
  c.toNat ≤ 127

/-- Modelled from the spec: a special character, which a method or a header name may
not hold (`@` in the tests): the separators of HTTP/1.1. -/
def is_tspecial (c : Char) : Bool :=
  c ∈ ['(', ')', '<', '>', '@', ',', ';', ':', '\\', '"', '/', '[', ']', '?', '=',
    '{', '}', ' ', '\t']

/-- Modelled from the spec: a decimal digit. -/
def is_digit (c : Char) : Bool :=
  '0'.toNat ≤ c.toNat && c.toNat ≤ '9'.toNat

/-- Modelled from the spec: a byte that a method or a header name may hold. -/
def is_token (c : Char) : Bool :=
  is_char c && !is_ctl c && !is_tspecial c

/-- Modelled from the spec: the value of a decimal digit. -/
def digit_value (c : Char) : Int :=
  (c.toNat : Int) - ('0'.toNat : Int)

/-- Modelled from the spec: append a byte to the value of the last header. -/
def push_value (c : Char) : List header → List header
  | [] => []
  | [h] => [{ h with value := h.value ++ [c] }]
  | h :: rest => h :: push_value c rest

/-- Modelled from the spec: append a byte to the name of the last header. -/
def push_name (c : Char) : List header → List header
  | [] => []
  | [h] => [{ h with name := h.name ++ [c] }]
  | h :: rest => h :: push_name c rest

/-- Modelled from the spec: the step of `request_parser` for one input byte (section
4.2): the result for that byte, the next state and the request. -/
def consume (st : state) (req : request) (c : Char) : result_type × state × request :=
  match st with
  | .method_start =>
    if !is_token c then (.bad, st, req)
    else (.indeterminate, .method, { req with method := req.method ++ [c] })
  | .method =>
    if c = ' ' then (.indeterminate, .uri, req)
    else if !is_token c then (.bad, st, req)
    else (.indeterminate, .method, { req with method := req.method ++ [c] })
  | .uri =>
    if c = ' ' then (.indeterminate, .http_version_h, req)
    else if is_ctl c then (.bad, st, req)
    else (.indeterminate, .uri, { req with uri := req.uri ++ [c] })
  | .http_version_h =>
    if c = 'H' then (.indeterminate, .http_version_t_1, req) else (.bad, st, req)
  | .http_version_t_1 =>
    if c = 'T' then (.indeterminate, .http_version_t_2, req) else (.bad, st, req)
  | .http_version_t_2 =>
    if c = 'T' then (.indeterminate, .http_version_p, req) else (.bad, st, req)
  | .http_version_p =>
    if c = 'P' then (.indeterminate, .http_version_slash, req) else (.bad, st, req)
  | .http_version_slash =>
    if c = '/' then
      (.indeterminate, .http_version_major_start,
        { req with http_version_major := 0, http_version_minor := 0 })
    else (.bad, st, req)
  | .http_version_major_start =>
    if is_digit c then
      (.indeterminate, .http_version_major,
        { req with http_version_major := req.http_version_major * 10 + digit_value c })
    else (.bad, st, req)
  | .http_version_major =>
    if c = '.' then (.indeterminate, .http_version_minor_start, req)
    else if is_digit c then
      (.indeterminate, .http_version_major,
        { req with http_version_major := req.http_version_major * 10 + digit_value c })
    else (.bad, st, req)
  | .http_version_minor_start =>
    if is_digit c then
      (.indeterminate, .http_version_minor,
        { req with http_version_minor := req.http_version_minor * 10 + digit_value c })
    else (.bad, st, req)
  | .http_version_minor =>
    if c = '\r' then (.indeterminate, .expecting_newline_1, req)
    else if is_digit c then
      (.indeterminate, .http_version_minor,
        { req with http_version_minor := req.http_version_minor * 10 + digit_value c })
    else (.bad, st, req)
  | .expecting_newline_1 =>
    if c = '\n' then (.indeterminate, .header_line_start, req) else (.bad, st, req)
  | .header_line_start =>
    if c = '\r' then (.indeterminate, .expecting_newline_3, req)
    else if !req.headers.isEmpty && (c = ' ' || c = '\t') then
      (.indeterminate, .header_lws, req)
    else if !is_token c then (.bad, st, req)
    else
      (.indeterminate, .header_name,
        { req with headers := req.headers ++ [{ name := [c], value := [] }] })
  | .header_lws =>
    if c = '\r' then (.indeterminate, .expecting_newline_2, req)
    else if c = ' ' || c = '\t' then (.indeterminate, .header_lws, req)
    else if is_ctl c then (.bad, st, req)
    else (.indeterminate, .header_value, { req with headers := push_value c req.headers })
  | .header_name =>
    if c = ':' then (.indeterminate, .space_before_header_value, req)
    else if !is_token c then (.bad, st, req)
    else (.indeterminate, .header_name, { req with headers := push_name c req.headers })
  | .space_before_header_value =>
    if c = ' ' then (.indeterminate, .header_value, req) else (.bad, st, req)
  | .header_value =>
    if c = '\r' then (.indeterminate, .expecting_newline_2, req)
    else if is_ctl c then (.bad, st, req)
    else (.indeterminate, .header_value, { req with headers := push_value c req.headers })
  | .expecting_newline_2 =>
    if c = '\n' then (.indeterminate, .header_line_start, req) else (.bad, st, req)
  | .expecting_newline_3 =>
    if c = '\n' then (.good, st, req) else (.bad, st, req)

/-- Modelled from the spec: what a call `parse(req, begin, end)` leaves: the result,
the bytes it did not consume, the state of the parser and the request. -/
structure parse_result where
  result : result_type
  rest : Str
  state_ : state
  req : request
deriving DecidableEq, Repr

/-- Modelled from the spec: the call `parse(req, begin, end)`: the bytes are consumed
one at a time until one of them gives `good` or `bad`; the result is `indeterminate`
when the bytes run out before. -/
def parse (state_ : state) (req : request) : Str → parse_result
  | [] => { result := .indeterminate, rest := [], state_ := state_, req := req }
  | c :: cs =>
    match consume state_ req c with
    | (.indeterminate, state_, req) => parse state_ req cs
    | (result, state_, req) => { result := result, rest := cs, state_ := state_, req := req }

/-- Modelled from the spec: the state of a parser after construction or `reset()`. -/
def reset : state := .method_start

/-- Modelled from the spec: a default-constructed `request`. -/
def empty_request : request :=
  { method := [], uri := [], http_version_major := 0, http_version_minor := 0,
    headers := [], body := [] }

/-- Modelled from the spec: the byte-by-byte feeding of the test `IncrementalParsing`:
one `parse` call for each byte, on the same parser and request; the results of the
calls in order, and the parser state and request after the last one. -/
def parse_bytes (state_ : state) (req : request) : Str → List result_type × state × request
  | [] => ([], state_, req)
  | c :: cs =>
    let r := parse state_ req [c]
    let rest := parse_bytes r.state_ r.req cs
    (r.result :: rest.1, rest.2)

end requestParser

namespace requestParser

/-- The state and the request after the parser has consumed `text`, when every byte of
it gave `indeterminate`; `none` when one of them gave `good` or `bad`. -/
def run (state_ : state) (req : request) : Str → Option (state × request)
  | [] => some (state_, req)
  | c :: cs =>
    match consume state_ req c with
    | (.indeterminate, state_, req) => run state_ req cs
    | _ => none

/-! ### The shape of request texts

The parts of a request text (method, URI, version digits, header name, header value,
continuation line) as sets of texts. -/

/-- The bytes of a method or of a header name: none is a control character, a special
character or outside 7-bit ASCII. -/
abbrev token_text (s : Str) : Prop :=
  ∀ c ∈ s, is_token c = true

/-- The bytes of a URI: no control character and no space (which ends the URI). -/
abbrev uri_text (s : Str) : Prop :=
  ∀ c ∈ s, is_ctl c = false ∧ c ≠ ' '

/-- Decimal digits. -/
abbrev digit_text (s : Str) : Prop :=
  ∀ c ∈ s, is_digit c = true

/-- The bytes of a header value: no control character. -/
abbrev value_text (s : Str) : Prop :=
  ∀ c ∈ s, is_ctl c = false

/-- The leading whitespace of a continuation line: spaces and tabs. -/
abbrev lws_text (s : Str) : Prop :=
  ∀ c ∈ s, c = ' ' ∨ c = '\t'

/-- A request line: method, space, URI, space, `HTTP/`, major digits, `.`, minor
digits, CR LF. -/
def request_line (m u major minor : Str) : Str :=
  m ++ ' ' :: u ++ " HTTP/".toList ++ major ++ '.' :: minor ++ "\r\n".toList

/-- A well-formed request line. -/
structure request_line_ok (m u major minor : Str) : Prop where
  method_ok : token_text m
  method_ne : m ≠ []
  uri_ok : uri_text u
  major_ok : digit_text major
  major_ne : major ≠ []
  minor_ok : digit_text minor
  minor_ne : minor ≠ []

/-- A sequence of complete well-formed header lines, each a new header `name: value`
CR LF or, after at least one header, a continuation line (whitespace, then content)
CR LF. The flag says whether the sequence holds a header. -/
inductive header_lines : Str → Bool → Prop where
  | none : header_lines [] false
  | line (b n v : Str) (had : Bool) :
      header_lines b had → token_text n → n ≠ [] → value_text v →
      header_lines (b ++ n ++ ": ".toList ++ v ++ "\r\n".toList) true
  | continuation (b ws v : Str) :
      header_lines b true → lws_text ws → ws ≠ [] → value_text v →
      header_lines (b ++ ws ++ v ++ "\r\n".toList) true

/-- The malformed request texts: each constructor is one way in which a text breaks
the validation rules of section 4.2 of the specification. -/
inductive malformed : Str → Prop where
  /-- A control character in the method. -/
  | ctl_in_method (m rest : Str) (c : Char) :
      token_text m → is_ctl c = true → malformed (m ++ c :: rest)
  /-- A special character such as `@` in the method (a space ends the method). -/
  | special_in_method (m rest : Str) (c : Char) :
      token_text m → is_tspecial c = true → c ≠ ' ' → malformed (m ++ c :: rest)
  /-- A control character in the URI. -/
  | ctl_in_uri (m u rest : Str) (c : Char) :
      token_text m → m ≠ [] → uri_text u → is_ctl c = true →
      malformed (m ++ ' ' :: u ++ c :: rest)
  /-- A non-digit where a digit of the major version is expected: as its first digit,
  or after a digit where only a digit or the `.` may follow. -/
  | major_not_digit (m u d rest : Str) (c : Char) :
      token_text m → m ≠ [] → uri_text u → digit_text d → is_digit c = false →
      (d = [] ∨ c ≠ '.') →
      malformed (m ++ ' ' :: u ++ " HTTP/".toList ++ d ++ c :: rest)
  /-- A non-digit where a digit of the minor version is expected: as its first digit,
  or after a digit where only a digit or the CR may follow. -/
  | minor_not_digit (m u major d rest : Str) (c : Char) :
      token_text m → m ≠ [] → uri_text u → digit_text major → major ≠ [] →
      digit_text d → is_digit c = false → (d = [] ∨ c ≠ '\r') →
      malformed (m ++ ' ' :: u ++ " HTTP/".toList ++ major ++ '.' :: d ++ c :: rest)
  /-- A control character in a header name, or where a header name starts (there the
  CR of the blank line and the tab of a continuation line are not part of a name). -/
  | ctl_in_header_name (m u major minor b n rest : Str) (had : Bool) (c : Char) :
      request_line_ok m u major minor → header_lines b had → token_text n →
      is_ctl c = true → (n ≠ [] ∨ (c ≠ '\r' ∧ c ≠ '\t')) →
      malformed (request_line m u major minor ++ b ++ n ++ c :: rest)
  /-- A special character such as `@` in a header name (the colon ends the name). -/
  | special_in_header_name (m u major minor b n rest : Str) (had : Bool) (c : Char) :
      request_line_ok m u major minor → header_lines b had → token_text n → n ≠ [] →
      is_tspecial c = true → c ≠ ':' →
      malformed (request_line m u major minor ++ b ++ n ++ c :: rest)
  /-- A header colon that is not followed by a space. -/
  | colon_without_space (m u major minor b n rest : Str) (had : Bool) (c : Char) :
      request_line_ok m u major minor → header_lines b had → token_text n → n ≠ [] →
      c ≠ ' ' →
      malformed (request_line m u major minor ++ b ++ n ++ ':' :: c :: rest)
  /-- A control character in a header value (the CR ends the value). -/
  | ctl_in_header_value (m u major minor b n v rest : Str) (had : Bool) (c : Char) :
      request_line_ok m u major minor → header_lines b had → token_text n → n ≠ [] →
      value_text v → is_ctl c = true → c ≠ '\r' →
      malformed (request_line m u major minor ++ b ++ n ++ ": ".toList ++ v ++ c :: rest)
  /-- A control character in the content of a header continuation line: after the
  leading whitespace `ws` and the content `v`, which does not start with a space (the
  CR ends the line; a tab before any content is leading whitespace). -/
  | ctl_in_continuation (m u major minor b ws v rest : Str) (c : Char) :
      request_line_ok m u major minor → header_lines b true → lws_text ws → ws ≠ [] →
      value_text v → v.head? ≠ some ' ' → is_ctl c = true → c ≠ '\r' →
      (v ≠ [] ∨ c ≠ '\t') →
      malformed (request_line m u major minor ++ b ++ ws ++ v ++ c :: rest)
  /-- A CR that is not followed by LF, anywhere in a text that the parser has not
  decided before the CR. -/
  | cr_without_lf (p rest : Str) (c : Char) :
      (parse reset empty_request p).result = .indeterminate → c ≠ '\n' →
      malformed (p ++ '\r' :: c :: rest)
  /-- A header line without a colon after a header line: a name followed by CR. -/
  | header_line_without_colon (m u major minor b n rest : Str) :
      request_line_ok m u major minor → header_lines b true → token_text n → n ≠ [] →
      malformed (request_line m u major minor ++ b ++ n ++ '\r' :: rest)

end requestParser

/-! ## Example data -/

/-- A registry with the three prefixes of the routing test, all of type `EchoHandler`. -/
def api_registry : RequestHandlerRegistry :=
  { handler_configs_ :=
      [("/api".toList, { type := "EchoHandler".toList, config := none }),
       ("/api/v1".toList, { type := "EchoHandler".toList, config := none }),
       ("/api/v2".toList, { type := "EchoHandler".toList, config := none })] }

/-- The factory `EchoHandler::Init`, which ignores its arguments. -/
def EchoHandler.Init : RequestHandlerFactory :=
  fun _path_prefix _config => .ok (some RequestHandler.EchoHandler)

/-- The factory `HealthHandler::Init` (health_handler.h), which ignores its arguments. -/
def HealthHandler.Init : RequestHandlerFactory :=
  fun _path_prefix _config => .ok (some RequestHandler.HealthHandler)

/-- A factory table in which `EchoHandler` is registered. -/
def echo_factory_map : FactoryMap :=
  (RequestHandlerRegistry.RegisterHandler [] "EchoHandler".toList EchoHandler.Init).2

/-- A registry left by an earlier `Init`, with the single prefix `/old`. -/
def old_registry : RequestHandlerRegistry :=
  { handler_configs_ := [("/old".toList, { type := "StaticHandler".toList, config := none })] }

/-- The mapping of the test `CanCreateHandlerFromRegistry` with a second entry that has
a config block `root /usr/src/static;`. -/
def test_handler_configs : StdMap HandlerConfig :=
  [("/echo".toList, { type := "EchoHandler".toList, config := none }),
   ("/static".toList,
     { type := "StaticHandler".toList,
       config := some (NginxConfig.mk
         [NginxConfigStatement.mk ["root".toList, "/usr/src/static".toList] none]) })]

/-! ## Serialisation of replies

The file reply.cc is not part of the sources; only its tests (tests/reply_test.cc) and
its callers are. The functions below follow section 4.5 of the specification and the
texts that the tests expect. -/

namespace reply
/-- Modelled from the spec: the status `reply::created`, serialised as `201`. -/
def created : status_type := 201
/-- Modelled from the spec: the status `reply::accepted`, serialised as `202`. -/
def accepted : status_type := 202
/-- Modelled from the spec: the status `reply::no_content`, serialised as `204`. -/
def no_content : status_type := 204
/-- Modelled from the spec: the status `reply::multiple_choices`, serialised as `300`. -/
def multiple_choices : status_type := 300
/-- Modelled from the spec: the status `reply::moved_permanently`, serialised as `301`. -/
def moved_permanently : status_type := 301
/-- Modelled from the spec: the status `reply::not_modified`, serialised as `304`. -/
def not_modified : status_type := 304
/-- Modelled from the spec: the status `reply::unauthorized`, serialised as `401`. -/
def unauthorized : status_type := 401
/-- Modelled from the spec: the status `reply::forbidden`, serialised as `403`. -/
def forbidden : status_type := 403
/-- Modelled from the spec: the status `reply::bad_gateway`, serialised as `502`. -/
def bad_gateway : status_type := 502
/-- Modelled from the spec: the status `reply::service_unavailable`, serialised as `503`. -/
def service_unavailable : status_type := 503

/-- Modelled from the spec: the known statuses with their reason phrases, as the test
`AllStatusCodes` lists them. -/
def known_statuses : List (status_type × Str) :=
  [(ok, "OK".toList), (created, "Created".toList), (accepted, "Accepted".toList),
   (no_content, "No Content".toList), (multiple_choices, "Multiple Choices".toList),
   (moved_permanently, "Moved Permanently".toList),
   (moved_temporarily, "Moved Temporarily".toList), (not_modified, "Not Modified".toList),
   (bad_request, "Bad Request".toList), (unauthorized, "Unauthorized".toList),
   (forbidden, "Forbidden".toList), (not_found, "Not Found".toList),
   (internal_server_error, "Internal Server Error".toList),
   (not_implemented, "Not Implemented".toList), (bad_gateway, "Bad Gateway".toList),
   (service_unavailable, "Service Unavailable".toList)]

/-- Modelled from the spec: the status line that `to_buffers` emits for a status: one
fixed text for each known status, and the text of `internal_server_error` for every
other value. -/
def status_line (status : status_type) : Str :=
  if status = ok then "HTTP/1.1 200 OK\r\n".toList
  else if status = created then "HTTP/1.1 201 Created\r\n".toList
  else if status = accepted then "HTTP/1.1 202 Accepted\r\n".toList
  else if status = no_content then "HTTP/1.1 204 No Content\r\n".toList
  else if status = multiple_choices then "HTTP/1.1 300 Multiple Choices\r\n".toList
  else if status = moved_permanently then "HTTP/1.1 301 Moved Permanently\r\n".toList
  else if status = moved_temporarily then "HTTP/1.1 302 Moved Temporarily\r\n".toList
  else if status = not_modified then "HTTP/1.1 304 Not Modified\r\n".toList
  else if status = bad_request then "HTTP/1.1 400 Bad Request\r\n".toList
  else if status = unauthorized then "HTTP/1.1 401 Unauthorized\r\n".toList
  else if status = forbidden then "HTTP/1.1 403 Forbidden\r\n".toList
  else if status = not_found then "HTTP/1.1 404 Not Found\r\n".toList
  else if status = internal_server_error then
    "HTTP/1.1 500 Internal Server Error\r\n".toList
  else if status = not_implemented then "HTTP/1.1 501 Not Implemented\r\n".toList
  else if status = bad_gateway then "HTTP/1.1 502 Bad Gateway\r\n".toList
  else if status = service_unavailable then "HTTP/1.1 503 Service Unavailable\r\n".toList
  else "HTTP/1.1 500 Internal Server Error\r\n".toList

/-- Modelled from the spec: the buffers of one header: name, `: `, value, CR LF. -/
def header_buffers (h : header) : List Str :=
  [h.name, ": ".toList, h.value, "\r\n".toList]

/-- Modelled from the spec: the function `reply::to_buffers`: the status line, four
buffers for each header, the CR LF of the blank line and the content (the test
`MultipleHeaders` counts `1 + 4 * n + 1 + 1` buffers). -/
def to_buffers (r : reply) : List Str :=
  [status_line r.status] ++ (r.headers.map header_buffers).flatten
    ++ ["\r\n".toList] ++ [r.content]

/-- Modelled from the spec: the function `reply::stock_reply(status, content)`: the
content with the headers `Content-Length` and `Content-Type: text/plain` (test
`StockReply`). -/
def stock_reply (status : status_type) (content : Str) : reply :=
  { status := status, content := content,
    headers := [{ name := "Content-Length".toList, value := to_string content.length },
                { name := "Content-Type".toList, value := "text/plain".toList }] }

/-- Modelled from the spec: the function `reply::build_malformed_req_response`: the
stock reply for a malformed request, status 400 with a fixed text (test
`MalformedReqReply`). -/
def build_malformed_req_response : reply :=
  stock_reply bad_request "Request is malformed and cannot be processed\r\n".toList

end reply

/-- The bytes that a list of buffers puts on the wire: their concatenation. -/
def wire_text (buffers : List Str) : Str :=
  buffers.flatten

/-- The text `name: value` CR LF of each header in list order. -/
def header_lines_text : List header → Str
  | [] => []
  | h :: rest => h.name ++ ": ".toList ++ h.value ++ "\r\n".toList ++ header_lines_text rest

/-! ## Conversions of the C++ library -/

/-- The predicate `isspace` of the C locale. -/
def std_isspace (c : Char) : Bool :=
  c = ' ' || c = '\t' || c = '\n' || c = '\x0b' || c = '\x0c' || c = '\r'

/-- The predicate `isdigit`. -/
def std_isdigit (c : Char) : Bool :=
  '0'.toNat ≤ c.toNat && c.toNat ≤ '9'.toNat

/-- The value of a run of decimal digits. -/
def decimal_value (digits : Str) : Nat :=
  digits.foldl (fun acc c => acc * 10 + (c.toNat - '0'.toNat)) 0

/-- The number that `strtol` and `strtoull` read in base 10: after leading whitespace,
an optional sign and the longest run of digits; what follows the digits is ignored.
The result is whether the sign is `-` and the value of the digits, `none` when there
is no digit. -/
def parse_number (s : Str) : Option (Bool × Nat) :=
  let s := s.dropWhile std_isspace
  let negative := decide (s.head? = some '-')
  let s := if s.head? = some '-' || s.head? = some '+' then s.drop 1 else s
  let digits := s.takeWhile std_isdigit
  if digits.isEmpty then none else some (negative, decimal_value digits)

/-- The largest `int` (32 bits). -/
def INT_MAX : Int := 2147483647

/-- The smallest `int` (32 bits). -/
def INT_MIN : Int := -2147483648

/-- The number of values of `size_t` and of `unsigned long long` (64 bits). -/
def SIZE_RANGE : Nat := 2 ^ 64

/-- The function `std::stoi`: `std::invalid_argument` when no number can be read,
`std::out_of_range` when the number is not an `int`. -/
def stoi (s : Str) : Except Str Int :=
  match parse_number s with
  | none => .error "std::invalid_argument".toList
  | some (negative, n) =>
    let v : Int := if negative then -(n : Int) else (n : Int)
    if v < INT_MIN ∨ INT_MAX < v then .error "std::out_of_range".toList else .ok v

/-- The function `std::stoull`: `std::invalid_argument` when no number can be read,
`std::out_of_range` when the digits exceed `unsigned long long`; a number with a `-`
sign is negated in `unsigned long long`. -/
def stoull (s : Str) : Except Str Nat :=
  match parse_number s with
  | none => .error "std::invalid_argument".toList
  | some (negative, n) =>
    if n ≥ SIZE_RANGE then .error "std::out_of_range".toList
    else .ok (if negative then (SIZE_RANGE - n) % SIZE_RANGE else n)

/-- The conversion of an `int` to `size_t`. -/
def to_size_t (v : Int) : Nat :=
  (v % (SIZE_RANGE : Int)).toNat

/-! ## session (session.cc) -/

/-- A `boost::system::error_code`: its value, zero when no error is set. -/
abbrev error_code := Int

/-- The enumeration `session::SessionAction` (session.h). -/
inductive SessionAction where
  | ReadAgain
  | WriteResponse
  | Close
deriving DecidableEq, Repr

/-- Modelled from the spec: the integer values of the enumerators of
`request_parser::result_type` (request_parser.hpp is not part of the sources), in the
order in which the spec lists them: `good`, `bad`, `indeterminate`. -/
def requestParser.result_type.toInt : requestParser.result_type → Int
  | .good => 0
  | .bad => 1
  | .indeterminate => 2

/-- The object `http::server::request req;` before parsing: empty strings and lists;
`major` and `minor` are whatever the two version fields hold at that point. -/
def requestParser.fresh_request (major minor : Int) : request :=
  { method := [], uri := [], http_version_major := major, http_version_minor := minor,
    headers := [], body := [] }

namespace session

/-- The loop of `session::handle_read` over the headers of the request: the value of
`size_t content_length` after it. Only the first header named `Content-Length` is
looked at; when `std::stoi` throws, the value stays 0. -/
def content_length_loop : List header → Nat
  | [] => 0
  | h :: rest =>
    if h.name = "Content-Length".toList then
      match stoi h.value with
      | .ok v => to_size_t v
      | .error _ => 0
    else content_length_loop rest

/-- The step of `session::handle_read` that reads the body: the request after it, and
the length given to `request_parser::parse_request_body` when that function is called.
The function `parse_request_body` is not part of the sources and is a parameter: from
the buffer, the number of bytes read, the body so far and the content length to the new
body. -/
def read_body (parse_request_body : Str → Nat → Str → Nat → Str) (data : Str)
    (req : request) : request × Option Nat :=
  let content_length := content_length_loop req.headers
  if content_length > 0 then
    ({ req with body := parse_request_body data data.length req.body content_length },
      some content_length)
  else (req, none)

/-- What a call of `session::handle_read` does. -/
structure handle_read_result where
  /-- Whether the session deleted itself. -/
  deleted : Bool
  /-- The content length given to `parse_request_body`, when it was called. -/
  body_call : Option Nat
  /-- The URI given to `CreateHandler`, when it was called. -/
  create_handler_call : Option Str
  /-- The reply, or the exception that left the call; `none` when none was built. -/
  rep : Option (Except Str reply)
  /-- The buffers given to `async_write`, when it was called. -/
  buffers : Option (List Str)

/-- The function `session::handle_read`, on the bytes `data` that the read transferred.
Logging and the address of the peer are not part of the model. -/
def handle_read (handler_registry_ : RequestHandlerRegistry) (factory_map_ : FactoryMap)
    (w : World) (parse_request_body : Str → Nat → Str → Nat → Str) (major minor : Int)
    (error : error_code) (data : Str) : handle_read_result :=
  if error = 0 then
    let handler_name : Str := []
    let req := requestParser.fresh_request major minor
    let req_parse_results := requestParser.parse requestParser.reset req data
    let req := req_parse_results.req
    let is_malformed := decide (req_parse_results.result.toInt ≠ 0)
    if is_malformed then
      let rep := reply.build_malformed_req_response
      { deleted := false, body_call := none, create_handler_call := none,
        rep := some (.ok rep), buffers := some (reply.to_buffers rep) }
    else
      let body := read_body parse_request_body data req
      let req := body.1
      let created := handler_registry_.CreateHandler factory_map_ req.uri handler_name
      match created.handler with
      | .ok (some handler) =>
        match handler.handle_request w req with
        | .ok rep =>
          { deleted := false, body_call := body.2, create_handler_call := some req.uri,
            rep := some (.ok rep), buffers := some (reply.to_buffers rep) }
        | .error e =>
          { deleted := false, body_call := body.2, create_handler_call := some req.uri,
            rep := some (.error e), buffers := none }
      | .ok none =>
        { deleted := false, body_call := body.2, create_handler_call := some req.uri,
          rep := some (.error "null handler".toList), buffers := none }
      | .error e =>
        { deleted := false, body_call := body.2, create_handler_call := some req.uri,
          rep := some (.error e), buffers := none }
  else
    { deleted := true, body_call := none, create_handler_call := none, rep := none,
      buffers := none }

/-- The function `session::process_read`: the action and the buffer list `out` after
the call, or the exception that leaves it. -/
def process_read (handler_registry_ : RequestHandlerRegistry) (factory_map_ : FactoryMap)
    (w : World) (major minor : Int) (error : error_code) (data : Str) (out : List Str) :
    Except Str (SessionAction × List Str) :=
  if error ≠ 0 then .ok (SessionAction.Close, out)
  else
    let req := requestParser.fresh_request major minor
    let req := (requestParser.parse requestParser.reset req data).req
    if req.method = "GET".toList ∧ req.http_version_major = 1 ∧ req.http_version_minor = 1 then
      let handler_name : Str := []
      let created := handler_registry_.CreateHandler factory_map_ req.uri handler_name
      match created.handler with
      | .ok (some handler) =>
        match handler.handle_request w req with
        | .ok rep => .ok (SessionAction.WriteResponse, reply.to_buffers rep)
        | .error e => .error e
      | .ok none => .error "null handler".toList
      | .error e => .error e
    else .ok (SessionAction.WriteResponse, [])

/-- The function `session::process_write`. -/
def process_write (error : error_code) : SessionAction :=
  if error = 0 then SessionAction.ReadAgain else SessionAction.Close

end session

/-- A world in which no file and no database exists and every page is empty. -/
def quiet_world : World :=
  { ReadFile := fun _ => .ok none
    generate_file_id := []
    save_file_to_disk := fun _ _ => false
    upload_form_html := []
    upload_success_html := fun _ _ _ => []
    upload_error_html := fun _ _ => []
    hex_value := fun _ _ => ' '
    read_file := fun _ _ => none
    parse_file_extension := fun _ => none
    render_markdown := fun s => s
    read_pdf := fun _ _ _ => none
    isValidEmail := fun _ => false
    createOrUpdateUser := fun _ _ _ => .ok 0
    createSession := fun _ _ => []
    login_form_html := [] }

/-- The registry of the session tests: the single prefix `/echo`, of type
`EchoHandler`. -/
def echo_registry : RequestHandlerRegistry :=
  { handler_configs_ := [("/echo".toList, { type := "EchoHandler".toList, config := none })] }

/-- A stand-in for `request_parser::parse_request_body` that takes the last
`content_length` bytes of the buffer. -/
def last_bytes (data : Str) (bytes_transferred : Nat) (_body : Str) (content_length : Nat) :
    Str :=
  (data.take bytes_transferred).drop (bytes_transferred - content_length)

/-- The value of the first header named `Content-Length`, if there is one. -/
def first_content_length : List header → Option Str
  | [] => none
  | h :: rest => if h.name = "Content-Length".toList then some h.value
    else first_content_length rest

/-! ## The interrupt handler (server_main.cc) -/

/-- The signal number `SIGINT` of `<signal.h>`. -/
def SIGINT : Int := 2

/-- The signal number `SIGTERM` of `<signal.h>`. -/
def SIGTERM : Int := 15

/-- The line that `server_log::log_server_close` writes to the log (server_log.cc). -/
def log_server_close : Str :=
  "[ServerClose] message:\"Server has shutdown\"".toList

/-- How a process ends: the lines it logged on the way and the exit status that its
parent sees, the low eight bits of the argument of `exit`. -/
structure process_end where
  log : List Str
  exit_status : Int
deriving DecidableEq, Repr

/-- The function `interrupt_handler` of server_main.cc: it logs the shutdown and calls
`exit(signal_number)`. -/
def interrupt_handler (_error : error_code) (signal_number : Int) : process_end :=
  let log := [log_server_close]
  { log := log, exit_status := signal_number % 256 }

/-! ## Handler factories -/

mutual
/-- Modelled from the spec: the function `NginxConfig::FindConfigToken`
(config_parser.cc is not part of the sources): the statements are searched in order, a
statement whose first token is the name gives its second token, and otherwise its child
block is searched before the next statement. -/
def FindConfigToken (token_name : Str) : NginxConfig → Str
  | .mk statements_ => FindConfigToken_statements token_name statements_
/-- Modelled from the spec: the loop of `FindConfigToken` over the statements of a
block. -/
def FindConfigToken_statements (token_name : Str) : List NginxConfigStatement → Str
  | [] => []
  | statement :: rest =>
    match FindConfigToken_statement token_name statement with
    | some found => found
    | none => FindConfigToken_statements token_name rest
/-- Modelled from the spec: the body of the loop of `FindConfigToken` for one
statement: the value found in it, `none` when the loop goes on. -/
def FindConfigToken_statement (token_name : Str) : NginxConfigStatement → Option Str
  | .mk tokens_ child_block_ =>
    if tokens_.length ≥ 2 ∧ tokens_.head? = some token_name then tokens_.get? 1
    else
      match child_block_ with
      | some block =>
        let result := FindConfigToken token_name block
        if !result.isEmpty then some result else none
      | none => none
end

/-- The factory `APIHandler::Init` (api_handler.h). The entity processor that it makes
for a data path is a parameter. -/
def APIHandler.Init (make_entity_processor : Str → EntityProcessor) ( path_prefix : Str)
    (config : Option NginxConfig) : factory_result :=
  match config with
  | none => .ok none
  | some config =>
    let data_path := FindConfigToken "data_path".toList config
    if data_path.isEmpty then .ok none
    else .ok (some (RequestHandler.APIHandler path_prefix (make_entity_processor data_path)))

/-- The factory `StaticFileHandler::Init` (static_handler.h). -/
def StaticFileHandler.Init ( path_prefix : Str) (config : Option NginxConfig) :
    factory_result :=
  match config with
  | none => .ok none
  | some config =>
    let root_dir := FindConfigToken "root".toList config
    if root_dir.isEmpty then .ok none
    else .ok (some (RequestHandler.StaticFileHandler root_dir path_prefix))

/-- The factory `TextViewHandler::Init` (text_view_handler.h). The answer of
`std::filesystem::exists(view_dir)` is a parameter: whether the directory exists, or
the exception the call throws (for a name the file system refuses, such as one that is
too long); nothing in `Init` catches it. The call of `create_directories` for a missing
directory stands in a `try` block and changes nothing in the handler. -/
def TextViewHandler.Init (filesystem_exists : Str → Except Str Bool) ( _path_prefix : Str)
    (config : Option NginxConfig) : factory_result :=
  match config with
  | none => .ok none
  | some config =>
    let view_dir := FindConfigToken "view_dir".toList config
    if view_dir.isEmpty then .ok none
    else if (find view_dir "..".toList 0).isSome || view_dir.head? = some '/' then .ok none
    else
      match filesystem_exists view_dir with
      | .error e => .error e
      | .ok _ => .ok (some (RequestHandler.TextViewHandler view_dir))

/-- The factory `UploadHandler::Init` (upload_handler.cc); `std::stoull` may throw. -/
def UploadHandler.Init ( path_prefix : Str) (config : Option NginxConfig) : factory_result :=
  match config with
  | none => .ok none
  | some config =>
    let upload_dir := "./uploads".toList
    let max_file_size := 10 * 1024 * 1024
    let config_upload_dir := FindConfigToken "upload_dir".toList config
    let upload_dir := if !config_upload_dir.isEmpty then config_upload_dir else upload_dir
    let max_size_str := FindConfigToken "max_file_size".toList config
    if !max_size_str.isEmpty then
      match stoull max_size_str with
      | .error e => .error e
      | .ok max_file_size =>
        .ok (some (RequestHandler.UploadHandler upload_dir path_prefix max_file_size))
    else .ok (some (RequestHandler.UploadHandler upload_dir path_prefix max_file_size))

/-- The factory `SimpleAuthHandler::Init` (simple_auth_handler.cc). -/
def SimpleAuthHandler.Init ( path_prefix : Str) (config : Option NginxConfig) :
    factory_result :=
  let db_path := "data/notes_app.db".toList
  let db_path :=
    match config with
    | some config =>
      let config_db_path := FindConfigToken "db_path".toList config
      if !config_db_path.isEmpty then config_db_path else db_path
    | none => db_path
  .ok (some (RequestHandler.SimpleAuthHandler path_prefix db_path))

/-- Modelled from the spec: the factory `NotFoundHandler::Init` (not_found_handler.hpp
is not part of the sources): like `HealthHandler::Init`, a handler without options. -/
def NotFoundHandler.Init : RequestHandlerFactory :=
  fun _path_prefix _config => .ok (some RequestHandler.NotFoundHandler)

/-- Modelled from the spec: the factory `SleepHandler::Init` (sleep_handler.h is not
part of the sources): like `HealthHandler::Init`, a handler without options. -/
def SleepHandler.Init : RequestHandlerFactory :=
  fun _path_prefix _config => .ok (some RequestHandler.SleepHandler)

/-- The factories that the handlers of the repository register with `RegisterHandler`,
under the names they register them with. -/
def registered_factories (make_entity_processor : Str → EntityProcessor)
    (filesystem_exists : Str → Except Str Bool) : List (Str × RequestHandlerFactory) :=
  [("EchoHandler".toList, EchoHandler.Init),
   ("NotFoundHandler".toList, NotFoundHandler.Init),
   ("HealthHandler".toList, HealthHandler.Init),
   ("SleepHandler".toList, SleepHandler.Init),
   ("APIHandler".toList, APIHandler.Init make_entity_processor),
   ("StaticHandler".toList, StaticFileHandler.Init),
   ("UploadHandler".toList, UploadHandler.Init),
   ("TextViewHandler".toList, TextViewHandler.Init filesystem_exists),
   ("SimpleAuthHandler".toList, SimpleAuthHandler.Init)]

/-- A config block with the single statement `name value;`. -/
def single_option (name value : Str) : NginxConfig :=
  NginxConfig.mk [NginxConfigStatement.mk [name, value] none]

/-- An entity processor that finds nothing and creates nothing. -/
def empty_entity_processor (_data_path : Str) : EntityProcessor :=
  { CreateEntity := fun _ _ => []
    RetrieveEntity := fun _ _ => none
    UpdateEntity := fun _ _ _ => false
    DeleteEntity := fun _ _ => false
    ListEntities := fun _ => none }

/-! ## Extraction of the handler table

The file config_parser.cc is not part of the sources; only its header (config_parser.h),
its tests (tests/config_parser_test.cc) and its callers are. The functions below
follow section 4.1 of the specification and the results that the tests expect. -/

/-- Modelled from the spec: the test of `ExtractHandlerConfigs` for a path with a
trailing slash (config_parser.cc is not part of the sources): the path ends in `/` and is
not the root path `/` itself. -/
def has_trailing_slash (path : Str) : Bool :=
  path.length > 1 && path.getLast? = some '/'

/-- Modelled from the spec: the body of the loop of `NginxConfig::ExtractHandlerConfigs`
(config_parser.cc is not part of the sources) for one top-level statement: a statement
`location <path> <HandlerType>` with a child block is entered under its path, unless
the path has a trailing slash or has an entry already; every other statement is
skipped. -/
def ExtractHandlerConfigs_statement (handler_configs : StdMap HandlerConfig) :
    NginxConfigStatement → StdMap HandlerConfig
  | .mk [keyword, path, handler_type] (some block) =>
    if keyword = "location".toList then
      if has_trailing_slash path then handler_configs
      else if (handler_configs.find path).isSome then handler_configs
      else handler_configs.set path { type := handler_type, config := some block }
    else handler_configs
  | _ => handler_configs

/-- Modelled from the spec: the function `NginxConfig::ExtractHandlerConfigs`
(config_parser.cc is not part of the sources): the loop over the top-level statements,
from an empty mapping. -/
def ExtractHandlerConfigs : NginxConfig → StdMap HandlerConfig
  | .mk statements_ => statements_.foldl ExtractHandlerConfigs_statement []

/-- The entry that a statement stands for in the words of the specification: a
statement of the form `location <path> <HandlerType>` with a block, whose path has no
trailing slash, stands for the entry of its path with that handler type and block. -/
def location_entry : NginxConfigStatement → Option (Str × HandlerConfig)
  | .mk [keyword, path, handler_type] (some block) =>
    if keyword = "location".toList ∧ has_trailing_slash path = false then
      some (path, { type := handler_type, config := some block })
    else none
  | _ => none

/-- A statement `location <tokens...>` with an empty block. -/
def location_statement (tokens : List Str) : NginxConfigStatement :=
  NginxConfigStatement.mk ("location".toList :: tokens) (some (NginxConfig.mk []))

/-- The statement `port 8080;`. -/
def port_statement : NginxConfigStatement :=
  NginxConfigStatement.mk ["port".toList, "8080".toList] none

/-- The handler types of a mapping, by path. -/
def handler_types (m : StdMap HandlerConfig) : List (Str × Str) :=
  m.map (fun e => (e.1, e.2.type))

/-! ## The config parser and the serialisation of a config

The file config_parser.cc is not part of the sources. The tokenizer and `Parse` follow
the grammar of section 4.1 of the specification and the declarations of
config_parser.h; `ToString` follows its declaration (a depth for each block) and the
texts that the test `ToString_NestedBlocks` looks for. -/

/-- The enum `NginxConfigParser::TokenType` (config_parser.h). -/
inductive TokenType where
  | TOKEN_TYPE_START
  | TOKEN_TYPE_NORMAL
  | TOKEN_TYPE_START_BLOCK
  | TOKEN_TYPE_END_BLOCK
  | TOKEN_TYPE_COMMENT
  | TOKEN_TYPE_STATEMENT_END
  | TOKEN_TYPE_EOF
  | TOKEN_TYPE_ERROR
deriving DecidableEq, Repr

/-- The enum `NginxConfigParser::TokenParserState` (config_parser.h). -/
inductive TokenParserState where
  | TOKEN_STATE_INITIAL_WHITESPACE
  | TOKEN_STATE_SINGLE_QUOTE
  | TOKEN_STATE_DOUBLE_QUOTE
  | TOKEN_STATE_TOKEN_TYPE_COMMENT
  | TOKEN_STATE_TOKEN_TYPE_NORMAL
deriving DecidableEq, Repr

open TokenType TokenParserState

/-- The bytes that separate tokens: space, tab, line feed and carriage return. -/
def config_space (c : Char) : Bool :=
  c = ' ' || c = '\t' || c = '\n' || c = '\r'

/-- The bytes that end a token scanned in the state `TOKEN_STATE_TOKEN_TYPE_NORMAL`:
white space, `;` and the two braces. -/
def ends_normal_token (c : Char) : Bool :=
  config_space c || c = ';' || c = '{' || c = '}'

/-- The result of one call of `ParseToken`: the type of the token, its value, and the
input that is left. -/
abbrev token_result := TokenType × Str × Str

/-- Modelled from the spec: the scanner `NginxConfigParser::ParseToken`
(config_parser.cc is not part of the sources) in one of its four states after the first
byte of a token; the initial state is `ParseToken` itself. A quoted token ends with its
closing quote and keeps both quotes, and an input that ends inside it is an error; a
comment ends at the end of its line; a normal token ends before white space, `;` or a
brace; the end of the input ends a comment and a normal token. -/
def ParseToken_scan : TokenParserState → Str → Str → token_result
  | TOKEN_STATE_SINGLE_QUOTE, value, [] => (TOKEN_TYPE_ERROR, value, [])
  | TOKEN_STATE_DOUBLE_QUOTE, value, [] => (TOKEN_TYPE_ERROR, value, [])
  | TOKEN_STATE_TOKEN_TYPE_COMMENT, value, [] => (TOKEN_TYPE_COMMENT, value, [])
  | TOKEN_STATE_TOKEN_TYPE_NORMAL, value, [] => (TOKEN_TYPE_NORMAL, value, [])
  | TOKEN_STATE_INITIAL_WHITESPACE, value, [] => (TOKEN_TYPE_EOF, value, [])
  | TOKEN_STATE_SINGLE_QUOTE, value, c :: input =>
    if c = '\'' then (TOKEN_TYPE_NORMAL, value ++ [c], input)
    else ParseToken_scan TOKEN_STATE_SINGLE_QUOTE (value ++ [c]) input
  | TOKEN_STATE_DOUBLE_QUOTE, value, c :: input =>
    if c = '"' then (TOKEN_TYPE_NORMAL, value ++ [c], input)
    else ParseToken_scan TOKEN_STATE_DOUBLE_QUOTE (value ++ [c]) input
  | TOKEN_STATE_TOKEN_TYPE_COMMENT, value, c :: input =>
    if c = '\n' ∨ c = '\r' then (TOKEN_TYPE_COMMENT, value, input)
    else ParseToken_scan TOKEN_STATE_TOKEN_TYPE_COMMENT (value ++ [c]) input
  | TOKEN_STATE_TOKEN_TYPE_NORMAL, value, c :: input =>
    if ends_normal_token c then (TOKEN_TYPE_NORMAL, value, c :: input)
    else ParseToken_scan TOKEN_STATE_TOKEN_TYPE_NORMAL (value ++ [c]) input
  | TOKEN_STATE_INITIAL_WHITESPACE, value, c :: input =>
    if c = '{' then (TOKEN_TYPE_START_BLOCK, [c], input)
    else if c = '}' then (TOKEN_TYPE_END_BLOCK, [c], input)
    else if c = '#' then ParseToken_scan TOKEN_STATE_TOKEN_TYPE_COMMENT [c] input
    else if c = '"' then ParseToken_scan TOKEN_STATE_DOUBLE_QUOTE [c] input
    else if c = '\'' then ParseToken_scan TOKEN_STATE_SINGLE_QUOTE [c] input
    else if c = ';' then (TOKEN_TYPE_STATEMENT_END, [c], input)
    else if config_space c then ParseToken_scan TOKEN_STATE_INITIAL_WHITESPACE value input
    else ParseToken_scan TOKEN_STATE_TOKEN_TYPE_NORMAL (value ++ [c]) input

/-- Modelled from the spec: the function `NginxConfigParser::ParseToken`
(config_parser.cc is not part of the sources): one token from the head of the input,
scanned from the state `TOKEN_STATE_INITIAL_WHITESPACE` with an empty value. -/
def ParseToken (input : Str) : token_result :=
  ParseToken_scan TOKEN_STATE_INITIAL_WHITESPACE [] input

/-- The change of `statements_.back()` by `f`; an empty vector stays as it is. -/
def update_back {α : Type} (f : α → α) : List α → List α
  | [] => []
  | [a] => [f a]
  | a :: rest => a :: update_back f rest

/-- The call `statement->tokens_.push_back(token)`. -/
def push_token (token : Str) : NginxConfigStatement → NginxConfigStatement
  | .mk tokens_ child_block_ => .mk (tokens_ ++ [token]) child_block_

/-- The assignment of a block to `statement->child_block_`. -/
def set_child_block (block : List NginxConfigStatement) :
    NginxConfigStatement → NginxConfigStatement
  | .mk tokens_ _ => .mk tokens_ (some (NginxConfig.mk block))

/-- Modelled from the spec: the loop of `NginxConfigParser::Parse` (config_parser.cc is
not part of the sources) over the tokens of the input. The stack holds the statements of
the blocks that are open, the innermost first; a block is handed to the statement that
opened it when it closes. The parse fails on an error token, on `;` or an opening brace
that does not follow a normal token, on a closing brace that follows a normal token or
closes no block, and at the end of the input inside a statement or a block. The fuel
bounds the number of tokens. -/
def Parse_loop :
    Nat → Str → List (List NginxConfigStatement) → TokenType → Option NginxConfig
  | 0, _, _, _ => none
  | fuel + 1, input, config_stack, last_token_type =>
    match ParseToken input with
    | (TOKEN_TYPE_ERROR, _, _) => none
    | (TOKEN_TYPE_START, _, _) => none
    | (TOKEN_TYPE_COMMENT, _, rest) => Parse_loop fuel rest config_stack last_token_type
    | (TOKEN_TYPE_NORMAL, token, rest) =>
      match config_stack with
      | [] => none
      | top :: below =>
        if last_token_type = TOKEN_TYPE_NORMAL then
          Parse_loop fuel rest (update_back (push_token token) top :: below)
            TOKEN_TYPE_NORMAL
        else
          Parse_loop fuel rest ((top ++ [NginxConfigStatement.mk [token] none]) :: below)
            TOKEN_TYPE_NORMAL
    | (TOKEN_TYPE_STATEMENT_END, _, rest) =>
      if last_token_type = TOKEN_TYPE_NORMAL then
        Parse_loop fuel rest config_stack TOKEN_TYPE_STATEMENT_END
      else none
    | (TOKEN_TYPE_START_BLOCK, _, rest) =>
      if last_token_type = TOKEN_TYPE_NORMAL then
        Parse_loop fuel rest ([] :: config_stack) TOKEN_TYPE_START_BLOCK
      else none
    | (TOKEN_TYPE_END_BLOCK, _, rest) =>
      if last_token_type = TOKEN_TYPE_STATEMENT_END
          ∨ last_token_type = TOKEN_TYPE_START_BLOCK
          ∨ last_token_type = TOKEN_TYPE_END_BLOCK then
        match config_stack with
        | block :: top :: below =>
          Parse_loop fuel rest (update_back (set_child_block block) top :: below)
            TOKEN_TYPE_END_BLOCK
        | _ => none
      else none
    | (TOKEN_TYPE_EOF, _, _) =>
      if last_token_type = TOKEN_TYPE_START
          ∨ last_token_type = TOKEN_TYPE_STATEMENT_END
          ∨ last_token_type = TOKEN_TYPE_END_BLOCK then
        match config_stack with
        | [top] => some (NginxConfig.mk top)
        | _ => none
      else none

/-- Modelled from the spec: the function `NginxConfigParser::Parse` on the text of a
stream (config_parser.cc is not part of the sources): the parsed config, `none` when the
parse fails. Every token but the last takes a byte of the input, so the fuel is
enough. -/
def Parse (config_file : Str) : Option NginxConfig :=
  Parse_loop (config_file.length + 1) config_file [[]] TOKEN_TYPE_START

/-- The indentation of a statement in a block of the given depth: two spaces for each
level. -/
def indentation : Nat → Str
  | 0 => []
  | depth + 1 => "  ".toList ++ indentation depth

/-- The tokens of a statement, separated by single spaces. -/
def ToString_tokens : List Str → Str
  | [] => []
  | [token] => token
  | token :: rest => token ++ " ".toList ++ ToString_tokens rest

mutual
/-- Modelled from the spec: the function `NginxConfig::ToString(depth)`
(config_parser.cc is not part of the sources): the texts of the statements, one after
the other. -/
def NginxConfig.ToString (depth : Nat) : NginxConfig → Str
  | .mk statements_ => ToString_statements depth statements_
/-- Modelled from the spec: the loop of `NginxConfig::ToString` over the statements. -/
def ToString_statements (depth : Nat) : List NginxConfigStatement → Str
  | [] => []
  | statement :: rest =>
    NginxConfigStatement.ToString depth statement ++ ToString_statements depth rest
/-- Modelled from the spec: the function `NginxConfigStatement::ToString(depth)`
(config_parser.cc is not part of the sources): the indentation, the tokens separated by
single spaces, then `;` or the child block between braces, one level deeper and closed
on a line of its own, and a line feed. -/
def NginxConfigStatement.ToString (depth : Nat) : NginxConfigStatement → Str
  | .mk tokens_ child_block_ =>
    indentation depth ++ ToString_tokens tokens_
      ++ (match child_block_ with
          | some block =>
            " \x7b\n".toList ++ NginxConfig.ToString (depth + 1) block
              ++ indentation depth ++ "\x7d".toList
          | none => ";".toList)
      ++ "\n".toList
end

/-- The text of a quoted token after its opening quote `q`: bytes other than `q`, then
`q`. -/
def closes_quote (q : Char) : Str → Bool
  | [] => false
  | [c] => c = q
  | c :: rest => c ≠ q && closes_quote q rest

/-- A quoted token: a quote, bytes other than that quote, and that quote again. -/
def quoted_token : Str → Bool
  | [] => false
  | q :: rest => (q = '"' || q = '\'') && closes_quote q rest

/-- A normal token: a first byte that is neither white space nor one of the bytes that
start another token, then bytes that do not end a normal token. -/
def normal_token : Str → Bool
  | [] => false
  | c :: rest =>
    !(c = '\x7b' || c = '\x7d' || c = '#' || c = '"' || c = '\'' || c = ';'
        || config_space c)
      && rest.all (fun x => !ends_normal_token x)

/-- The values that `ParseToken` gives with the type `TOKEN_TYPE_NORMAL`. -/
def config_token (token : Str) : Bool :=
  normal_token token || quoted_token token

mutual
/-- The shape of the configs that `Parse` builds: every statement has a token, and
every token is a normal or a quoted token. -/
def NginxConfig.well_formed : NginxConfig → Bool
  | .mk statements_ => well_formed_statements statements_
/-- The shape of the statement lists that `Parse` builds. -/
def well_formed_statements : List NginxConfigStatement → Bool
  | [] => true
  | statement :: rest =>
    NginxConfigStatement.well_formed statement && well_formed_statements rest
/-- The shape of the statements that `Parse` builds. -/
def NginxConfigStatement.well_formed : NginxConfigStatement → Bool
  | .mk tokens_ child_block_ =>
    !tokens_.isEmpty && tokens_.all config_token
      && (match child_block_ with
          | some block => NginxConfig.well_formed block
          | none => true)
end

mutual
/-- No token of the config holds a brace. -/
def NginxConfig.brace_free : NginxConfig → Bool
  | .mk statements_ => brace_free_statements statements_
/-- No token of the statements holds a brace. -/
def brace_free_statements : List NginxConfigStatement → Bool
  | [] => true
  | statement :: rest =>
    NginxConfigStatement.brace_free statement && brace_free_statements rest
/-- No token of the statement, its child block included, holds a brace. -/
def NginxConfigStatement.brace_free : NginxConfigStatement → Bool
  | .mk tokens_ child_block_ =>
    tokens_.all (fun token => !token.contains '\x7b' && !token.contains '\x7d')
      && (match child_block_ with
          | some block => NginxConfig.brace_free block
          | none => true)
end

/-- The config text of the test `ToString_NestedBlocks`. -/
def nested_blocks_text : Str :=
  "server \x7b\n  listen 80;\n  location / \x7b\n    root /var/www/html;\n  \x7d\n\x7d\n".toList

/-- The loop of `Parse` with the fuel that `Parse` gives it for the input. -/
def Parse_from (input : Str) (config_stack : List (List NginxConfigStatement))
    (last_token_type : TokenType) : Option NginxConfig :=
  Parse_loop (input.length + 1) input config_stack last_token_type

/-- The tokens of a statement after the first, each after a space. -/
def spaced_tokens : List Str → Str
  | [] => []
  | token :: rest => ' ' :: (token ++ spaced_tokens rest)

/-- The config that the text of the test `ToString_NestedBlocks` stands for. -/
def nested_blocks_config : NginxConfig :=
  NginxConfig.mk
    [NginxConfigStatement.mk ["server".toList] (some (NginxConfig.mk
      [NginxConfigStatement.mk ["listen".toList, "80".toList] none,
       NginxConfigStatement.mk ["location".toList, "/".toList] (some (NginxConfig.mk
        [NginxConfigStatement.mk ["root".toList, "/var/www/html".toList] none]))]))]

/-- A config text with a brace inside a quoted token. -/
def quoted_brace_text : Str :=
  "foo \"\x7b\";".toList

/-- The config that `quoted_brace_text` stands for. -/
def quoted_brace_config : NginxConfig :=
  NginxConfig.mk [NginxConfigStatement.mk ["foo".toList, "\"\x7b\"".toList] none]

/-- A registry in which the empty prefix is registered beside `/api`. -/
def empty_key_registry : RequestHandlerRegistry :=
  { handler_configs_ :=
      [([], { type := "EchoHandler".toList, config := none }),
       ("/api".toList, { type := "EchoHandler".toList, config := none })] }

/-- A request of version 1.1 without headers. -/
def simple_request (method uri body : Str) : request :=
  { method := method, uri := uri, http_version_major := 1, http_version_minor := 1,
    headers := [], body := body }

/-! ## The calls of APIHandler on its entity processor -/

/-- A call of a member function of `EntityProcessor`, with its arguments. -/
inductive EntityProcessorCall where
  | CreateEntity (entity_type json_data : Str)
  | RetrieveEntity (entity_type id : Str)
  | UpdateEntity (entity_type id json_data : Str)
  | DeleteEntity (entity_type id : Str)
  | ListEntities (entity_type : Str)
deriving DecidableEq, Repr

/-- The calls that `APIHandler::HandleCreate` makes on `entity_processor_`. -/
def APIHandler.HandleCreate_calls (entity_type json_data : Str) : List EntityProcessorCall :=
  if json_data.isEmpty then []
  else [EntityProcessorCall.CreateEntity entity_type json_data]

/-- The calls that `APIHandler::HandleRetrieve` makes on `entity_processor_`. -/
def APIHandler.HandleRetrieve_calls (entity_type id : Str) : List EntityProcessorCall :=
  [EntityProcessorCall.RetrieveEntity entity_type id]

/-- The calls that `APIHandler::HandleUpdate` makes on `entity_processor_`. -/
def APIHandler.HandleUpdate_calls (entity_type id json_data : Str) :
    List EntityProcessorCall :=
  if json_data.isEmpty then []
  else [EntityProcessorCall.UpdateEntity entity_type id json_data]

/-- The calls that `APIHandler::HandleDelete` makes on `entity_processor_`. -/
def APIHandler.HandleDelete_calls (entity_type id : Str) : List EntityProcessorCall :=
  [EntityProcessorCall.DeleteEntity entity_type id]

/-- The calls that `APIHandler::HandleList` makes on `entity_processor_`. -/
def APIHandler.HandleList_calls (entity_type : Str) : List EntityProcessorCall :=
  [EntityProcessorCall.ListEntities entity_type]

/-- The calls that `APIHandler::handle_request` makes on `entity_processor_`, in the
order in which it makes them: those of the function it dispatches to. -/
def APIHandler.handle_request_calls (path_prefix_ : Str) (request : request) :
    List EntityProcessorCall :=
  match APIHandler.ParseUri path_prefix_ request.uri with
  | none => []
  | some (entity_type, id) =>
    if request.method = "POST".toList && !entity_type.isEmpty && id.isEmpty then
      APIHandler.HandleCreate_calls entity_type request.body
    else if request.method = "GET".toList && !entity_type.isEmpty && !id.isEmpty then
      APIHandler.HandleRetrieve_calls entity_type id
    else if request.method = "PUT".toList && !entity_type.isEmpty && !id.isEmpty then
      APIHandler.HandleUpdate_calls entity_type id request.body
    else if request.method = "DELETE".toList && !entity_type.isEmpty && !id.isEmpty then
      APIHandler.HandleDelete_calls entity_type id
    else if request.method = "GET".toList && !entity_type.isEmpty && id.isEmpty then
      APIHandler.HandleList_calls entity_type
    else []

/-- An entity processor with one entity `1` of every type: creation gives the id `2`,
only the id `1` is found, and the list is `1`. -/
def one_entity_processor : EntityProcessor :=
  { CreateEntity := fun _ _ => "2".toList
    RetrieveEntity := fun _ id => if id = "1".toList then some "\x7b\x7d".toList else none
    UpdateEntity := fun _ id _ => decide (id = "1".toList)
    DeleteEntity := fun _ id => decide (id = "1".toList)
    ListEntities := fun _ => some ["1".toList] }

/-- The rest of a URI after the first `n` bytes and after at most one leading `/`. -/
def rest_after (n : Nat) (uri : Str) : Str :=
  if (uri.drop n).head? = some '/' then (uri.drop n).drop 1 else uri.drop n

/-! ## The multipart bodies of the upload tests -/

/-- The headers of the file part that the helper `create_multipart_form` of
tests/upload_handler_test.cc writes, without the empty line that ends them. -/
def file_part_headers (filename : Str) : Str :=
  "Content-Disposition: form-data; name=\"file\"; filename=\"".toList ++ filename
    ++ "\"\r\nContent-Type: text/plain".toList

/-- The headers of the course code part of `create_multipart_form`. -/
def course_code_part_headers : Str :=
  "Content-Disposition: form-data; name=\"course_code\"".toList

/-- The headers of the title part of `create_multipart_form`. -/
def title_part_headers : Str :=
  "Content-Disposition: form-data; name=\"title\"".toList

/-- One part of a multipart body: the delimiter line, the headers, an empty line, and
the content with the CR LF that ends it. -/
def multipart_part (boundary headers content : Str) : Str :=
  "--".toList ++ boundary ++ "\r\n".toList ++ headers ++ "\r\n\r\n".toList
    ++ content ++ "\r\n".toList

/-- The helper `create_multipart_form` of tests/upload_handler_test.cc: a file part, a
course code part, a title part and the closing delimiter line. -/
def create_multipart_form (boundary filename content course_code title : Str) : Str :=
  multipart_part boundary (file_part_headers filename) content
    ++ (multipart_part boundary course_code_part_headers course_code
      ++ (multipart_part boundary title_part_headers title
        ++ ("--".toList ++ boundary ++ "--\r\n".toList)))

/-- The value of `FormData form_data;` before parsing. -/
def empty_form_data : FormData :=
  { filename := [], content := [], course_code := [], title := [], content_type := [] }

/-- The body of the test `HandleValidFileUploadSucceeds`, with a shorter boundary. -/
def test_form_body : Str :=
  create_multipart_form "XYZ".toList "test.txt".toList
    "This is test content for a text file.".toList "CS130".toList "Test Notes".toList

/-- A short multipart body with the boundary `B` and a single title part. -/
def short_form_body : Str :=
  multipart_part "B".toList "name=\"title\"".toList "T".toList ++ "--B--\r\n".toList

/-! ## EntityProcessor on the file system (entity_processor.cc)

The directory of an entity type is modelled by the names of its entries; the contents
of the files and errors of the medium while a directory is read are not part of the
model. -/

/-- What the file system holds at `GetEntityPath(entity_type)`: nothing, something that
is not a directory (iterating it throws), or a directory with the names of its
entries, in the order in which `directory_iterator` visits them. -/
inductive EntityPath where
  | missing
  | not_directory
  | directory (entries : List Str)
deriving DecidableEq, Repr

/-- The names of the entries at the path. -/
def EntityPath.entries : EntityPath → List Str
  | .directory entries => entries
  | _ => []

/-- The result of an `int` computation: the value in 32 bits, two's complement. -/
def int_wrap (v : Int) : Int :=
  (v + 2147483648) % 4294967296 - 2147483648

/-- What the file system answers during one call of `CreateEntity`: whether
`fs::create_directories` creates the directory, and whether `std::ofstream` opens the
file of the new entity. -/
structure FileAnswers where
  create_directories : Bool
  open_file : Bool
deriving DecidableEq, Repr

namespace entity_processor

/-- The loop of `EntityProcessor::GetNextId` over the entries of the directory: a name
that `std::stoi` converts raises `max_id` to its value, and a name on which `std::stoi`
throws is skipped. -/
def GetNextId_loop (max_id : Int) : List Str → Int
  | [] => max_id
  | filename :: rest =>
    match stoi filename with
    | .ok current_id => GetNextId_loop (max max_id current_id) rest
    | .error _ => GetNextId_loop max_id rest

/-- The function `EntityProcessor::GetNextId`. -/
def GetNextId : EntityPath → Str
  | .missing => "1".toList
  | .not_directory =>
    let max_id : Int := 0
    int_to_string (int_wrap (max_id + 1))
  | .directory entries =>
    let max_id := GetNextId_loop 0 entries
    int_to_string (int_wrap (max_id + 1))

/-- The function `EntityProcessor::isValidEntityDirectory`: the returned flag and the
path after the call. -/
def isValidEntityDirectory (path : EntityPath) (fs : FileAnswers) : Bool × EntityPath :=
  match path with
  | .missing =>
    if fs.create_directories then (true, .directory []) else (false, .missing)
  | path => (true, path)

/-- The function `EntityProcessor::CreateEntity`: the returned id, empty on failure, and
the path after the call. A file can only be opened in a directory; opening it under a
name that is there already overwrites that entry. -/
def CreateEntity (path : EntityPath) (fs : FileAnswers) (_json_data : Str) :
    Str × EntityPath :=
  let id := GetNextId path
  let valid := isValidEntityDirectory path fs
  if !valid.1 then ([], valid.2)
  else
    match valid.2 with
    | .directory entries =>
      if !fs.open_file then ([], .directory entries)
      else if id ∈ entries then (id, .directory entries)
      else (id, .directory (entries ++ [id]))
    | path => ([], path)

/-- Successive calls of `CreateEntity` on the same entity type, each with the answers
of the file system for it: the ids returned and the path after the last call. -/
def CreateEntity_calls : EntityPath → List FileAnswers → List Str × EntityPath
  | path, [] => ([], path)
  | path, fs :: rest =>
    let r := CreateEntity path fs "\x7b\x7d".toList
    let rs := CreateEntity_calls r.2 rest
    (r.1 :: rs.1, rs.2)

end entity_processor

/-- A file system on which directories can be created and files opened. -/
def willing : FileAnswers :=
  { create_directories := true, open_file := true }

/-! ## The file accesses of TextViewHandler -/

/-- A file access of `TextViewHandler`: a call of `read_file(id, content)` or of
`read_pdf(content, id)`. -/
inductive FileAccess where
  | read_file (id : Str)
  | read_pdf (id : Str)
deriving DecidableEq, Repr

/-- The file accesses that `TextViewHandler::handle_request` makes, in the order in
which it makes them. -/
def TextViewHandler.handle_request_accesses (w : World) (view_dir_ : Str)
    (request : request) : List FileAccess :=
  let uri := urlDecode w request.uri
  match TextViewHandler.parse_uri uri with
  | none => []
  | some id =>
    match w.read_file view_dir_ id with
    | none => [FileAccess.read_file id]
    | some _content =>
      match w.parse_file_extension id with
      | none => [FileAccess.read_file id]
      | some file_extension =>
        if file_extension = "md".toList then [FileAccess.read_file id]
        else if file_extension = "pdf".toList then
          [FileAccess.read_file id, FileAccess.read_pdf id]
        else [FileAccess.read_file id]

/-- The value of a hexadecimal digit. -/
def hex_digit_value (c : Char) : Option Nat :=
  if '0'.toNat ≤ c.toNat ∧ c.toNat ≤ '9'.toNat then some (c.toNat - '0'.toNat)
  else if 'a'.toNat ≤ c.toNat ∧ c.toNat ≤ 'f'.toNat then some (c.toNat - 'a'.toNat + 10)
  else if 'A'.toNat ≤ c.toNat ∧ c.toNat ≤ 'F'.toNat then some (c.toNat - 'A'.toNat + 10)
  else none

/-- A world with the single file `notes.txt`, in which two hexadecimal digits after a
`%` stand for the byte with that value. -/
def view_world : World :=
  { quiet_world with
    hex_value := fun a b =>
      match hex_digit_value a, hex_digit_value b with
      | some x, some y => Char.ofNat (16 * x + y)
      | _, _ => Char.ofNat 0
    read_file := fun _ id => if id = "notes.txt".toList then some "hello".toList else none
    parse_file_extension := fun id =>
      if id = "notes.txt".toList then some "txt".toList else none }

/-- A course code value that holds the delimiter `--B` and the headers of a second file
field. -/
def nested_file_course_code : Str :=
  "--B\r\nContent-Disposition: form-data; name=\"file\"; filename=\"g\"\r\n\r\ny".toList

/-! ## Registries whose factory or handler raises -/

/-- A registry whose prefix `/upload` has the type `UploadHandler` and the config block
`max_file_size abc;`. -/
def upload_registry : RequestHandlerRegistry :=
  { handler_configs_ :=
      [("/upload".toList,
        { type := "UploadHandler".toList,
          config := some (single_option "max_file_size".toList "abc".toList) })] }

/-- A factory table in which `UploadHandler` is registered. -/
def upload_factory_map : FactoryMap :=
  (RequestHandlerRegistry.RegisterHandler [] "UploadHandler".toList UploadHandler.Init).2

/-- A registry whose prefix `/static` has the type `StaticHandler` and the config block
`root /www;`. -/
def static_registry : RequestHandlerRegistry :=
  { handler_configs_ :=
      [("/static".toList,
        { type := "StaticHandler".toList,
          config := some (single_option "root".toList "/www".toList) })] }

/-- A factory table in which `StaticHandler` is registered. -/
def static_factory_map : FactoryMap :=
  (RequestHandlerRegistry.RegisterHandler [] "StaticHandler".toList StaticFileHandler.Init).2

/-- A world in which `./www/` is a directory: it opens, has no size, and `ReadFile`
raises `std::length_error`; no other file exists. -/
def directory_world : World :=
  { quiet_world with
    ReadFile := fun file_path =>
      if file_path = "./www/".toList then .error "std::length_error".toList else .ok none }

/-- A file system in which nothing exists and a name of more than 255 bytes is refused:
`std::filesystem::exists` throws for it. -/
def long_name_refused (path : Str) : Except Str Bool :=
  if path.length > 255 then .error "std::filesystem::filesystem_error".toList else .ok false

/-- A file system in which nothing exists and no call throws. -/
def nothing_exists (_path : Str) : Except Str Bool :=
  .ok false

/-! # Theorems -/

/-! ## Lemmas on strings and maps -/

theorem compare_eq_iff_starts (s p : Str) : compare_eq s p = true ↔ p <+: s := by
  unfold compare_eq
  rw [decide_eq_true_iff, List.prefix_iff_eq_take]
  exact eq_comm

theorem strLess_irrefl (a : Str) : strLess a a = false := by
  induction a with
  | nil => rfl
  | cons c cs ih => simp [strLess, ih]

theorem strLess_asymm (a b : Str) : strLess a b = true → strLess b a = false := by
  induction a generalizing b with
  | nil => cases b <;> simp [strLess]
  | cons c cs ih =>
    cases b with
    | nil => simp [strLess]
    | cons d ds =>
      simp only [strLess]
      intro h
      by_cases h1 : c.toNat < d.toNat
      · have h2 : ¬ d.toNat < c.toNat := by omega
        simp [h1, h2]
      · by_cases h2 : d.toNat < c.toNat
        · simp [h1, h2] at h
        · simp [h1, h2] at h ⊢
          exact ih ds h

namespace StdMap

theorem find_set_same {V : Type} (m : StdMap V) (k : Str) (v : V) :
    (m.set k v).find k = some v := by
  induction m with
  | nil => simp [set, find]
  | cons e rest ih =>
    obtain ⟨k', v'⟩ := e
    unfold set
    by_cases h1 : k = k'
    · simp [h1, find]
    · by_cases h2 : strLess k k' = true
      · simp [h1, h2, find]
      · have h3 : ¬ k' = k := fun h => h1 h.symm
        simp [h1, h2, find, h3, ih]

theorem find_set_other {V : Type} (m : StdMap V) (k k2 : Str) (v : V) (hne : k2 ≠ k) :
    (m.set k v).find k2 = m.find k2 := by
  have hne' : ¬ k = k2 := fun h => hne h.symm
  induction m with
  | nil => simp [set, find, hne']
  | cons e rest ih =>
    obtain ⟨k', v'⟩ := e
    unfold set
    by_cases h1 : k = k'
    · subst h1
      simp [find, hne']
    · by_cases h2 : strLess k k' = true
      · simp [h1, h2, find, hne']
      · simp [h1, h2, find, ih]

theorem set_set_same {V : Type} (m : StdMap V) (k : Str) (v v2 : V) :
    (m.set k v).set k v2 = m.set k v2 := by
  induction m with
  | nil => simp [set]
  | cons e rest ih =>
    obtain ⟨k', v'⟩ := e
    by_cases h1 : k = k'
    · simp [set, h1]
    · by_cases h2 : strLess k k' = true
      · simp [set, h1, h2]
      · simp [set, h1, h2, ih]

theorem set_append_of_less {V : Type} (m : StdMap V) (k : Str) (v : V)
    (h : ∀ e ∈ m, strLess e.1 k = true) : m.set k v = m ++ [(k, v)] := by
  induction m with
  | nil => rfl
  | cons e rest ih =>
    obtain ⟨k', v'⟩ := e
    have hk : strLess k' k = true := h (k', v') (List.mem_cons_self _ _)
    have h1 : ¬ k = k' := by
      intro heq
      subst heq
      rw [strLess_irrefl] at hk
      exact Bool.false_ne_true hk
    have h2 : strLess k k' = false := strLess_asymm _ _ hk
    have ih' := ih (fun e he => h e (List.mem_cons_of_mem _ he))
    simp [set, h1, h2, ih']

theorem find_isSome_of_mem_keys {V : Type} (m : StdMap V) (k : Str) (h : k ∈ m.keys) :
    ∃ v, m.find k = some v := by
  induction m with
  | nil => simp [keys] at h
  | cons e rest ih =>
    obtain ⟨k', v'⟩ := e
    by_cases h1 : k' = k
    · exact ⟨v', by simp [find, h1]⟩
    · have : k ∈ keys rest := by
        simp only [keys, List.map_cons, List.mem_cons] at h
        rcases h with h | h
        · exact absurd h.symm h1
        · exact h
      obtain ⟨v, hv⟩ := ih this
      exact ⟨v, by simp [find, h1, hv]⟩

end StdMap

namespace RequestHandlerRegistry

/-! ## Routing -/

theorem FindBestMatch_fold (uri : Str) (l : StdMap HandlerConfig) (b : Str) :
    (l.foldl (FindBestMatch_entry uri) b = b
        ∨ (l.foldl (FindBestMatch_entry uri) b ∈ StdMap.keys l
            ∧ l.foldl (FindBestMatch_entry uri) b <+: uri))
      ∧ b.length ≤ (l.foldl (FindBestMatch_entry uri) b).length
      ∧ ∀ k ∈ StdMap.keys l, k <+: uri →
          k.length ≤ (l.foldl (FindBestMatch_entry uri) b).length := by
  induction l generalizing b with
  | nil => simp [StdMap.keys]
  | cons e rest ih =>
    obtain ⟨k', v'⟩ := e
    simp only [List.foldl_cons, StdMap.keys, List.map_cons, List.mem_cons]
    obtain ⟨h1, h2, h3⟩ := ih (FindBestMatch_entry uri b (k', v'))
    have hstep : (FindBestMatch_entry uri b (k', v') = b
          ∨ (FindBestMatch_entry uri b (k', v') = k' ∧ k' <+: uri))
        ∧ b.length ≤ (FindBestMatch_entry uri b (k', v')).length
        ∧ (k' <+: uri → k'.length ≤ (FindBestMatch_entry uri b (k', v')).length) := by
      unfold FindBestMatch_entry
      by_cases hc : compare_eq uri k' = true
      · have hp := (compare_eq_iff_starts uri k').1 hc
        by_cases hl : k'.length > b.length
        · simp [hc, hl, hp]; omega
        · simp [hc, hl]; omega
      · have hp : ¬ k' <+: uri := fun h => hc ((compare_eq_iff_starts uri k').2 h)
        simp [hc, hp]
    obtain ⟨s1, s2, s3⟩ := hstep
    refine ⟨?_, by omega, ?_⟩
    · rcases h1 with h1 | ⟨h1, h1'⟩
      · rw [h1]
        rcases s1 with s1 | ⟨s1, s1'⟩
        · exact Or.inl s1
        · exact Or.inr ⟨Or.inl s1, by rw [s1]; exact s1'⟩
      · exact Or.inr ⟨Or.inr h1, h1'⟩
    · intro k hk hp
      rcases hk with hk | hk
      · subst hk
        have := s3 hp
        omega
      · exact h3 k hk hp

end RequestHandlerRegistry

open RequestHandlerRegistry

/-- C1: `FindBestMatch` returns the longest registered prefix that is a byte-wise prefix
of the URI: the result is the empty string or a registered key that the URI starts
with, and no registered key that the URI starts with is longer than the result. With
`/api`, `/api/v1` and `/api/v2` registered (whatever their configs), `/api/v1/x`
resolves to `/api/v1` and not to `/api`. -/
theorem FindBestMatch_longest_match :
    (∀ (self : RequestHandlerRegistry) (uri : Str),
      (self.FindBestMatch uri = []
        ∨ (self.FindBestMatch uri ∈ StdMap.keys self.handler_configs_
            ∧ self.FindBestMatch uri <+: uri))
      ∧ ∀ k ∈ StdMap.keys self.handler_configs_, k <+: uri →
          k.length ≤ (self.FindBestMatch uri).length)
    ∧ (∀ c1 c2 c3 : HandlerConfig,
        FindBestMatch
          { handler_configs_ :=
              [("/api".toList, c1), ("/api/v1".toList, c2), ("/api/v2".toList, c3)] }
          "/api/v1/x".toList = "/api/v1".toList
        ∧ FindBestMatch
          { handler_configs_ :=
              [("/api".toList, c1), ("/api/v1".toList, c2), ("/api/v2".toList, c3)] }
          "/api/v1/x".toList ≠ "/api".toList) := by
  refine ⟨?_, ?_⟩
  · intro self uri
    obtain ⟨h1, _, h3⟩ := FindBestMatch_fold uri self.handler_configs_ []
    exact ⟨h1, h3⟩
  · intro c1 c2 c3
    have h : FindBestMatch
          { handler_configs_ :=
              [("/api".toList, c1), ("/api/v1".toList, c2), ("/api/v2".toList, c3)] }
          "/api/v1/x".toList = "/api/v1".toList := rfl
    refine ⟨h, ?_⟩
    rw [h]
    decide


/-- Witness of C1: in the registry of the routing test, `/api` is a registered prefix
of `/api/v1/x` and is not longer than the prefix selected. -/
theorem FindBestMatch_longest_match_witness :
    "/api".toList.length ≤ (api_registry.FindBestMatch "/api/v1/x".toList).length :=
  (FindBestMatch_longest_match.1 api_registry "/api/v1/x".toList).2 "/api".toList
    (by decide) (by decide)

theorem FindBestMatch_eq_nil_of_no_match (self : RequestHandlerRegistry) (uri : Str)
    (h : ∀ k ∈ StdMap.keys self.handler_configs_, ¬ k <+: uri) :
    self.FindBestMatch uri = [] := by
  obtain ⟨h1, _, _⟩ := RequestHandlerRegistry.FindBestMatch_fold uri self.handler_configs_ []
  rcases h1 with h1 | ⟨h1, h2⟩
  · exact h1
  · exact absurd h2 (h _ h1)

/-- C2: if no registered prefix is a prefix of the URI, or the matched prefix's handler
type has no entry in the factory table, or that factory returns null, then
`CreateHandler` returns the not-found fallback handler, and the reply of that handler
to every request has status 404. -/
theorem CreateHandler_falls_back_to_not_found (self : RequestHandlerRegistry)
    (factory_map_ : FactoryMap) (uri handler_name : Str)
    (h : (∀ k ∈ StdMap.keys self.handler_configs_, ¬ k <+: uri)
      ∨ (∃ cfg, self.handler_configs_.find (self.FindBestMatch uri) = some cfg
          ∧ (factory_map_.find cfg.type = none
            ∨ ∃ factory, factory_map_.find cfg.type = some factory
                ∧ factory (self.FindBestMatch uri) cfg.config = .ok none))) :
    (self.CreateHandler factory_map_ uri handler_name).handler
        = .ok (some RequestHandler.NotFoundHandler)
      ∧ ∀ (w : World) (req : request),
          ∃ rep, RequestHandler.handle_request w RequestHandler.NotFoundHandler req = .ok rep
            ∧ rep.status = 404 := by
  refine ⟨?_, fun w req => ⟨_, rfl, rfl⟩⟩
  rcases h with h | ⟨cfg, hcfg, h⟩
  · have h0 := FindBestMatch_eq_nil_of_no_match self uri h
    simp [CreateHandler, h0]
  · unfold CreateHandler
    by_cases he : (self.FindBestMatch uri).isEmpty = true
    · simp [he]
    · simp only [he, StdMap.at_, hcfg]
      rcases h with h | ⟨factory, hf, hnull⟩
      · simp [h]
      · simp [hf, hnull]

/-- Witness of C2: with no factory registered, `/api/x` is routed to the not-found
handler. -/
theorem CreateHandler_falls_back_to_not_found_witness :
    (api_registry.CreateHandler [] "/api/x".toList []).handler
        = .ok (some RequestHandler.NotFoundHandler)
      ∧ ∀ (w : World) (req : request),
          ∃ rep, RequestHandler.handle_request w RequestHandler.NotFoundHandler req = .ok rep
            ∧ rep.status = 404 :=
  CreateHandler_falls_back_to_not_found api_registry [] "/api/x".toList []
    (Or.inr ⟨{ type := "EchoHandler".toList, config := none }, rfl, Or.inl rfl⟩)

theorem FindBestMatch_key (self : RequestHandlerRegistry) (uri : Str)
    (hne : self.FindBestMatch uri ≠ []) :
    self.FindBestMatch uri ∈ StdMap.keys self.handler_configs_
      ∧ ∃ cfg, self.handler_configs_.find (self.FindBestMatch uri) = some cfg
          ∧ self.handler_configs_.at_ (self.FindBestMatch uri) = .ok cfg := by
  have h1 : self.FindBestMatch uri = []
      ∨ (self.FindBestMatch uri ∈ StdMap.keys self.handler_configs_
          ∧ self.FindBestMatch uri <+: uri) :=
    (RequestHandlerRegistry.FindBestMatch_fold uri self.handler_configs_ []).1
  rcases h1 with h1 | ⟨h1, _⟩
  · exact absurd h1 hne
  · obtain ⟨cfg, hcfg⟩ := StdMap.find_isSome_of_mem_keys _ _ h1
    exact ⟨h1, cfg, hcfg, by simp [StdMap.at_, hcfg]⟩

/-- An exception leaves `CreateHandler` exactly when the factory of the selected entry
raises it; the lookup `handler_configs_.at` never does. -/
theorem CreateHandler_raises_iff (self : RequestHandlerRegistry) (factory_map_ : FactoryMap)
    (uri handler_name e : Str) :
    (self.CreateHandler factory_map_ uri handler_name).handler = .error e
      ↔ self.FindBestMatch uri ≠ []
        ∧ ∃ cfg factory, self.handler_configs_.find (self.FindBestMatch uri) = some cfg
          ∧ factory_map_.find cfg.type = some factory
          ∧ factory (self.FindBestMatch uri) cfg.config = .error e := by
  unfold CreateHandler
  by_cases he : (self.FindBestMatch uri).isEmpty = true
  · have h0 : self.FindBestMatch uri = [] := List.isEmpty_iff.mp he
    simp only [he, if_true]
    constructor
    · intro h; cases h
    · rintro ⟨h1, _⟩
      exact absurd h0 h1
  · have hne : self.FindBestMatch uri ≠ [] := fun h => he (List.isEmpty_iff.mpr h)
    obtain ⟨_, cfg, hfind, hat⟩ := FindBestMatch_key self uri hne
    simp only [he, hat]
    cases hf : factory_map_.find cfg.type with
    | none =>
      dsimp only
      constructor
      · intro h; cases h
      · rintro ⟨_, cfg2, factory, h1, hf2, _⟩
        rw [hfind] at h1
        cases h1
        rw [hf] at hf2
        cases hf2
    | some factory =>
      dsimp only
      cases hh : factory (self.FindBestMatch uri) cfg.config with
      | error e2 =>
        dsimp only
        constructor
        · intro h
          cases h
          exact ⟨hne, cfg, factory, hfind, hf, hh⟩
        · rintro ⟨_, cfg2, factory2, h1, hf2, hraise⟩
          rw [hfind] at h1
          cases h1
          rw [hf] at hf2
          cases hf2
          rw [hh] at hraise
          cases hraise
          rfl
      | ok r =>
        have hno : ¬ (self.FindBestMatch uri ≠ []
            ∧ ∃ cfg2 factory2, self.handler_configs_.find (self.FindBestMatch uri) = some cfg2
              ∧ factory_map_.find cfg2.type = some factory2
              ∧ factory2 (self.FindBestMatch uri) cfg2.config = .error e) := by
          rintro ⟨_, cfg2, factory2, h1, hf2, hraise⟩
          rw [hfind] at h1
          cases h1
          rw [hf] at hf2
          cases hf2
          rw [hh] at hraise
          cases hraise
        cases r with
        | none =>
          dsimp only
          exact Iff.intro (fun h => by cases h) (fun h => absurd h hno)
        | some handler =>
          dsimp only
          exact Iff.intro (fun h => by cases h) (fun h => absurd h hno)

/-- The pointer that `CreateHandler` returns is never null. -/
theorem CreateHandler_not_null (self : RequestHandlerRegistry) (factory_map_ : FactoryMap)
    (uri handler_name : Str) :
    (self.CreateHandler factory_map_ uri handler_name).handler ≠ .ok none := by
  simp only [CreateHandler]
  split
  · intro h; cases h
  · split
    · intro h; cases h
    · split
      · intro h; cases h
      · split <;> (intro h; cases h)

/-- C3: provided the selected factory (the one registered for the type of the entry of
the prefix that `FindBestMatch` returns, when that prefix is not empty) does not raise,
`CreateHandler` returns a non-null handler and no exception leaves it: whenever
`FindBestMatch` returns a non-empty prefix, that prefix is a key of the prefix table, so
`handler_configs_.at` finds it. -/
theorem CreateHandler_returns_handler (self : RequestHandlerRegistry)
    (factory_map_ : FactoryMap) (uri handler_name : Str)
    (hfactory : self.FindBestMatch uri ≠ [] → ∀ cfg factory,
      self.handler_configs_.find (self.FindBestMatch uri) = some cfg →
      factory_map_.find cfg.type = some factory →
      ∃ r, factory (self.FindBestMatch uri) cfg.config = .ok r) :
    (∃ handler, (self.CreateHandler factory_map_ uri handler_name).handler
        = .ok (some handler))
      ∧ (self.FindBestMatch uri ≠ [] →
          self.FindBestMatch uri ∈ StdMap.keys self.handler_configs_
            ∧ ∃ cfg, self.handler_configs_.at_ (self.FindBestMatch uri) = .ok cfg) := by
  refine ⟨?_, fun hne => ?_⟩
  · cases hc : (self.CreateHandler factory_map_ uri handler_name).handler with
    | error e =>
      obtain ⟨hne, cfg, factory, h1, h2, h3⟩ :=
        (CreateHandler_raises_iff self factory_map_ uri handler_name e).mp hc
      obtain ⟨r, hr⟩ := hfactory hne cfg factory h1 h2
      rw [hr] at h3
      cases h3
    | ok r =>
      cases r with
      | none => exact absurd hc (CreateHandler_not_null self factory_map_ uri handler_name)
      | some handler => exact ⟨handler, rfl⟩
  · obtain ⟨h1, cfg, _, h3⟩ := FindBestMatch_key self uri hne
    exact ⟨h1, cfg, h3⟩

/-- Witness of C3: `/api/v1/x` selects the non-empty prefix `/api/v1`, which is a key of
the table, and the factory registered for its type returns a handler. -/
theorem CreateHandler_returns_handler_witness :
    (∃ handler, (api_registry.CreateHandler echo_factory_map "/api/v1/x".toList []).handler
        = .ok (some handler))
      ∧ api_registry.FindBestMatch "/api/v1/x".toList
          ∈ StdMap.keys api_registry.handler_configs_
      ∧ ∃ cfg, api_registry.handler_configs_.at_
          (api_registry.FindBestMatch "/api/v1/x".toList) = .ok cfg :=
  have h := CreateHandler_returns_handler api_registry echo_factory_map "/api/v1/x".toList []
    (fun _ cfg factory h1 h2 => by
      have e1 : api_registry.handler_configs_.find
          (api_registry.FindBestMatch "/api/v1/x".toList)
          = some { type := "EchoHandler".toList, config := none } := rfl
      rw [e1] at h1
      cases h1
      have e2 : StdMap.find echo_factory_map "EchoHandler".toList = some EchoHandler.Init := rfl
      rw [e2] at h2
      cases h2
      exact ⟨_, rfl⟩)
  ⟨h.1, h.2 (by decide)⟩

theorem Init_entry_eq (t : StdMap HandlerConfig) (e : Str × HandlerConfig) :
    Init_entry t e = t.set e.1 e.2 := by
  obtain ⟨k, ⟨ty, cfg⟩⟩ := e
  cases cfg <;> rfl

theorem Init_fold_ordered (m acc : StdMap HandlerConfig) (h : StdMap.Ordered (acc ++ m)) :
    m.foldl Init_entry acc = acc ++ m := by
  induction m generalizing acc with
  | nil => simp
  | cons e rest ih =>
    have hlt : ∀ a ∈ acc, strLess a.1 e.1 = true := by
      intro a ha
      unfold StdMap.Ordered at h
      rw [List.pairwise_append] at h
      exact h.2.2 a ha e (List.mem_cons_self _ _)
    have hstep : Init_entry acc e = acc ++ [e] := by
      rw [Init_entry_eq, StdMap.set_append_of_less acc e.1 e.2 hlt]
    rw [List.foldl_cons, hstep, ih]
    · simp
    · simpa using h

/-- C4: for every previous registry state and every mapping `m` from prefix to
`HandlerConfig` (a `std::map`, so with ascending keys), `Init(m)` returns true and
leaves the prefix table equal to `m`: exactly the keys of `m`, each with the handler
type and config subtree it has in `m`, and nothing of the previous table. -/
theorem Init_replaces_table (prev : RequestHandlerRegistry) (m : StdMap HandlerConfig)
    (hm : StdMap.Ordered m) :
    (prev.Init m).1 = true
      ∧ (prev.Init m).2.handler_configs_ = m
      ∧ StdMap.keys (prev.Init m).2.handler_configs_ = StdMap.keys m
      ∧ ∀ k, (prev.Init m).2.handler_configs_.find k = StdMap.find m k := by
  have h : (prev.Init m).2.handler_configs_ = m := by
    simp only [Init]
    rw [Init_fold_ordered m [] (by simpa using hm)]
    simp
  refine ⟨rfl, h, by rw [h], fun k => by rw [h]⟩


/-- Witness of C4: `Init` with the two-entry mapping of the tests, on a registry that
held `/old`, leaves exactly that mapping. -/
theorem Init_replaces_table_witness :
    (old_registry.Init test_handler_configs).1 = true
      ∧ (old_registry.Init test_handler_configs).2.handler_configs_ = test_handler_configs
      ∧ StdMap.keys (old_registry.Init test_handler_configs).2.handler_configs_
          = StdMap.keys test_handler_configs
      ∧ ∀ k, (old_registry.Init test_handler_configs).2.handler_configs_.find k
          = StdMap.find test_handler_configs k :=
  Init_replaces_table old_registry test_handler_configs (by unfold StdMap.Ordered; decide)

/-- C5: `RegisterHandler(name, f)` returns true and leaves the factory table mapping
`name` to `f` with the entry of every other name unchanged; registering the same
`(name, f)` twice gives the same table as registering it once, and a later
`RegisterHandler(name, g)` overwrites `f` with `g`. -/
theorem RegisterHandler_insert_overwrite (factory_map_ : FactoryMap) (name : Str)
    (f g : RequestHandlerFactory) :
    (RegisterHandler factory_map_ name f).1 = true
      ∧ StdMap.find (RegisterHandler factory_map_ name f).2 name = some f
      ∧ (∀ other, other ≠ name →
          StdMap.find (RegisterHandler factory_map_ name f).2 other
            = StdMap.find factory_map_ other)
      ∧ (RegisterHandler (RegisterHandler factory_map_ name f).2 name f).2
          = (RegisterHandler factory_map_ name f).2
      ∧ StdMap.find (RegisterHandler (RegisterHandler factory_map_ name f).2 name g).2 name
          = some g
      ∧ (RegisterHandler (RegisterHandler factory_map_ name f).2 name g).2
          = (RegisterHandler factory_map_ name g).2 := by
  simp only [RegisterHandler]
  exact ⟨trivial, StdMap.find_set_same _ _ _, fun other h => StdMap.find_set_other _ _ _ _ h,
    StdMap.set_set_same _ _ _ _, StdMap.find_set_same _ _ _, StdMap.set_set_same _ _ _ _⟩

/-- Witness of C5: registering `HealthHandler` leaves the entry of `EchoHandler` as it
was. -/
theorem RegisterHandler_insert_overwrite_witness :
    StdMap.find (RegisterHandler echo_factory_map "HealthHandler".toList HealthHandler.Init).2
        "EchoHandler".toList
      = StdMap.find echo_factory_map "EchoHandler".toList :=
  (RegisterHandler_insert_overwrite echo_factory_map "HealthHandler".toList
    HealthHandler.Init EchoHandler.Init).2.2.1 "EchoHandler".toList (by decide)

theorem CreateHandler_frame (self : RequestHandlerRegistry) (factory_map_ : FactoryMap)
    (uri handler_name : Str) :
    (self.CreateHandler factory_map_ uri handler_name).self = self
      ∧ (self.CreateHandler factory_map_ uri handler_name).factory_map_ = factory_map_ := by
  simp only [CreateHandler]
  split
  · exact ⟨rfl, rfl⟩
  · split
    · exact ⟨rfl, rfl⟩
    · split
      · exact ⟨rfl, rfl⟩
      · split <;> exact ⟨rfl, rfl⟩

/-- C6: `CreateHandler` changes neither the prefix table of the registry nor the global
factory table; therefore a sequence of `CreateHandler` calls over a list of URIs gives,
for each URI, the result (selected prefix, handler and handler type) of a single call
for that URI on the registry as `Init` left it, and leaves both tables as they were. -/
theorem CreateHandler_read_only (self : RequestHandlerRegistry) (factory_map_ : FactoryMap) :
    (∀ uri handler_name,
      (self.CreateHandler factory_map_ uri handler_name).self = self
        ∧ (self.CreateHandler factory_map_ uri handler_name).factory_map_ = factory_map_)
    ∧ ∀ uris : List Str,
        CreateHandler_calls self factory_map_ uris
          = (uris.map (fun uri => self.CreateHandler factory_map_ uri []), self, factory_map_) := by
  refine ⟨fun uri handler_name => CreateHandler_frame self factory_map_ uri handler_name, ?_⟩
  intro uris
  induction uris with
  | nil => rfl
  | cons uri uris ih =>
    obtain ⟨h1, h2⟩ := CreateHandler_frame self factory_map_ uri []
    simp only [CreateHandler_calls, h1, h2, ih, List.map_cons]

/-! ## Replies -/

theorem has_header_eq_any (name : Str) (hs : List header) :
    has_header name hs = hs.any (fun h => decide (h.name = name)) := by
  induction hs with
  | nil => rfl
  | cons h rest ih =>
    by_cases hn : h.name = name
    · simp [has_header, hn]
    · simp [has_header, hn, ih]

theorem has_header_append (name : Str) (hs hs2 : List header) :
    has_header name (hs ++ hs2) = (has_header name hs || has_header name hs2) := by
  simp [has_header_eq_any]

theorem BuildResponse_headers_eq (status : status_type) (content : Str) (headers : List header) :
    (BuildResponse status content headers).headers
      = headers
        ++ (if headers.any (fun h => decide (h.name = "Content-Length".toList)) then []
            else [{ name := "Content-Length".toList, value := to_string content.length }])
        ++ (if headers.any (fun h => decide (h.name = "Content-Type".toList)) then []
            else [{ name := "Content-Type".toList, value := "text/plain".toList }]) := by
  have hne : ¬ "Content-Length".toList = "Content-Type".toList := by decide
  unfold BuildResponse
  simp only [← has_header_eq_any]
  generalize "Content-Length".toList = cl at hne ⊢
  generalize "Content-Type".toList = ct at hne ⊢
  generalize "text/plain".toList = tp
  by_cases h1 : has_header cl headers = true
  · by_cases h2 : has_header ct headers = true
    · simp [h1, h2]
    · simp [h1, h2]
  · by_cases h2 : has_header ct headers = true
    · simp [h1, h2, has_header_append]
    · simp [h1, h2, has_header_append, has_header, hne]

/-- C7: `BuildResponse` returns a reply with the given status and content whose header
list is the caller's headers in their order, followed by `Content-Length` with the
decimal length of the content if no caller header has that name, followed by
`Content-Type: text/plain` if no caller header has that name. With no caller header and
content `OK` the headers are `Content-Length: 2` then `Content-Type: text/plain`; when
the caller supplied `Content-Length` (or `Content-Type`), the headers of that name in
the reply are the caller's, none is added. -/
theorem BuildResponse_default_headers (status : status_type) (content : Str)
    (headers : List header) :
    (BuildResponse status content headers).status = status
      ∧ (BuildResponse status content headers).content = content
      ∧ (BuildResponse status content headers).headers
          = headers
            ++ (if headers.any (fun h => decide (h.name = "Content-Length".toList)) then []
                else [{ name := "Content-Length".toList, value := to_string content.length }])
            ++ (if headers.any (fun h => decide (h.name = "Content-Type".toList)) then []
                else [{ name := "Content-Type".toList, value := "text/plain".toList }])
      ∧ (BuildResponse status "OK".toList []).headers
          = [{ name := "Content-Length".toList, value := "2".toList },
             { name := "Content-Type".toList, value := "text/plain".toList }]
      ∧ (headers.any (fun h => decide (h.name = "Content-Length".toList)) = true →
          (BuildResponse status content headers).headers.filter
              (fun h => decide (h.name = "Content-Length".toList))
            = headers.filter (fun h => decide (h.name = "Content-Length".toList)))
      ∧ (headers.any (fun h => decide (h.name = "Content-Type".toList)) = true →
          (BuildResponse status content headers).headers.filter
              (fun h => decide (h.name = "Content-Type".toList))
            = headers.filter (fun h => decide (h.name = "Content-Type".toList))) := by
  have hne : ¬ "Content-Length".toList = "Content-Type".toList := by decide
  refine ⟨rfl, rfl, BuildResponse_headers_eq status content headers, rfl, ?_, ?_⟩
  · intro h
    rw [BuildResponse_headers_eq, h]
    generalize "Content-Length".toList = cl at hne ⊢
    generalize "Content-Type".toList = ct at hne ⊢
    have hne2 : ¬ ct = cl := fun e => hne e.symm
    by_cases h2 : headers.any (fun h => decide (h.name = ct)) = true
    · simp [h2]
    · simp [h2, hne2]
  · intro h
    rw [BuildResponse_headers_eq, h]
    generalize "Content-Length".toList = cl at hne ⊢
    generalize "Content-Type".toList = ct at hne ⊢
    by_cases h2 : headers.any (fun h => decide (h.name = cl)) = true
    · simp [h2]
    · simp [h2, hne]

/-- Witness of C7: a caller that supplies `Content-Type: text/html` gets no second
`Content-Type` header. -/
theorem BuildResponse_default_headers_witness :
    (BuildResponse reply.ok "OK".toList [content_type_header "text/html".toList]).headers.filter
        (fun h => decide (h.name = "Content-Type".toList))
      = [content_type_header "text/html".toList].filter
          (fun h => decide (h.name = "Content-Type".toList)) :=
  (BuildResponse_default_headers reply.ok "OK".toList
    [content_type_header "text/html".toList]).2.2.2.2.2 (by decide)

theorem BuildResponse_has_content_headers (status : status_type) (content : Str)
    (headers : List header)
    (h1 : headers.any (fun h => decide (h.name = "Content-Length".toList)) = false)
    (h2 : (headers.filter (fun h => decide (h.name = "Content-Type".toList))).length ≤ 1) :
    (BuildResponse status content headers).has_content_headers := by
  have hne : ¬ "Content-Length".toList = "Content-Type".toList := by decide
  unfold reply.has_content_headers
  rw [BuildResponse_headers_eq, h1]
  have hc : (BuildResponse status content headers).content = content := rfl
  rw [hc]
  generalize "Content-Length".toList = cl at hne h1 ⊢
  generalize "Content-Type".toList = ct at hne h2 ⊢
  have hne2 : ¬ ct = cl := fun e => hne e.symm
  have hf : headers.filter (fun h => decide (h.name = cl)) = [] := by
    simp only [List.filter_eq_nil_iff]
    intro a ha
    simp only [List.any_eq_false] at h1
    exact h1 a ha
  constructor
  · by_cases h3 : headers.any (fun h => decide (h.name = ct)) = true
    · simp [h3, hf]
    · simp [h3, hf, hne2]
  · by_cases h3 : headers.any (fun h => decide (h.name = ct)) = true
    · have hpos : 0 < (headers.filter (fun h => decide (h.name = ct))).length := by
        rw [List.length_pos]
        intro hnil
        rw [List.filter_eq_nil_iff] at hnil
        rw [List.any_eq_true] at h3
        obtain ⟨x, hx, hx2⟩ := h3
        exact hnil x hx hx2
      simp [h3, hne]
      omega
    · have hz : headers.filter (fun h => decide (h.name = ct)) = [] := by
        simp only [List.filter_eq_nil_iff]
        intro a ha
        simp only [Bool.not_eq_true, List.any_eq_false] at h3
        simpa using h3 a ha
      simp [h3, hne, hz]

theorem built_nil (status : status_type) (content : Str) :
    (BuildResponse status content []).has_content_headers :=
  BuildResponse_has_content_headers status content [] rfl (by simp)

theorem built_ct (status : status_type) (content value : Str) :
    (BuildResponse status content [content_type_header value]).has_content_headers :=
  BuildResponse_has_content_headers status content [content_type_header value]
    (by simp [content_type_header]) (by simp [content_type_header])

theorem built_location_cookie (status : status_type) (content a b : Str) :
    (BuildResponse status content
      [{ name := "Location".toList, value := a },
       { name := "Set-Cookie".toList, value := b }]).has_content_headers :=
  BuildResponse_has_content_headers status content _ (by simp) (by simp)

theorem EchoHandler_has_content_headers (req : request) :
    (EchoHandler.handle_request req).has_content_headers := built_ct _ _ _

theorem NotFoundHandler_has_content_headers (req : request) :
    (NotFoundHandler.handle_request req).has_content_headers := built_ct _ _ _

theorem HealthHandler_has_content_headers (req : request) :
    (HealthHandler.handle_request req).has_content_headers := built_nil _ _

theorem SleepHandler_has_content_headers (req : request) :
    (SleepHandler.handle_request req).has_content_headers := built_ct _ _ _

theorem APIHandler_has_content_headers (path_prefix_ : Str) (ep : EntityProcessor)
    (req : request) :
    (APIHandler.handle_request path_prefix_ ep req).has_content_headers := by
  unfold APIHandler.handle_request APIHandler.HandleCreate APIHandler.HandleRetrieve
    APIHandler.HandleUpdate APIHandler.HandleDelete APIHandler.HandleList
  repeat' (first | exact built_nil _ _ | exact built_ct _ _ _ | split | dsimp only)

theorem StaticFileHandler_has_content_headers (w : World) (root_dir_ path_prefix_ : Str)
    (req : request) (rep : reply)
    (h : StaticFileHandler.handle_request w root_dir_ path_prefix_ req = .ok rep) :
    rep.has_content_headers := by
  unfold StaticFileHandler.handle_request at h
  dsimp only at h
  split at h
  · cases h
    exact built_nil _ _
  · split at h
    · cases h
    · cases h
      exact built_ct _ _ _
    · cases h
      exact built_nil _ _

/-- An exception leaves `StaticFileHandler::handle_request` only when `ReadFile` raises
it. -/
theorem StaticFileHandler_raises (w : World) (root_dir_ path_prefix_ : Str)
    (req : request) (e : Str)
    (h : StaticFileHandler.handle_request w root_dir_ path_prefix_ req = .error e) :
    ∃ file_path, w.ReadFile file_path = .error e := by
  unfold StaticFileHandler.handle_request at h
  dsimp only at h
  split at h
  · cases h
  · split at h
    · rename_i e2 he
      cases h
      exact ⟨_, he⟩
    · cases h
    · cases h

theorem UploadHandler_has_content_headers (w : World) (upload_dir_ path_prefix_ : Str)
    (max_file_size_ : Nat) (req : request) :
    (UploadHandler.handle_request w upload_dir_ path_prefix_ max_file_size_
      req).has_content_headers := by
  unfold UploadHandler.handle_request UploadHandler.create_upload_form
    UploadHandler.create_error_response UploadHandler.create_success_response
  repeat' (first | exact built_nil _ _ | exact built_ct _ _ _ | split | dsimp only)

theorem TextViewHandler_has_content_headers (w : World) (view_dir_ : Str) (req : request) :
    (TextViewHandler.handle_request w view_dir_ req).has_content_headers := by
  unfold TextViewHandler.handle_request
  repeat' (first | exact built_nil _ _ | exact built_ct _ _ _ | split | dsimp only)

theorem SimpleAuthHandler_has_content_headers (w : World) (path_prefix_ db_path : Str)
    (req : request) :
    (SimpleAuthHandler.handle_request w path_prefix_ db_path req).has_content_headers := by
  unfold SimpleAuthHandler.handle_request SimpleAuthHandler.serveLoginForm
    SimpleAuthHandler.handleLogin SimpleAuthHandler.handleLogout
  repeat' first
    | exact built_nil _ _
    | exact built_ct _ _ _
    | exact built_location_cookie _ _ _ _
    | split
    | dsimp only

/-- C8: for every handler of the repository (Echo, NotFound, Health, Sleep, API, Static,
Upload, TextView, SimpleAuth), in every world and for every request, the reply returned
by `handle_request` carries exactly one `Content-Length` header, whose value is the
decimal byte length of the content of the reply, and exactly one `Content-Type` header.
(A call that an exception leaves, as the one of a `StaticFileHandler` whose `ReadFile`
raises, returns no reply.) -/
theorem handle_request_has_content_headers (w : World) (handler : RequestHandler)
    (req : request) (rep : reply) (hrep : handler.handle_request w req = .ok rep) :
    rep.headers.filter (fun h => decide (h.name = "Content-Length".toList))
        = [{ name := "Content-Length".toList, value := to_string rep.content.length }]
      ∧ (rep.headers.filter
          (fun h => decide (h.name = "Content-Type".toList))).length = 1 := by
  have h : rep.has_content_headers := by
    cases handler with
    | EchoHandler => cases hrep; exact EchoHandler_has_content_headers req
    | NotFoundHandler => cases hrep; exact NotFoundHandler_has_content_headers req
    | HealthHandler => cases hrep; exact HealthHandler_has_content_headers req
    | SleepHandler => cases hrep; exact SleepHandler_has_content_headers req
    | APIHandler p ep => cases hrep; exact APIHandler_has_content_headers p ep req
    | StaticFileHandler r p => exact StaticFileHandler_has_content_headers w r p req rep hrep
    | UploadHandler u p m => cases hrep; exact UploadHandler_has_content_headers w u p m req
    | TextViewHandler v => cases hrep; exact TextViewHandler_has_content_headers w v req
    | SimpleAuthHandler p d =>
      cases hrep; exact SimpleAuthHandler_has_content_headers w p d req
  exact h

/-- Witness of C8: the reply of a `StaticFileHandler` for a file that does not exist. -/
theorem handle_request_has_content_headers_witness :
    ∃ rep, RequestHandler.handle_request quiet_world
          (RequestHandler.StaticFileHandler "/www".toList "/static".toList)
          (simple_request "GET".toList "/static/a.txt".toList []) = .ok rep
      ∧ rep.status = 404
      ∧ rep.headers.filter (fun h => decide (h.name = "Content-Length".toList))
          = [{ name := "Content-Length".toList, value := to_string rep.content.length }]
      ∧ (rep.headers.filter
          (fun h => decide (h.name = "Content-Type".toList))).length = 1 :=
  ⟨_, rfl, rfl,
    handle_request_has_content_headers quiet_world
      (RequestHandler.StaticFileHandler "/www".toList "/static".toList)
      (simple_request "GET".toList "/static/a.txt".toList []) _ rfl⟩

/-- A `StaticFileHandler` that is asked for a directory returns no reply: in a world in
which `ReadFile` raises `std::length_error` for `./www/`, the exception leaves
`handle_request`. -/
theorem StaticFileHandler_raises_on_directory :
    RequestHandler.handle_request directory_world
        (RequestHandler.StaticFileHandler "/www".toList "/static".toList)
        (simple_request "GET".toList "/static/".toList [])
      = .error "std::length_error".toList :=
  rfl

namespace requestParser

/-! ## The request parser -/

theorem parse_of_run (st : state) (req : request) (p q : Str) (st2 : state) (req2 : request)
    (h : run st req p = some (st2, req2)) : parse st req (p ++ q) = parse st2 req2 q := by
  induction p generalizing st req with
  | nil =>
    simp only [run, Option.some.injEq, Prod.mk.injEq] at h
    obtain ⟨h1, h2⟩ := h
    subst h1 h2
    rfl
  | cons c cs ih =>
    rcases hcons : consume st req c with ⟨r, st', req'⟩
    cases r
    · simp [run, hcons] at h
    · simp [run, hcons] at h
    · simp only [run, hcons] at h
      simp only [List.cons_append, parse, hcons]
      exact ih st' req' h

theorem run_append (st : state) (req : request) (p q : Str) (st2 : state) (req2 : request)
    (h : run st req p = some (st2, req2)) : run st req (p ++ q) = run st2 req2 q := by
  induction p generalizing st req with
  | nil =>
    simp only [run, Option.some.injEq, Prod.mk.injEq] at h
    obtain ⟨h1, h2⟩ := h
    subst h1 h2
    rfl
  | cons c cs ih =>
    rcases hcons : consume st req c with ⟨r, st', req'⟩
    cases r
    · simp [run, hcons] at h
    · simp [run, hcons] at h
    · simp only [run, hcons] at h
      simp only [List.cons_append, run, hcons]
      exact ih st' req' h

theorem run_of_parse_indeterminate (st : state) (req : request) (p : Str)
    (h : (parse st req p).result = .indeterminate) :
    run st req p = some ((parse st req p).state_, (parse st req p).req) := by
  induction p generalizing st req with
  | nil => rfl
  | cons c cs ih =>
    rcases hcons : consume st req c with ⟨r, st', req'⟩
    cases r
    · simp [parse, hcons] at h
    · simp [parse, hcons] at h
    · simp only [parse, hcons] at h ⊢
      simp only [run, hcons]
      exact ih st' req' h

theorem bad_of_run (st : state) (req : request) (p rest : Str) (c : Char) (st2 : state)
    (req2 : request) (h : run st req p = some (st2, req2))
    (hc : (consume st2 req2 c).1 = .bad) :
    (parse st req (p ++ c :: rest)).result = .bad := by
  rw [parse_of_run st req p (c :: rest) st2 req2 h]
  rcases hcons : consume st2 req2 c with ⟨r, st', req'⟩
  rw [hcons] at hc
  simp only at hc
  subst hc
  simp [parse, hcons]

end requestParser

namespace requestParser

theorem parse_good_ne_nil (st : state) (req : request) (text : Str)
    (h : (parse st req text).result = .good) : text ≠ [] := by
  intro hnil
  subst hnil
  simp [parse] at h

end requestParser

open requestParser in
/-- C9: for every request text on which one `parse` call returns `good` having consumed
every byte (a complete well-formed request), feeding the text one byte per call returns
`indeterminate` for every byte but the last and `good` on the last one, and leaves the
same request (method, URI, version and headers) and the same parser state as the single
call. This holds from every parser state and request, so also after `reset()`. -/
theorem parse_incremental_equivalence (st : state) (req : request) (text : Str)
    (hgood : (parse st req text).result = .good) (hall : (parse st req text).rest = []) :
    (parse_bytes st req text).1
        = List.replicate (text.length - 1) result_type.indeterminate ++ [result_type.good]
      ∧ (parse_bytes st req text).2.2 = (parse st req text).req
      ∧ (parse_bytes st req text).2.2.method = (parse st req text).req.method
      ∧ (parse_bytes st req text).2.2.uri = (parse st req text).req.uri
      ∧ (parse_bytes st req text).2.2.http_version_major
          = (parse st req text).req.http_version_major
      ∧ (parse_bytes st req text).2.2.http_version_minor
          = (parse st req text).req.http_version_minor
      ∧ (parse_bytes st req text).2.2.headers = (parse st req text).req.headers
      ∧ (parse_bytes st req text).2.1 = (parse st req text).state_ := by
  have key : (parse_bytes st req text).1
        = List.replicate (text.length - 1) result_type.indeterminate ++ [result_type.good]
      ∧ (parse_bytes st req text).2 = ((parse st req text).state_, (parse st req text).req) := by
    induction text generalizing st req with
    | nil => simp [parse] at hgood
    | cons c cs ih =>
      rcases hcons : consume st req c with ⟨r, st', req'⟩
      cases r
      · simp only [parse, hcons] at hall
        subst hall
        simp [parse_bytes, parse, hcons]
      · simp [parse, hcons] at hgood
      · simp only [parse, hcons] at hgood hall
        obtain ⟨ih1, ih2⟩ := ih st' req' hgood hall
        have hne := parse_good_ne_nil st' req' cs hgood
        obtain ⟨d, ds, hds⟩ := List.exists_cons_of_ne_nil hne
        simp only [parse_bytes, parse, hcons, ih1, ih2]
        subst hds
        simp [List.replicate_succ]
  obtain ⟨k1, k2⟩ := key
  rw [k2]
  exact ⟨k1, rfl, rfl, rfl, rfl, rfl, rfl, rfl⟩

/-- Witness of C9: the request of the test `IncrementalParsing`, fed byte by byte after
`reset()`, gives `indeterminate` thirty-six times and then `good`. -/
theorem parse_incremental_equivalence_witness :
    (requestParser.parse_bytes requestParser.reset requestParser.empty_request
        "GET / HTTP/1.1\r\nHost: example.com\r\n\r\n".toList).1
      = List.replicate 36 requestParser.result_type.indeterminate
          ++ [requestParser.result_type.good]
    ∧ (requestParser.parse_bytes requestParser.reset requestParser.empty_request
        "GET / HTTP/1.1\r\nHost: example.com\r\n\r\n".toList).2.2
      = { method := "GET".toList, uri := "/".toList, http_version_major := 1,
          http_version_minor := 1,
          headers := [{ name := "Host".toList, value := "example.com".toList }],
          body := [] } :=
  ⟨(parse_incremental_equivalence requestParser.reset requestParser.empty_request
      "GET / HTTP/1.1\r\nHost: example.com\r\n\r\n".toList (by decide) (by decide)).1,
   (parse_incremental_equivalence requestParser.reset requestParser.empty_request
      "GET / HTTP/1.1\r\nHost: example.com\r\n\r\n".toList (by decide) (by decide)).2.1.trans
      (by decide)⟩

namespace requestParser

theorem token_ne (c d : Char) (h : is_token c = true) (hd : is_token d = false) : c ≠ d := by
  intro e
  subst e
  rw [h] at hd
  exact absurd hd (by decide)

theorem not_ctl_ne (c d : Char) (h : is_ctl c = false) (hd : is_ctl d = true) : c ≠ d := by
  intro e
  subst e
  rw [h] at hd
  exact absurd hd (by decide)

theorem digit_ne (c d : Char) (h : is_digit c = true) (hd : is_digit d = false) : c ≠ d := by
  intro e
  subst e
  rw [h] at hd
  exact absurd hd (by decide)

theorem ctl_not_token (c : Char) (h : is_ctl c = true) : is_token c = false := by
  simp [is_token, h]

theorem tspecial_not_token (c : Char) (h : is_tspecial c = true) : is_token c = false := by
  simp [is_token, h]

theorem run_method (req : request) (m : Str) (h : token_text m) :
    ∃ req2, run .method req m = some (.method, req2) ∧ req2.headers = req.headers := by
  induction m generalizing req with
  | nil => exact ⟨req, rfl, rfl⟩
  | cons c cs ih =>
    have hc : is_token c = true := h c (List.mem_cons_self _ _)
    have hsp : c ≠ ' ' := token_ne c ' ' hc (by decide)
    obtain ⟨req2, h1, h2⟩ := ih { req with method := req.method ++ [c] }
      (fun x hx => h x (List.mem_cons_of_mem _ hx))
    refine ⟨req2, ?_, h2⟩
    simp only [run, consume, hsp, hc, if_false, Bool.not_true, Bool.false_eq_true]
    exact h1

theorem run_method_start (req : request) (m : Str) (h : token_text m) (hne : m ≠ []) :
    ∃ req2, run .method_start req m = some (.method, req2) ∧ req2.headers = req.headers := by
  obtain ⟨c, cs, rfl⟩ := List.exists_cons_of_ne_nil hne
  have hc : is_token c = true := h c (List.mem_cons_self _ _)
  obtain ⟨req2, h1, h2⟩ := run_method { req with method := req.method ++ [c] } cs
    (fun x hx => h x (List.mem_cons_of_mem _ hx))
  refine ⟨req2, ?_, h2⟩
  simp only [run, consume, hc, Bool.not_true, Bool.false_eq_true, if_false]
  exact h1

theorem run_uri (req : request) (u : Str) (h : uri_text u) :
    ∃ req2, run .uri req u = some (.uri, req2) ∧ req2.headers = req.headers := by
  induction u generalizing req with
  | nil => exact ⟨req, rfl, rfl⟩
  | cons c cs ih =>
    obtain ⟨hc, hsp⟩ := h c (List.mem_cons_self _ _)
    obtain ⟨req2, h1, h2⟩ := ih { req with uri := req.uri ++ [c] }
      (fun x hx => h x (List.mem_cons_of_mem _ hx))
    refine ⟨req2, ?_, h2⟩
    simp only [run, consume, hsp, hc, if_false, Bool.false_eq_true]
    exact h1

theorem run_major (req : request) (d : Str) (h : digit_text d) :
    ∃ req2, run .http_version_major req d = some (.http_version_major, req2)
      ∧ req2.headers = req.headers := by
  induction d generalizing req with
  | nil => exact ⟨req, rfl, rfl⟩
  | cons c cs ih =>
    have hc : is_digit c = true := h c (List.mem_cons_self _ _)
    have hdot : c ≠ '.' := digit_ne c '.' hc (by decide)
    obtain ⟨req2, h1, h2⟩ := ih
      { req with http_version_major := req.http_version_major * 10 + digit_value c }
      (fun x hx => h x (List.mem_cons_of_mem _ hx))
    refine ⟨req2, ?_, h2⟩
    simp only [run, consume, hdot, hc, if_false, if_true]
    exact h1

theorem run_minor (req : request) (d : Str) (h : digit_text d) :
    ∃ req2, run .http_version_minor req d = some (.http_version_minor, req2)
      ∧ req2.headers = req.headers := by
  induction d generalizing req with
  | nil => exact ⟨req, rfl, rfl⟩
  | cons c cs ih =>
    have hc : is_digit c = true := h c (List.mem_cons_self _ _)
    have hcr : c ≠ '\r' := digit_ne c '\r' hc (by decide)
    obtain ⟨req2, h1, h2⟩ := ih
      { req with http_version_minor := req.http_version_minor * 10 + digit_value c }
      (fun x hx => h x (List.mem_cons_of_mem _ hx))
    refine ⟨req2, ?_, h2⟩
    simp only [run, consume, hcr, hc, if_false, if_true]
    exact h1

/-- After the method and the space the parser reads the URI. -/
theorem run_to_uri (m u : Str) (hm : token_text m) (hne : m ≠ []) (hu : uri_text u) :
    ∃ req2, run reset empty_request (m ++ ' ' :: u) = some (.uri, req2)
      ∧ req2.headers = [] := by
  obtain ⟨r1, h1, e1⟩ := run_method_start empty_request m hm hne
  obtain ⟨r2, h2, e2⟩ := run_uri r1 u hu
  refine ⟨r2, ?_, by rw [e2, e1]; rfl⟩
  rw [reset, run_append _ _ m _ _ _ h1]
  simp only [run, consume, if_true]
  exact h2

/-- After the method, the space, the URI and ` HTTP/` the parser expects the first
digit of the major version. -/
theorem run_to_major_start (m u : Str) (hm : token_text m) (hne : m ≠ []) (hu : uri_text u) :
    ∃ req2, run reset empty_request (m ++ ' ' :: u ++ " HTTP/".toList)
        = some (.http_version_major_start, req2) ∧ req2.headers = [] := by
  obtain ⟨r2, h2, e2⟩ := run_to_uri m u hm hne hu
  refine ⟨{ r2 with http_version_major := 0, http_version_minor := 0 }, ?_, e2⟩
  have h3 : m ++ ' ' :: u ++ " HTTP/".toList = (m ++ ' ' :: u) ++ " HTTP/".toList := by simp
  rw [h3, run_append _ _ _ _ _ _ h2]
  rfl

end requestParser

namespace requestParser

/-- After ` HTTP/` and the digits `d` the parser is at the first digit of the major
version when `d` is empty, and past it otherwise. -/
theorem run_to_major (m u d : Str) (hm : token_text m) (hne : m ≠ []) (hu : uri_text u)
    (hd : digit_text d) :
    ∃ req2, run reset empty_request (m ++ ' ' :: u ++ " HTTP/".toList ++ d)
        = some (if d = [] then .http_version_major_start else .http_version_major, req2)
      ∧ req2.headers = [] := by
  obtain ⟨r2, h2, e2⟩ := run_to_major_start m u hm hne hu
  rw [run_append _ _ _ d _ _ h2]
  cases d with
  | nil => exact ⟨r2, rfl, e2⟩
  | cons c cs =>
    have hc : is_digit c = true := hd c (List.mem_cons_self _ _)
    obtain ⟨r3, h3, e3⟩ := run_major
      { r2 with http_version_major := r2.http_version_major * 10 + digit_value c } cs
      (fun x hx => hd x (List.mem_cons_of_mem _ hx))
    refine ⟨r3, ?_, by rw [e3]; exact e2⟩
    simp only [run, consume, hc, if_true]
    simpa using h3

/-- After the major version, the `.` and the digits `d` the parser is at the first
digit of the minor version when `d` is empty, and past it otherwise. -/
theorem run_to_minor (m u major d : Str) (hm : token_text m) (hne : m ≠ []) (hu : uri_text u)
    (hmaj : digit_text major) (hmajne : major ≠ []) (hd : digit_text d) :
    ∃ req2, run reset empty_request (m ++ ' ' :: u ++ " HTTP/".toList ++ major ++ '.' :: d)
        = some (if d = [] then .http_version_minor_start else .http_version_minor, req2)
      ∧ req2.headers = [] := by
  obtain ⟨r2, h2, e2⟩ := run_to_major m u major hm hne hu hmaj
  simp only [hmajne, if_false] at h2
  rw [run_append _ _ _ ('.' :: d) _ _ h2]
  cases d with
  | nil => exact ⟨r2, rfl, e2⟩
  | cons c cs =>
    have hc : is_digit c = true := hd c (List.mem_cons_self _ _)
    obtain ⟨r3, h3, e3⟩ := run_minor
      { r2 with http_version_minor := r2.http_version_minor * 10 + digit_value c } cs
      (fun x hx => hd x (List.mem_cons_of_mem _ hx))
    refine ⟨r3, ?_, by rw [e3]; exact e2⟩
    simp only [run, consume, hc, if_true]
    simpa using h3

/-- After a well-formed request line the parser is at the start of a header line, with
no header in the request. -/
theorem run_request_line (m u major minor : Str) (h : request_line_ok m u major minor) :
    ∃ req2, run reset empty_request (request_line m u major minor)
        = some (.header_line_start, req2) ∧ req2.headers = [] := by
  obtain ⟨r2, h2, e2⟩ := run_to_minor m u major minor h.method_ok h.method_ne h.uri_ok
    h.major_ok h.major_ne h.minor_ok
  simp only [h.minor_ne, if_false] at h2
  refine ⟨r2, ?_, e2⟩
  unfold request_line
  rw [run_append _ _ _ "\r\n".toList _ _ h2]
  rfl

theorem push_name_ne_nil (c : Char) (hs : List header) (h : hs ≠ []) : push_name c hs ≠ [] := by
  induction hs with
  | nil => exact absurd rfl h
  | cons x rest ih =>
    cases rest with
    | nil => simp [push_name]
    | cons y rest2 => simp [push_name]

theorem push_value_ne_nil (c : Char) (hs : List header) (h : hs ≠ []) :
    push_value c hs ≠ [] := by
  induction hs with
  | nil => exact absurd rfl h
  | cons x rest ih =>
    cases rest with
    | nil => simp [push_value]
    | cons y rest2 => simp [push_value]

theorem run_header_name (req : request) (n : Str) (h : token_text n) (hh : req.headers ≠ []) :
    ∃ req2, run .header_name req n = some (.header_name, req2) ∧ req2.headers ≠ [] := by
  induction n generalizing req with
  | nil => exact ⟨req, rfl, hh⟩
  | cons c cs ih =>
    have hc : is_token c = true := h c (List.mem_cons_self _ _)
    have hcol : c ≠ ':' := token_ne c ':' hc (by decide)
    obtain ⟨req2, h1, h2⟩ := ih { req with headers := push_name c req.headers }
      (fun x hx => h x (List.mem_cons_of_mem _ hx)) (push_name_ne_nil c _ hh)
    refine ⟨req2, ?_, h2⟩
    simp only [run, consume, hcol, hc, if_false, Bool.not_true, Bool.false_eq_true]
    exact h1

theorem run_header_value (req : request) (v : Str) (h : value_text v) (hh : req.headers ≠ []) :
    ∃ req2, run .header_value req v = some (.header_value, req2) ∧ req2.headers ≠ [] := by
  induction v generalizing req with
  | nil => exact ⟨req, rfl, hh⟩
  | cons c cs ih =>
    have hc : is_ctl c = false := h c (List.mem_cons_self _ _)
    have hcr : c ≠ '\r' := not_ctl_ne c '\r' hc (by decide)
    obtain ⟨req2, h1, h2⟩ := ih { req with headers := push_value c req.headers }
      (fun x hx => h x (List.mem_cons_of_mem _ hx)) (push_value_ne_nil c _ hh)
    refine ⟨req2, ?_, h2⟩
    simp only [run, consume, hcr, hc, if_false, Bool.false_eq_true]
    exact h1

theorem run_header_lws (req : request) (ws : Str) (h : lws_text ws) :
    run .header_lws req ws = some (.header_lws, req) := by
  induction ws generalizing req with
  | nil => rfl
  | cons c cs ih =>
    have ih' := ih req (fun x hx => h x (List.mem_cons_of_mem _ hx))
    rcases h c (List.mem_cons_self _ _) with hc | hc
    · subst hc
      simp only [run, consume]
      exact ih'
    · subst hc
      simp only [run, consume]
      exact ih'

/-- From the start of a header line, a name brings the parser into the name. -/
theorem run_name_from_line_start (req : request) (n : Str) (h : token_text n) (hne : n ≠ []) :
    ∃ req2, run .header_line_start req n = some (.header_name, req2) ∧ req2.headers ≠ [] := by
  obtain ⟨c, cs, rfl⟩ := List.exists_cons_of_ne_nil hne
  have hc : is_token c = true := h c (List.mem_cons_self _ _)
  have hcr : c ≠ '\r' := token_ne c '\r' hc (by decide)
  have hsp : c ≠ ' ' := token_ne c ' ' hc (by decide)
  have htab : c ≠ '\t' := token_ne c '\t' hc (by decide)
  obtain ⟨req2, h1, h2⟩ := run_header_name
    { req with headers := req.headers ++ [{ name := [c], value := [] }] } cs
    (fun x hx => h x (List.mem_cons_of_mem _ hx)) (by simp)
  refine ⟨req2, ?_, h2⟩
  simp only [run, consume, hcr, hsp, htab, hc, if_false, Bool.not_true, Bool.false_eq_true,
    decide_False, Bool.or_self, Bool.and_false]
  exact h1

/-- From the start of a header line, a name, a colon, a space and a value bring the
parser into the value. -/
theorem run_value_from_line_start (req : request) (n v : Str) (h : token_text n)
    (hne : n ≠ []) (hv : value_text v) :
    ∃ req2, run .header_line_start req (n ++ ": ".toList ++ v) = some (.header_value, req2)
      ∧ req2.headers ≠ [] := by
  obtain ⟨r1, h1, e1⟩ := run_name_from_line_start req n h hne
  obtain ⟨r2, h2, e2⟩ := run_header_value r1 v hv e1
  refine ⟨r2, ?_, e2⟩
  rw [List.append_assoc, run_append _ _ n _ _ _ h1]
  have h3 : run .header_name r1 ": ".toList = some (.header_value, r1) := rfl
  rw [run_append _ _ ": ".toList _ _ _ h3]
  exact h2

end requestParser

namespace requestParser

/-- From the leading whitespace of a continuation line, content without control
character keeps the parser in the whitespace (while it is spaces) or brings it into
the value. -/
theorem run_continuation_content (req : request) (v : Str) (h : value_text v)
    (hh : req.headers ≠ []) :
    ∃ st2 req2, run .header_lws req v = some (st2, req2)
      ∧ (st2 = .header_lws ∨ st2 = .header_value)
      ∧ req2.headers ≠ []
      ∧ (v = [] → st2 = .header_lws)
      ∧ (v ≠ [] → v.head? ≠ some ' ' → st2 = .header_value) := by
  induction v generalizing req with
  | nil =>
    exact ⟨.header_lws, req, rfl, Or.inl rfl, hh, fun _ => rfl, fun hne => absurd rfl hne⟩
  | cons c cs ih =>
    have hc : is_ctl c = false := h c (List.mem_cons_self _ _)
    have hcr : c ≠ '\r' := not_ctl_ne c '\r' hc (by decide)
    have htab : c ≠ '\t' := not_ctl_ne c '\t' hc (by decide)
    have hcs : value_text cs := fun x hx => h x (List.mem_cons_of_mem _ hx)
    by_cases hsp : c = ' '
    · obtain ⟨st2, req2, h1, h2, h3, _, _⟩ := ih req hcs hh
      refine ⟨st2, req2, ?_, h2, h3, fun hnil => absurd hnil (by simp), ?_⟩
      · subst hsp
        simp only [run, consume]
        exact h1
      · intro _ hhead
        subst hsp
        exact absurd rfl hhead
    · obtain ⟨req2, h1, h2⟩ := run_header_value
        { req with headers := push_value c req.headers } cs hcs (push_value_ne_nil c _ hh)
      refine ⟨.header_value, req2, ?_, Or.inr rfl, h2, fun hnil => absurd hnil (by simp),
        fun _ _ => rfl⟩
      simp only [run, consume, hcr, hsp, htab, hc, if_false, Bool.false_eq_true,
        decide_False, Bool.or_self]
      exact h1

/-- From the start of a header line, the leading whitespace of a continuation line and
its content bring the parser into the whitespace or into the value. -/
theorem run_continuation_from_line_start (req : request) (ws v : Str) (hws : lws_text ws)
    (hne : ws ≠ []) (hv : value_text v) (hh : req.headers ≠ []) :
    ∃ st2 req2, run .header_line_start req (ws ++ v) = some (st2, req2)
      ∧ (st2 = .header_lws ∨ st2 = .header_value)
      ∧ req2.headers ≠ []
      ∧ (v = [] → st2 = .header_lws)
      ∧ (v ≠ [] → v.head? ≠ some ' ' → st2 = .header_value) := by
  obtain ⟨st2, req2, h1, h2⟩ := run_continuation_content req v hv hh
  refine ⟨st2, req2, ?_, h2⟩
  obtain ⟨c, cs, rfl⟩ := List.exists_cons_of_ne_nil hne
  have hcs : run .header_lws req cs = some (.header_lws, req) :=
    run_header_lws req cs (fun x hx => hws x (List.mem_cons_of_mem _ hx))
  have hemp : req.headers.isEmpty = false := by
    cases hl : req.headers with
    | nil => exact absurd hl hh
    | cons a l => rfl
  have hstart : run .header_line_start req (c :: cs) = some (.header_lws, req) := by
    rcases hws c (List.mem_cons_self _ _) with hc | hc
    · subst hc
      simp only [run, consume, hemp]
      exact hcs
    · subst hc
      simp only [run, consume, hemp]
      exact hcs
  rw [run_append _ _ _ v _ _ hstart]
  exact h1

/-- A sequence of complete header lines brings the parser from the start of a header
line to the start of the next one. -/
theorem run_header_lines (b : Str) (had : Bool) (h : header_lines b had) (req : request) :
    ∃ req2, run .header_line_start req b = some (.header_line_start, req2)
      ∧ (had = true → req2.headers ≠ []) := by
  induction h with
  | none => exact ⟨req, rfl, fun h => absurd h (by simp)⟩
  | line b n v had _ hn hne hv ih =>
    obtain ⟨r1, h1, _⟩ := ih
    obtain ⟨r2, h2, e2⟩ := run_value_from_line_start r1 n v hn hne hv
    refine ⟨r2, ?_, fun _ => e2⟩
    have e : b ++ n ++ ": ".toList ++ v ++ "\r\n".toList
        = b ++ ((n ++ ": ".toList ++ v) ++ "\r\n".toList) := by simp
    rw [e, run_append _ _ b _ _ _ h1, run_append _ _ _ "\r\n".toList _ _ h2]
    rfl
  | continuation b ws v _ hws hne hv ih =>
    obtain ⟨r1, h1, e1⟩ := ih
    obtain ⟨st2, r2, h2, hst, e2, _, _⟩ :=
      run_continuation_from_line_start r1 ws v hws hne hv (e1 rfl)
    refine ⟨r2, ?_, fun _ => e2⟩
    have e : b ++ ws ++ v ++ "\r\n".toList = b ++ ((ws ++ v) ++ "\r\n".toList) := by simp
    rw [e, run_append _ _ b _ _ _ h1, run_append _ _ _ "\r\n".toList _ _ h2]
    rcases hst with hst | hst
    · subst hst
      rfl
    · subst hst
      rfl

/-- After a well-formed request line and complete header lines the parser is at the
start of a header line; the request holds a header when the lines hold one. -/
theorem run_to_line_start (m u major minor b : Str) (had : Bool)
    (hl : request_line_ok m u major minor) (hb : header_lines b had) :
    ∃ req2, run reset empty_request (request_line m u major minor ++ b)
        = some (.header_line_start, req2) ∧ (had = true → req2.headers ≠ []) := by
  obtain ⟨r1, h1, _⟩ := run_request_line m u major minor hl
  obtain ⟨r2, h2, e2⟩ := run_header_lines b had hb r1
  exact ⟨r2, by rw [run_append _ _ _ b _ _ h1]; exact h2, e2⟩

end requestParser

namespace requestParser

theorem ctl_ne_space (c : Char) (h : is_ctl c = true) : c ≠ ' ' := by
  intro e
  subst e
  exact absurd h (by decide)

theorem ctl_ne_colon (c : Char) (h : is_ctl c = true) : c ≠ ':' := by
  intro e
  subst e
  exact absurd h (by decide)

theorem consume_cr (st : state) (req : request) :
    (consume st req '\r').1 = .bad
      ∨ ∃ st2 req2, consume st req '\r' = (.indeterminate, st2, req2)
          ∧ (st2 = .expecting_newline_1 ∨ st2 = .expecting_newline_2
              ∨ st2 = .expecting_newline_3) := by
  have h1 : is_token '\r' = false := by decide
  have h2 : is_ctl '\r' = true := by decide
  have h3 : is_digit '\r' = false := by decide
  cases st <;> simp [consume, h1, h2, h3]

theorem consume_not_lf (st : state) (req : request) (c : Char) (hc : c ≠ '\n')
    (hst : st = .expecting_newline_1 ∨ st = .expecting_newline_2
      ∨ st = .expecting_newline_3) : (consume st req c).1 = .bad := by
  rcases hst with h | h | h <;> subst h <;> simp [consume, hc]

theorem parse_cr_without_lf (st : state) (req : request) (c : Char) (rest : Str)
    (hc : c ≠ '\n') : (parse st req ('\r' :: c :: rest)).result = .bad := by
  rcases consume_cr st req with h | ⟨st2, req2, h, hst⟩
  · rcases hcons : consume st req '\r' with ⟨r, st', req'⟩
    rw [hcons] at h
    simp only at h
    subst h
    simp [parse, hcons]
  · have h2 := consume_not_lf st2 req2 c hc hst
    rcases hcons : consume st2 req2 c with ⟨r, st', req'⟩
    rw [hcons] at h2
    simp only at h2
    subst h2
    simp [parse, h, hcons]

end requestParser

namespace requestParser

theorem bad_in_method (m rest : Str) (c : Char) (hm : token_text m)
    (hc : is_token c = false) (hsp : c ≠ ' ') :
    (parse reset empty_request (m ++ c :: rest)).result = .bad := by
  by_cases hne : m = []
  · subst hne
    simp [parse, reset, consume, hc]
  · obtain ⟨r, h1, _⟩ := run_method_start empty_request m hm hne
    exact bad_of_run _ _ m rest c _ r h1 (by simp [consume, hc, hsp])

theorem bad_in_header_name (m u major minor b n rest : Str) (had : Bool) (c : Char)
    (hl : request_line_ok m u major minor) (hb : header_lines b had) (hn : token_text n)
    (hne : n ≠ []) (hc : is_token c = false) (hcol : c ≠ ':') :
    (parse reset empty_request (request_line m u major minor ++ b ++ n ++ c :: rest)).result
      = .bad := by
  obtain ⟨r1, h1, _⟩ := run_to_line_start m u major minor b had hl hb
  obtain ⟨r2, h2, _⟩ := run_name_from_line_start r1 n hn hne
  have h3 : run reset empty_request (request_line m u major minor ++ b ++ n)
      = some (.header_name, r2) := by
    rw [run_append _ _ _ n _ _ h1]
    exact h2
  exact bad_of_run _ _ _ rest c _ r2 h3 (by simp [consume, hc, hcol])

end requestParser

open requestParser in
/-- C10: `parse`, on a parser after `reset()` and a fresh request, returns `bad` for
every request text that has a control character in the method, in the URI, in a header
name, in a header value or in the content of a header continuation line, a special
character such as `@` in the method or in a header name, a header colon that is not
followed by a space, a CR that is not followed by LF, a header line without a colon
after a header line, or a non-digit where a version digit is expected. -/
theorem parse_rejects_malformed (text : Str) (h : malformed text) :
    (parse reset empty_request text).result = result_type.bad := by
  cases h with
  | ctl_in_method m rest c hm hc =>
    exact bad_in_method m rest c hm (ctl_not_token c hc) (ctl_ne_space c hc)
  | special_in_method m rest c hm hc hsp =>
    exact bad_in_method m rest c hm (tspecial_not_token c hc) hsp
  | ctl_in_uri m u rest c hm hne hu hc =>
    obtain ⟨r, h1, _⟩ := run_to_uri m u hm hne hu
    have e : m ++ ' ' :: u ++ c :: rest = (m ++ ' ' :: u) ++ c :: rest := by simp
    rw [e]
    exact bad_of_run _ _ _ rest c _ r h1 (by simp [consume, hc, ctl_ne_space c hc])
  | major_not_digit m u d rest c hm hne hu hd hc hdot =>
    obtain ⟨r, h1, _⟩ := run_to_major m u d hm hne hu hd
    refine bad_of_run _ _ _ rest c _ r h1 ?_
    rcases hdot with hnil | hdot
    · simp [hnil, consume, hc]
    · by_cases hnil : d = []
      · simp [hnil, consume, hc]
      · simp [hnil, consume, hc, hdot]
  | minor_not_digit m u major d rest c hm hne hu hmaj hmajne hd hc hcr =>
    obtain ⟨r, h1, _⟩ := run_to_minor m u major d hm hne hu hmaj hmajne hd
    have e : m ++ ' ' :: u ++ " HTTP/".toList ++ major ++ '.' :: d ++ c :: rest
        = (m ++ ' ' :: u ++ " HTTP/".toList ++ major ++ '.' :: d) ++ c :: rest := by simp
    rw [e]
    refine bad_of_run _ _ _ rest c _ r h1 ?_
    rcases hcr with hnil | hcr
    · simp [hnil, consume, hc]
    · by_cases hnil : d = []
      · simp [hnil, consume, hc]
      · simp [hnil, consume, hc, hcr]
  | ctl_in_header_name m u major minor b n rest had c hl hb hn hc hcond =>
    by_cases hne : n = []
    · subst hne
      obtain ⟨r1, h1, _⟩ := run_to_line_start m u major minor b had hl hb
      rw [List.append_nil]
      refine bad_of_run _ _ _ rest c _ r1 h1 ?_
      rcases hcond with hcond | ⟨hcr, htab⟩
      · exact absurd rfl hcond
      · simp [consume, hcr, htab, ctl_ne_space c hc, ctl_not_token c hc]
    · exact bad_in_header_name m u major minor b n rest had c hl hb hn hne
        (ctl_not_token c hc) (ctl_ne_colon c hc)
  | special_in_header_name m u major minor b n rest had c hl hb hn hne hc hcol =>
    exact bad_in_header_name m u major minor b n rest had c hl hb hn hne
      (tspecial_not_token c hc) hcol
  | colon_without_space m u major minor b n rest had c hl hb hn hne hc =>
    obtain ⟨r1, h1, _⟩ := run_to_line_start m u major minor b had hl hb
    obtain ⟨r2, h2, _⟩ := run_name_from_line_start r1 n hn hne
    have h3 : run reset empty_request (request_line m u major minor ++ b ++ n ++ [':'])
        = some (.space_before_header_value, r2) := by
      rw [List.append_assoc, run_append _ _ _ (n ++ [':']) _ _ h1, run_append _ _ n _ _ _ h2]
      rfl
    have e : request_line m u major minor ++ b ++ n ++ ':' :: c :: rest
        = (request_line m u major minor ++ b ++ n ++ [':']) ++ c :: rest := by simp
    rw [e]
    exact bad_of_run _ _ _ rest c _ r2 h3 (by simp [consume, hc])
  | ctl_in_header_value m u major minor b n v rest had c hl hb hn hne hv hc hcr =>
    obtain ⟨r1, h1, _⟩ := run_to_line_start m u major minor b had hl hb
    obtain ⟨r2, h2, _⟩ := run_value_from_line_start r1 n v hn hne hv
    have h3 : run reset empty_request
        (request_line m u major minor ++ b ++ (n ++ ": ".toList ++ v))
        = some (.header_value, r2) := by
      rw [run_append _ _ _ _ _ _ h1]
      exact h2
    have e : request_line m u major minor ++ b ++ n ++ ": ".toList ++ v ++ c :: rest
        = (request_line m u major minor ++ b ++ (n ++ ": ".toList ++ v)) ++ c :: rest := by
      simp
    rw [e]
    exact bad_of_run _ _ _ rest c _ r2 h3 (by simp [consume, hc, hcr])
  | ctl_in_continuation m u major minor b ws v rest c hl hb hws hne hv hhead hc hcr hcond =>
    obtain ⟨r1, h1, e1⟩ := run_to_line_start m u major minor b true hl hb
    obtain ⟨st2, r2, h2, _, _, hnil, hcons⟩ :=
      run_continuation_from_line_start r1 ws v hws hne hv (e1 rfl)
    have h3 : run reset empty_request (request_line m u major minor ++ b ++ (ws ++ v))
        = some (st2, r2) := by
      rw [run_append _ _ _ _ _ _ h1]
      exact h2
    have e : request_line m u major minor ++ b ++ ws ++ v ++ c :: rest
        = (request_line m u major minor ++ b ++ (ws ++ v)) ++ c :: rest := by simp
    rw [e]
    refine bad_of_run _ _ _ rest c _ r2 h3 ?_
    by_cases hv0 : v = []
    · rcases hcond with hcond | htab
      · exact absurd hv0 hcond
      · rw [hnil hv0]
        simp [consume, hc, hcr, htab, ctl_ne_space c hc]
    · rw [hcons hv0 hhead]
      simp [consume, hc, hcr]
  | cr_without_lf p rest c hp hc =>
    have h1 := run_of_parse_indeterminate reset empty_request p hp
    rw [parse_of_run _ _ p _ _ _ h1]
    exact parse_cr_without_lf _ _ c rest hc
  | header_line_without_colon m u major minor b n rest hl hb hn hne =>
    exact bad_in_header_name m u major minor b n rest true '\r' hl hb hn hne (by decide)
      (by decide)

theorem get_line_ok : requestParser.request_line_ok "GET".toList "/".toList "1".toList
    "1".toList :=
  ⟨by decide, by decide, by decide, by decide, by decide, by decide, by decide⟩

theorem header_value_line_ok :
    requestParser.header_lines "Header: value\r\n".toList true :=
  requestParser.header_lines.line [] "Header".toList "value".toList false
    requestParser.header_lines.none (by decide) (by decide) (by decide)

open requestParser in
/-- Witness of C10: the malformed requests of tests/request_parser_test.cc are `bad`:
`@` in the method, a control character in the URI, a letter for a version digit, a CR
followed by `X`, a control character and an `@` in a header name, a colon without a
space, a control character in a header value and in a continuation line, and a second
header line without a colon. -/
theorem parse_rejects_malformed_witness :
    (parse reset empty_request "@ET /index.html HTTP/1.1\r\n\r\n".toList).result = .bad
    ∧ (parse reset empty_request "G@T /index.html HTTP/1.1\r\n\r\n".toList).result = .bad
    ∧ (parse reset empty_request "GET /\x1f.html HTTP/1.1\r\n\r\n".toList).result = .bad
    ∧ (parse reset empty_request "GET /index.html HTTP/A.1\r\n\r\n".toList).result = .bad
    ∧ (parse reset empty_request "GET /index.html HTTP/1.B\r\n\r\n".toList).result = .bad
    ∧ (parse reset empty_request "GET / HTTP/1.1\rX".toList).result = .bad
    ∧ (parse reset empty_request "GET / HTTP/1.1\r\n\x1fame: value\r\n\r\n".toList).result
        = .bad
    ∧ (parse reset empty_request "GET / HTTP/1.1\r\nHe@der: value\r\n\r\n".toList).result
        = .bad
    ∧ (parse reset empty_request "GET / HTTP/1.1\r\nHeader:value\r\n\r\n".toList).result
        = .bad
    ∧ (parse reset empty_request "GET / HTTP/1.1\r\nHeader: val\x1fue\r\n\r\n".toList).result
        = .bad
    ∧ (parse reset empty_request
        "GET / HTTP/1.1\r\nHeader: value\r\n \x1fcontinued\r\n\r\n".toList).result = .bad
    ∧ (parse reset empty_request
        "GET / HTTP/1.1\r\nHeader: value\r\nX\r\n\r\n".toList).result = .bad :=
  ⟨parse_rejects_malformed _
    (malformed.special_in_method [] "ET /index.html HTTP/1.1\r\n\r\n".toList '@'
      (by decide) (by decide) (by decide)),
   parse_rejects_malformed _
    (malformed.special_in_method "G".toList "T /index.html HTTP/1.1\r\n\r\n".toList '@'
      (by decide) (by decide) (by decide)),
   parse_rejects_malformed _
    (malformed.ctl_in_uri "GET".toList "/".toList ".html HTTP/1.1\r\n\r\n".toList '\x1f'
      (by decide) (by decide) (by decide) (by decide)),
   parse_rejects_malformed _
    (malformed.major_not_digit "GET".toList "/index.html".toList [] ".1\r\n\r\n".toList 'A'
      (by decide) (by decide) (by decide) (by decide) (by decide) (Or.inl rfl)),
   parse_rejects_malformed _
    (malformed.minor_not_digit "GET".toList "/index.html".toList "1".toList []
      "\r\n\r\n".toList 'B' (by decide) (by decide) (by decide) (by decide) (by decide)
      (by decide) (by decide) (Or.inl rfl)),
   parse_rejects_malformed _
    (malformed.cr_without_lf "GET / HTTP/1.1".toList [] 'X' (by decide) (by decide)),
   parse_rejects_malformed _
    (malformed.ctl_in_header_name "GET".toList "/".toList "1".toList "1".toList [] []
      "ame: value\r\n\r\n".toList false '\x1f' get_line_ok header_lines.none (by decide)
      (by decide) (Or.inr ⟨by decide, by decide⟩)),
   parse_rejects_malformed _
    (malformed.special_in_header_name "GET".toList "/".toList "1".toList "1".toList []
      "He".toList "der: value\r\n\r\n".toList false '@' get_line_ok header_lines.none
      (by decide) (by decide) (by decide) (by decide)),
   parse_rejects_malformed _
    (malformed.colon_without_space "GET".toList "/".toList "1".toList "1".toList []
      "Header".toList "alue\r\n\r\n".toList false 'v' get_line_ok header_lines.none
      (by decide) (by decide) (by decide)),
   parse_rejects_malformed _
    (malformed.ctl_in_header_value "GET".toList "/".toList "1".toList "1".toList []
      "Header".toList "val".toList "ue\r\n\r\n".toList false '\x1f' get_line_ok
      header_lines.none (by decide) (by decide) (by decide) (by decide) (by decide)),
   parse_rejects_malformed _
    (malformed.ctl_in_continuation "GET".toList "/".toList "1".toList "1".toList
      "Header: value\r\n".toList " ".toList [] "continued\r\n\r\n".toList '\x1f' get_line_ok
      header_value_line_ok (by decide) (by decide) (by decide) (by decide) (by decide)
      (by decide) (Or.inr (by decide))),
   parse_rejects_malformed _
    (malformed.header_line_without_colon "GET".toList "/".toList "1".toList "1".toList
      "Header: value\r\n".toList "X".toList "\n\r\n".toList get_line_ok
      header_value_line_ok (by decide) (by decide))⟩

open requestParser in
/-- The texts of the grammar are complete well-formed requests: on a request line,
complete header lines and the blank line, one `parse` call after `reset()` returns
`good` and consumes every byte. -/
theorem parse_well_formed_good (m u major minor b : Str) (had : Bool)
    (hl : request_line_ok m u major minor) (hb : header_lines b had) :
    (parse reset empty_request
        (request_line m u major minor ++ b ++ "\r\n".toList)).result = result_type.good
      ∧ (parse reset empty_request
        (request_line m u major minor ++ b ++ "\r\n".toList)).rest = [] := by
  obtain ⟨r, h, _⟩ := run_to_line_start m u major minor b had hl hb
  rw [parse_of_run _ _ _ "\r\n".toList _ _ h]
  exact ⟨rfl, rfl⟩

namespace requestParser

/-! ## Header continuation lines -/

theorem push_value_snoc (c : Char) (hs : List header) (h : header) :
    push_value c (hs ++ [h]) = hs ++ [{ h with value := h.value ++ [c] }] := by
  induction hs with
  | nil => rfl
  | cons x rest ih =>
    cases rest with
    | nil => simp [push_value]
    | cons y rest2 =>
      simp only [List.cons_append] at ih ⊢
      simp only [push_value, ih]

theorem push_name_snoc (c : Char) (hs : List header) (h : header) :
    push_name c (hs ++ [h]) = hs ++ [{ h with name := h.name ++ [c] }] := by
  induction hs with
  | nil => rfl
  | cons x rest ih =>
    cases rest with
    | nil => simp [push_name]
    | cons y rest2 =>
      simp only [List.cons_append] at ih ⊢
      simp only [push_name, ih]

/-- Inside a header name, name bytes are appended to the name of the last header. -/
theorem run_header_name_exact (req : request) (hs : List header) (h : header) (n : Str)
    (hn : token_text n) (hreq : req.headers = hs ++ [h]) :
    ∃ req2, run .header_name req n = some (.header_name, req2)
      ∧ req2.headers = hs ++ [{ h with name := h.name ++ n }] := by
  induction n generalizing req h with
  | nil => exact ⟨req, rfl, by simp [hreq]⟩
  | cons c cs ih =>
    have hc : is_token c = true := hn c (List.mem_cons_self _ _)
    have hcol : c ≠ ':' := token_ne c ':' hc (by decide)
    obtain ⟨req2, h1, h2⟩ := ih { req with headers := push_name c req.headers }
      { h with name := h.name ++ [c] } (fun x hx => hn x (List.mem_cons_of_mem _ hx))
      (by simp [hreq, push_name_snoc])
    refine ⟨req2, ?_, by simp [h2]⟩
    simp only [run, consume, hcol, hc, if_false, Bool.not_true, Bool.false_eq_true]
    exact h1

/-- Inside a header value, value bytes are appended to the value of the last header. -/
theorem run_header_value_exact (req : request) (hs : List header) (h : header) (v : Str)
    (hv : value_text v) (hreq : req.headers = hs ++ [h]) :
    ∃ req2, run .header_value req v = some (.header_value, req2)
      ∧ req2.headers = hs ++ [{ h with value := h.value ++ v }] := by
  induction v generalizing req h with
  | nil => exact ⟨req, rfl, by simp [hreq]⟩
  | cons c cs ih =>
    have hc : is_ctl c = false := hv c (List.mem_cons_self _ _)
    have hcr : c ≠ '\r' := not_ctl_ne c '\r' hc (by decide)
    obtain ⟨req2, h1, h2⟩ := ih { req with headers := push_value c req.headers }
      { h with value := h.value ++ [c] } (fun x hx => hv x (List.mem_cons_of_mem _ hx))
      (by simp [hreq, push_value_snoc])
    refine ⟨req2, ?_, by simp [h2]⟩
    simp only [run, consume, hcr, hc, if_false, Bool.false_eq_true]
    exact h1

/-- A complete header line `name: value` CR LF adds the header `(name, value)` after the
headers the request holds. -/
theorem run_header_line_exact (req : request) (n v : Str) (hn : token_text n) (hne : n ≠ [])
    (hv : value_text v) :
    ∃ req2, run .header_line_start req (n ++ ": ".toList ++ v ++ "\r\n".toList)
        = some (.header_line_start, req2)
      ∧ req2.headers = req.headers ++ [{ name := n, value := v }] := by
  obtain ⟨c, cs, rfl⟩ := List.exists_cons_of_ne_nil hne
  have hc : is_token c = true := hn c (List.mem_cons_self _ _)
  have hcr : c ≠ '\r' := token_ne c '\r' hc (by decide)
  have hsp : c ≠ ' ' := token_ne c ' ' hc (by decide)
  have htab : c ≠ '\t' := token_ne c '\t' hc (by decide)
  obtain ⟨r1, h1, e1⟩ := run_header_name_exact
    { req with headers := req.headers ++ [{ name := [c], value := [] }] } req.headers
    { name := [c], value := [] } cs (fun x hx => hn x (List.mem_cons_of_mem _ hx)) rfl
  obtain ⟨r2, h2, e2⟩ := run_header_value_exact r1 req.headers
    { name := [c] ++ cs, value := [] } v hv (by simpa using e1)
  refine ⟨r2, ?_, by simpa using e2⟩
  have hstart : run .header_line_start req (c :: cs) = some (.header_name, r1) := by
    simp only [run, consume, hcr, hsp, htab, hc, if_false, Bool.not_true, Bool.false_eq_true,
      decide_False, Bool.or_self, Bool.and_false]
    exact h1
  have hcolon : run .header_name r1 ": ".toList = some (.header_value, r1) := rfl
  have hcrlf : run .header_value r2 "\r\n".toList = some (.header_line_start, r2) := rfl
  have e : c :: cs ++ ": ".toList ++ v ++ "\r\n".toList
      = (c :: cs) ++ (": ".toList ++ (v ++ "\r\n".toList)) := by simp
  rw [e, run_append _ _ _ _ _ _ hstart, run_append _ _ _ _ _ _ hcolon,
    run_append _ _ _ _ _ _ h2]
  exact hcrlf

/-- A complete continuation line (leading whitespace, content that does not start with
a space, CR LF) appends its content to the value of the last header. -/
theorem run_continuation_line_exact (req : request) (hs : List header) (h : header)
    (ws v : Str) (hws : lws_text ws) (hne : ws ≠ []) (hv : value_text v)
    (hhead : v.head? ≠ some ' ') (hreq : req.headers = hs ++ [h]) :
    ∃ req2, run .header_line_start req (ws ++ v ++ "\r\n".toList)
        = some (.header_line_start, req2)
      ∧ req2.headers = hs ++ [{ h with value := h.value ++ v }] := by
  obtain ⟨c, cs, rfl⟩ := List.exists_cons_of_ne_nil hne
  have hcs : run .header_lws req cs = some (.header_lws, req) :=
    run_header_lws req cs (fun x hx => hws x (List.mem_cons_of_mem _ hx))
  have hemp : req.headers.isEmpty = false := by
    rw [hreq]
    cases hs <;> rfl
  have hstart : run .header_line_start req (c :: cs) = some (.header_lws, req) := by
    rcases hws c (List.mem_cons_self _ _) with hc | hc
    · subst hc
      simp only [run, consume, hemp]
      exact hcs
    · subst hc
      simp only [run, consume, hemp]
      exact hcs
  have e : c :: cs ++ v ++ "\r\n".toList = (c :: cs) ++ (v ++ "\r\n".toList) := by simp
  rw [e, run_append _ _ _ _ _ _ hstart]
  cases v with
  | nil => exact ⟨req, rfl, by simp [hreq]⟩
  | cons d ds =>
    have hd : is_ctl d = false := hv d (List.mem_cons_self _ _)
    have hdcr : d ≠ '\r' := not_ctl_ne d '\r' hd (by decide)
    have hdtab : d ≠ '\t' := not_ctl_ne d '\t' hd (by decide)
    have hdsp : d ≠ ' ' := fun e => hhead (by rw [e]; rfl)
    obtain ⟨r2, h2, e2⟩ := run_header_value_exact
      { req with headers := push_value d req.headers } hs { h with value := h.value ++ [d] }
      ds (fun x hx => hv x (List.mem_cons_of_mem _ hx)) (by simp [hreq, push_value_snoc])
    refine ⟨r2, ?_, by simpa using e2⟩
    have hfirst : run .header_lws req (d :: ds) = some (.header_value, r2) := by
      simp only [run, consume, hdcr, hdsp, hdtab, hd, if_false, Bool.false_eq_true,
        decide_False, Bool.or_self]
      exact h2
    rw [run_append _ _ _ _ _ _ hfirst]
    rfl

end requestParser

open requestParser in
/-- C11: a header line followed by a line that starts with a space or tab is parsed as a
single header whose value is the value of the first line with the content of the
continuation line, without its leading whitespace, appended with no separator: after a
well-formed request line and complete header lines `b`, the lines `n: v` and `ws v2`
(whitespace `ws`, content `v2`) and the blank line give `good`, and the headers are
those of the request without the two lines followed by the one header `(n, v ++ v2)`. -/
theorem parse_header_continuation (m u major minor b n v ws v2 : Str) (had : Bool)
    (hl : request_line_ok m u major minor) (hb : header_lines b had)
    (hn : token_text n) (hne : n ≠ []) (hv : value_text v)
    (hws : lws_text ws) (hwsne : ws ≠ []) (hv2 : value_text v2)
    (hhead : v2.head? ≠ some ' ') :
    (parse reset empty_request
        (request_line m u major minor ++ b ++ (n ++ ": ".toList ++ v ++ "\r\n".toList)
          ++ (ws ++ v2 ++ "\r\n".toList) ++ "\r\n".toList)).result = result_type.good
      ∧ (parse reset empty_request
        (request_line m u major minor ++ b ++ (n ++ ": ".toList ++ v ++ "\r\n".toList)
          ++ (ws ++ v2 ++ "\r\n".toList) ++ "\r\n".toList)).req.headers
        = (parse reset empty_request
            (request_line m u major minor ++ b ++ "\r\n".toList)).req.headers
          ++ [{ name := n, value := v ++ v2 }] := by
  obtain ⟨r0, h0, _⟩ := run_to_line_start m u major minor b had hl hb
  obtain ⟨r1, h1, e1⟩ := run_header_line_exact r0 n v hn hne hv
  obtain ⟨r2, h2, e2⟩ := run_continuation_line_exact r1 r0.headers { name := n, value := v }
    ws v2 hws hwsne hv2 hhead e1
  have hbase : parse reset empty_request (request_line m u major minor ++ b ++ "\r\n".toList)
      = parse .header_line_start r0 "\r\n".toList := parse_of_run _ _ _ _ _ _ h0
  have hrun : run reset empty_request
      (request_line m u major minor ++ b ++ (n ++ ": ".toList ++ v ++ "\r\n".toList)
        ++ (ws ++ v2 ++ "\r\n".toList)) = some (.header_line_start, r2) := by
    rw [List.append_assoc, run_append _ _ _ _ _ _ h0, run_append _ _ _ _ _ _ h1]
    exact h2
  rw [parse_of_run _ _ _ "\r\n".toList _ _ hrun, hbase]
  exact ⟨rfl, e2⟩

/-- Witness of C11: the request of the test `HeaderLineContinuation` parses to `good`
with exactly one header, named `Header`, with value `value1continued-value`. -/
theorem parse_header_continuation_witness :
    (requestParser.parse requestParser.reset requestParser.empty_request
        "GET / HTTP/1.1\r\nHeader: value1\r\n continued-value\r\n\r\n".toList).result
      = requestParser.result_type.good
    ∧ (requestParser.parse requestParser.reset requestParser.empty_request
        "GET / HTTP/1.1\r\nHeader: value1\r\n continued-value\r\n\r\n".toList).req.headers
      = [{ name := "Header".toList, value := "value1continued-value".toList }] :=
  parse_header_continuation "GET".toList "/".toList "1".toList "1".toList [] "Header".toList
    "value1".toList " ".toList "continued-value".toList false get_line_ok
    requestParser.header_lines.none (by decide) (by decide) (by decide) (by decide)
    (by decide) (by decide) (by decide)

/-! ## Serialisation of replies -/

theorem header_buffers_flatten (hs : List header) :
    ((hs.map reply.header_buffers).flatten).flatten = header_lines_text hs := by
  induction hs with
  | nil => rfl
  | cons h rest ih =>
    simp only [List.map_cons, List.flatten_cons, List.flatten_append, ih, header_lines_text,
      reply.header_buffers]
    simp

theorem status_line_unknown (s : status_type)
    (h : s ∉ reply.known_statuses.map Prod.fst) :
    reply.status_line s = "HTTP/1.1 500 Internal Server Error\r\n".toList := by
  simp only [reply.known_statuses, List.map_cons, List.map_nil, List.mem_cons,
    List.mem_singleton, not_or, List.not_mem_nil, or_false] at h
  obtain ⟨h1, h2, h3, h4, h5, h6, h7, h8, h9, h10, h11, h12, h13, h14, h15, h16⟩ := h
  simp only [reply.status_line, h1, h2, h3, h4, h5, h6, h7, h8, h9, h10, h11, h12, h13, h14,
    h15, h16, if_false]

/-- C14: for every reply, the concatenation of the buffers of `reply::to_buffers` is the
status line, then `name: value` CR LF for each header in list order, then CR LF, then
the content unchanged; the status line of a known status is `HTTP/1.1 <code> <reason>`
CR LF with the decimal value of the status, and a status outside the known set gets the
status line `HTTP/1.1 500 Internal Server Error`. -/
theorem to_buffers_wire_format (r : reply) :
    wire_text (reply.to_buffers r)
        = reply.status_line r.status ++ header_lines_text r.headers ++ "\r\n".toList
          ++ r.content
      ∧ (∀ p ∈ reply.known_statuses,
          reply.status_line p.1
            = "HTTP/1.1 ".toList ++ to_string p.1 ++ " ".toList ++ p.2 ++ "\r\n".toList)
      ∧ (∀ s : status_type, s ∉ reply.known_statuses.map Prod.fst →
          reply.status_line s = "HTTP/1.1 500 Internal Server Error\r\n".toList) := by
  refine ⟨?_, by decide, status_line_unknown⟩
  simp only [wire_text, reply.to_buffers, List.flatten_append, header_buffers_flatten]
  simp

/-- Witness of C14: the reply of the test `OutputFormatting` and the status 999 of the
test `AllStatusCodes`. -/
theorem to_buffers_wire_format_witness :
    wire_text (reply.to_buffers (reply.stock_reply reply.bad_request "Bad Request".toList))
        = ("HTTP/1.1 400 Bad Request\r\nContent-Length: 11\r\n"
            ++ "Content-Type: text/plain\r\n\r\nBad Request").toList
      ∧ reply.status_line 999 = "HTTP/1.1 500 Internal Server Error\r\n".toList :=
  ⟨(to_buffers_wire_format
      (reply.stock_reply reply.bad_request "Bad Request".toList)).1.trans (by decide),
   (to_buffers_wire_format
      (reply.stock_reply reply.bad_request "Bad Request".toList)).2.2 999 (by decide)⟩

/-! ## The session -/

/-- What leaves `CreateHandler`: an exception or a handler, never a null pointer. -/
theorem CreateHandler_handler_cases (self : RequestHandlerRegistry)
    (factory_map_ : FactoryMap) (uri handler_name : Str) :
    (∃ e, (self.CreateHandler factory_map_ uri handler_name).handler = .error e)
      ∨ ∃ handler, (self.CreateHandler factory_map_ uri handler_name).handler
          = .ok (some handler) := by
  cases hc : (self.CreateHandler factory_map_ uri handler_name).handler with
  | error e => exact Or.inl ⟨e, rfl⟩
  | ok r =>
    cases r with
    | none => exact absurd hc (CreateHandler_not_null self factory_map_ uri handler_name)
    | some handler => exact Or.inr ⟨handler, rfl⟩

theorem to_buffers_ne_nil (r : reply) : reply.to_buffers r ≠ [] := by
  simp [reply.to_buffers]

/-- The three ways in which `process_read` ends for a `GET` request with version 1.1 and
no transport error: the factory raises, the handler raises, or the reply of the handler
is serialised. -/
theorem process_read_get (handler_registry_ : RequestHandlerRegistry)
    (factory_map_ : FactoryMap) (w : World) (major minor : Int) (data : Str)
    (out : List Str)
    (hget : ((requestParser.parse requestParser.reset (requestParser.fresh_request major minor)
        data).req.method = "GET".toList ∧ (requestParser.parse requestParser.reset
        (requestParser.fresh_request major minor) data).req.http_version_major = 1 ∧
        (requestParser.parse requestParser.reset (requestParser.fresh_request major minor)
        data).req.http_version_minor = 1)) :
    (∃ e, (handler_registry_.CreateHandler factory_map_ (requestParser.parse requestParser.reset
        (requestParser.fresh_request major minor) data).req.uri []).handler = .error e
        ∧ session.process_read handler_registry_ factory_map_ w major minor 0 data out = .error e)
      ∨ (∃ handler e, (handler_registry_.CreateHandler factory_map_ (requestParser.parse
          requestParser.reset (requestParser.fresh_request major minor) data).req.uri []).handler
          = .ok (some handler)
        ∧ handler.handle_request w (requestParser.parse requestParser.reset
            (requestParser.fresh_request major minor) data).req = .error e
        ∧ session.process_read handler_registry_ factory_map_ w major minor 0 data out = .error e)
      ∨ (∃ handler rep, (handler_registry_.CreateHandler factory_map_ (requestParser.parse
          requestParser.reset (requestParser.fresh_request major minor) data).req.uri []).handler
          = .ok (some handler)
        ∧ handler.handle_request w (requestParser.parse requestParser.reset
            (requestParser.fresh_request major minor) data).req = .ok rep
        ∧ session.process_read handler_registry_ factory_map_ w major minor 0 data out
            = .ok (SessionAction.WriteResponse, reply.to_buffers rep)) := by
  have hpr : session.process_read handler_registry_ factory_map_ w major minor 0 data out
      = match (handler_registry_.CreateHandler factory_map_ (requestParser.parse
          requestParser.reset (requestParser.fresh_request major minor) data).req.uri []).handler
          with
        | .ok (some handler) =>
          match handler.handle_request w (requestParser.parse requestParser.reset
              (requestParser.fresh_request major minor) data).req with
          | .ok rep => .ok (SessionAction.WriteResponse, reply.to_buffers rep)
          | .error e => .error e
        | .ok none => .error "null handler".toList
        | .error e => .error e := by
    simp only [session.process_read, ne_eq, not_true_eq_false, if_false, hget, and_self,
      if_true]
  rw [hpr]
  rcases CreateHandler_handler_cases handler_registry_ factory_map_ (requestParser.parse
      requestParser.reset (requestParser.fresh_request major minor) data).req.uri []
    with ⟨e, he⟩ | ⟨handler, hh⟩
  · exact Or.inl ⟨e, he, by rw [he]⟩
  · cases hrep : handler.handle_request w (requestParser.parse requestParser.reset
      (requestParser.fresh_request major minor) data).req with
    | error e => exact Or.inr (Or.inl ⟨handler, e, hh, hrep, by rw [hh]; dsimp only; rw [hrep]⟩)
    | ok rep => exact Or.inr (Or.inr ⟨handler, rep, hh, hrep, by rw [hh]; dsimp only; rw [hrep]⟩)

/-- C15 (the code at the failing input): the prefix `/upload` is configured with
`max_file_size abc;`, the read reports no error and holds a complete `GET /upload`
request, and `process_read` returns no action, neither `WriteResponse` nor `Close`: the
`std::invalid_argument` of `std::stoull` in `UploadHandler::Init` leaves `CreateHandler`
and `process_read`. -/
theorem process_read_raises_with_upload_option :
    (upload_registry.CreateHandler upload_factory_map "/upload".toList []).handler
        = .error "std::invalid_argument".toList
      ∧ session.process_read upload_registry upload_factory_map quiet_world 0 0 0
          "GET /upload HTTP/1.1\r\n\r\n".toList []
        = .error "std::invalid_argument".toList :=
  ⟨rfl, rfl⟩

/-- Where no factory and no handler raises, the action of the session is `Close`
exactly when the transport reported an error: `process_read` returns `Close` when the
error code is set, leaving the output buffers as they were, and otherwise, unless the
selected factory or the selected handler raises, `WriteResponse` (never `ReadAgain`);
an exception leaves `process_read` only as the exception of that factory or handler;
`process_write` returns `ReadAgain` when the error code is clear and `Close`
otherwise. -/
theorem session_action_close_iff_error (handler_registry_ : RequestHandlerRegistry)
    (factory_map_ : FactoryMap) (w : World) (major minor : Int) (error : error_code)
    (data : Str) (out : List Str) :
    (error ≠ 0 →
        session.process_read handler_registry_ factory_map_ w major minor error data out = .ok
            (SessionAction.Close, out))
      ∧ (error = 0 →
        (∀ e, (handler_registry_.CreateHandler factory_map_ (requestParser.parse
            requestParser.reset (requestParser.fresh_request major minor) data).req.uri
            []).handler ≠ .error e) →
        (∀ handler e, (handler_registry_.CreateHandler factory_map_ (requestParser.parse
            requestParser.reset (requestParser.fresh_request major minor) data).req.uri
            []).handler = .ok (some handler) →
          handler.handle_request w (requestParser.parse requestParser.reset
              (requestParser.fresh_request major minor) data).req ≠ .error e) →
        ∃ out2, session.process_read handler_registry_ factory_map_ w major minor error data out =
            .ok (SessionAction.WriteResponse, out2))
      ∧ (∀ action out2, session.process_read handler_registry_ factory_map_ w major minor error
          data out = .ok (action, out2) →
        action ≠ SessionAction.ReadAgain ∧ (action = SessionAction.Close ↔ error ≠ 0))
      ∧ (∀ e, session.process_read handler_registry_ factory_map_ w major minor error data out =
          .error e →
        error = 0
          ∧ ((handler_registry_.CreateHandler factory_map_ (requestParser.parse
              requestParser.reset (requestParser.fresh_request major minor) data).req.uri
              []).handler = .error e
            ∨ ∃ handler, (handler_registry_.CreateHandler factory_map_ (requestParser.parse
                requestParser.reset (requestParser.fresh_request major minor) data).req.uri
                []).handler = .ok (some handler)
                ∧ handler.handle_request w (requestParser.parse requestParser.reset
                    (requestParser.fresh_request major minor) data).req = .error e))
      ∧ (error = 0 → session.process_write error = SessionAction.ReadAgain)
      ∧ (error ≠ 0 → session.process_write error = SessionAction.Close) := by
  have hclose : error ≠ 0 → session.process_read handler_registry_ factory_map_ w major minor
      error data out = .ok (SessionAction.Close, out) := by
    intro h
    simp [session.process_read, h]
  have hother : error = 0 → ¬ ((requestParser.parse requestParser.reset
      (requestParser.fresh_request major minor) data).req.method = "GET".toList ∧
      (requestParser.parse requestParser.reset (requestParser.fresh_request major minor)
      data).req.http_version_major = 1 ∧ (requestParser.parse requestParser.reset
      (requestParser.fresh_request major minor) data).req.http_version_minor = 1) →
      session.process_read handler_registry_ factory_map_ w major minor error data out = .ok
          (SessionAction.WriteResponse, []) := by
    intro h hget
    subst h
    simp only [session.process_read, ne_eq, not_true_eq_false, if_false, hget]
  refine ⟨hclose, ?_, ?_, ?_, ?_, ?_⟩
  · intro h hfactory hhandler
    by_cases hget : ((requestParser.parse requestParser.reset (requestParser.fresh_request major
        minor) data).req.method = "GET".toList ∧ (requestParser.parse requestParser.reset
        (requestParser.fresh_request major minor) data).req.http_version_major = 1 ∧
        (requestParser.parse requestParser.reset (requestParser.fresh_request major minor)
        data).req.http_version_minor = 1)
    · subst h
      rcases process_read_get handler_registry_ factory_map_ w major minor data out hget
        with ⟨e, he, _⟩ | ⟨handler, e, hh, hrep, _⟩ | ⟨handler, rep, _, _, hpr⟩
      · exact absurd he (hfactory e)
      · exact absurd hrep (hhandler handler e hh)
      · exact ⟨_, hpr⟩
    · exact ⟨_, hother h hget⟩
  · intro action out2 hpr
    by_cases herr : error = 0
    · have hw : action = SessionAction.WriteResponse := by
        by_cases hget : ((requestParser.parse requestParser.reset (requestParser.fresh_request
            major minor) data).req.method = "GET".toList ∧ (requestParser.parse
            requestParser.reset (requestParser.fresh_request major minor)
            data).req.http_version_major = 1 ∧ (requestParser.parse requestParser.reset
            (requestParser.fresh_request major minor) data).req.http_version_minor = 1)
        · subst herr
          rcases process_read_get handler_registry_ factory_map_ w major minor data out hget
            with ⟨e, _, h2⟩ | ⟨handler, e, _, _, h2⟩ | ⟨handler, rep, _, _, h2⟩
          · rw [h2] at hpr; cases hpr
          · rw [h2] at hpr; cases hpr
          · rw [h2] at hpr; cases hpr; rfl
        · rw [hother herr hget] at hpr
          cases hpr
          rfl
      subst hw
      exact ⟨by decide, by simp [herr]⟩
    · rw [hclose herr] at hpr
      cases hpr
      exact ⟨by decide, by simp [herr]⟩
  · intro e hpr
    by_cases herr : error = 0
    · refine ⟨herr, ?_⟩
      by_cases hget : ((requestParser.parse requestParser.reset (requestParser.fresh_request major
          minor) data).req.method = "GET".toList ∧ (requestParser.parse requestParser.reset
          (requestParser.fresh_request major minor) data).req.http_version_major = 1 ∧
          (requestParser.parse requestParser.reset (requestParser.fresh_request major minor)
          data).req.http_version_minor = 1)
      · subst herr
        rcases process_read_get handler_registry_ factory_map_ w major minor data out hget
          with ⟨e2, h1, h2⟩ | ⟨handler, e2, h1, hrep, h2⟩ | ⟨handler, rep, _, _, h2⟩
        · rw [h2] at hpr; cases hpr; exact Or.inl h1
        · rw [h2] at hpr; cases hpr; exact Or.inr ⟨handler, h1, hrep⟩
        · rw [h2] at hpr; cases hpr
      · rw [hother herr hget] at hpr
        cases hpr
    · rw [hclose herr] at hpr
      cases hpr
  · intro h
    simp [session.process_write, h]
  · intro h
    simp [session.process_write, h]

/-- The actions of the session tests: a connection reset (error value 104) closes the
session and leaves the buffers; the `GET` request of the test `ProcessRead_GetRequest` without
an error gives `WriteResponse`; a write without error gives `ReadAgain` and an aborted
write (error value 125) gives `Close`. -/
theorem session_action_close_iff_error_witness :
    session.process_read echo_registry echo_factory_map quiet_world 0 0 104 []
        ["stale".toList] = .ok (SessionAction.Close, ["stale".toList])
      ∧ (∃ out2, session.process_read echo_registry echo_factory_map quiet_world 0 0 0
          "GET /echo HTTP/1.1\r\n\r\n".toList ["stale".toList]
            = .ok (SessionAction.WriteResponse, out2))
      ∧ session.process_write 0 = SessionAction.ReadAgain
      ∧ session.process_write 125 = SessionAction.Close :=
  ⟨(session_action_close_iff_error echo_registry echo_factory_map quiet_world 0 0 104 []
      ["stale".toList]).1 (by decide),
   (session_action_close_iff_error echo_registry echo_factory_map quiet_world 0 0 0
      "GET /echo HTTP/1.1\r\n\r\n".toList ["stale".toList]).2.1 rfl
      (fun e h => by
        have hc : (echo_registry.CreateHandler echo_factory_map
            (requestParser.parse requestParser.reset (requestParser.fresh_request 0 0)
              "GET /echo HTTP/1.1\r\n\r\n".toList).req.uri []).handler
            = .ok (some RequestHandler.EchoHandler) := rfl
        rw [hc] at h
        cases h)
      (fun handler e hh h => by
        have hc : (echo_registry.CreateHandler echo_factory_map
            (requestParser.parse requestParser.reset (requestParser.fresh_request 0 0)
              "GET /echo HTTP/1.1\r\n\r\n".toList).req.uri []).handler
            = .ok (some RequestHandler.EchoHandler) := rfl
        rw [hc] at hh
        cases hh
        cases h),
   (session_action_close_iff_error echo_registry echo_factory_map quiet_world 0 0 0 []
      []).2.2.2.2.1 rfl,
   (session_action_close_iff_error echo_registry echo_factory_map quiet_world 0 0 125 []
      []).2.2.2.2.2 (by decide)⟩

/-- C20 (the code at the failing input): the prefix `/static` is served from the root
`/www`, and in a world in which `ReadFile` raises `std::length_error` for the directory
`./www/` the complete request `GET /static/` with version 1.1, read without error,
gives no `WriteResponse` and no serialized reply: the exception leaves the handler and
`process_read`. -/
theorem process_read_raises_on_directory :
    (requestParser.parse requestParser.reset (requestParser.fresh_request 0 0)
        "GET /static/ HTTP/1.1\r\n\r\n".toList).req.method = "GET".toList
      ∧ (requestParser.parse requestParser.reset (requestParser.fresh_request 0 0)
        "GET /static/ HTTP/1.1\r\n\r\n".toList).req.http_version_major = 1
      ∧ (requestParser.parse requestParser.reset (requestParser.fresh_request 0 0)
        "GET /static/ HTTP/1.1\r\n\r\n".toList).req.http_version_minor = 1
      ∧ session.process_read static_registry static_factory_map directory_world 0 0 0
          "GET /static/ HTTP/1.1\r\n\r\n".toList []
        = .error "std::length_error".toList :=
  ⟨by decide, by decide, by decide, rfl⟩

/-- Where no factory and no handler raises: for every read without a transport error
whose parsed request is not a `GET` with HTTP version 1.1, `process_read` empties the
output buffer list and returns `WriteResponse`; for a `GET` with version 1.1 it
returns, unless the selected factory or the selected handler raises, `WriteResponse`
with the serialized reply, which is not empty, of the handler that the registry selects
for the URI of the request; when one of the two raises, that exception leaves
`process_read`. -/
theorem process_read_serves_get_only (handler_registry_ : RequestHandlerRegistry)
    (factory_map_ : FactoryMap) (w : World) (major minor : Int) (data : Str)
    (out : List Str) :
    (¬ ((requestParser.parse requestParser.reset (requestParser.fresh_request major minor)
        data).req.method = "GET".toList ∧ (requestParser.parse requestParser.reset
        (requestParser.fresh_request major minor) data).req.http_version_major = 1 ∧
        (requestParser.parse requestParser.reset (requestParser.fresh_request major minor)
        data).req.http_version_minor = 1) →
        session.process_read handler_registry_ factory_map_ w major minor 0 data out = .ok
            (SessionAction.WriteResponse, []))
      ∧ (((requestParser.parse requestParser.reset (requestParser.fresh_request major minor)
          data).req.method = "GET".toList ∧ (requestParser.parse requestParser.reset
          (requestParser.fresh_request major minor) data).req.http_version_major = 1 ∧
          (requestParser.parse requestParser.reset (requestParser.fresh_request major minor)
          data).req.http_version_minor = 1) →
        (∀ e, (handler_registry_.CreateHandler factory_map_ (requestParser.parse
            requestParser.reset (requestParser.fresh_request major minor) data).req.uri
            []).handler ≠ .error e) →
        (∀ handler e, (handler_registry_.CreateHandler factory_map_ (requestParser.parse
            requestParser.reset (requestParser.fresh_request major minor) data).req.uri
            []).handler = .ok (some handler) →
          handler.handle_request w (requestParser.parse requestParser.reset
              (requestParser.fresh_request major minor) data).req ≠ .error e) →
        ∃ handler rep,
          (handler_registry_.CreateHandler factory_map_ (requestParser.parse requestParser.reset
              (requestParser.fresh_request major minor) data).req.uri []).handler = .ok (some
              handler)
          ∧ handler.handle_request w (requestParser.parse requestParser.reset
              (requestParser.fresh_request major minor) data).req = .ok rep
          ∧ session.process_read handler_registry_ factory_map_ w major minor 0 data out
            = .ok (SessionAction.WriteResponse, reply.to_buffers rep)
          ∧ reply.to_buffers rep ≠ [])
      ∧ (((requestParser.parse requestParser.reset (requestParser.fresh_request major minor)
          data).req.method = "GET".toList ∧ (requestParser.parse requestParser.reset
          (requestParser.fresh_request major minor) data).req.http_version_major = 1 ∧
          (requestParser.parse requestParser.reset (requestParser.fresh_request major minor)
          data).req.http_version_minor = 1) →
        ∀ e, ((handler_registry_.CreateHandler factory_map_ (requestParser.parse
            requestParser.reset (requestParser.fresh_request major minor) data).req.uri
            []).handler = .error e
            ∨ ∃ handler, (handler_registry_.CreateHandler factory_map_ (requestParser.parse
                requestParser.reset (requestParser.fresh_request major minor) data).req.uri
                []).handler = .ok (some handler)
                ∧ handler.handle_request w (requestParser.parse requestParser.reset
                    (requestParser.fresh_request major minor) data).req = .error e) →
          session.process_read handler_registry_ factory_map_ w major minor 0 data out = .error e)
              := by
  refine ⟨?_, ?_, ?_⟩
  · intro h
    simp only [session.process_read, ne_eq, not_true_eq_false, if_false, h]
  · intro hget hfactory hhandler
    rcases process_read_get handler_registry_ factory_map_ w major minor data out hget
      with ⟨e, he, _⟩ | ⟨handler, e, hh, hrep, _⟩ | ⟨handler, rep, hh, hrep, hpr⟩
    · exact absurd he (hfactory e)
    · exact absurd hrep (hhandler handler e hh)
    · exact ⟨handler, rep, hh, hrep, hpr, to_buffers_ne_nil _⟩
  · intro hget e hraise
    rcases process_read_get handler_registry_ factory_map_ w major minor data out hget
      with ⟨e2, he, hpr⟩ | ⟨handler, e2, hh, hrep, hpr⟩ | ⟨handler, rep, hh, hrep, hpr⟩
    · rcases hraise with h | ⟨handler2, h, _⟩
      · rw [he] at h; cases h; exact hpr
      · rw [he] at h; cases h
    · rcases hraise with h | ⟨handler2, h, h2⟩
      · rw [hh] at h; cases h
      · rw [hh] at h; cases h; rw [hrep] at h2; cases h2; exact hpr
    · rcases hraise with h | ⟨handler2, h, h2⟩
      · rw [hh] at h; cases h
      · rw [hh] at h; cases h; rw [hrep] at h2; cases h2

/-- The requests of the session tests: the `POST` request of the test
`ProcessRead_NonGetRequest` empties the buffer list, and the `GET` request of the test
    `ProcessRead_GetRequest`
gives the serialized reply of the selected handler. -/
theorem process_read_serves_get_only_witness :
    session.process_read echo_registry echo_factory_map quiet_world 0 0 0
        "POST / HTTP/1.1\r\n\r\n".toList ["stale".toList]
      = .ok (SessionAction.WriteResponse, [])
    ∧ ∃ handler rep,
        (echo_registry.CreateHandler echo_factory_map
          (requestParser.parse requestParser.reset (requestParser.fresh_request 0 0)
            "GET / HTTP/1.1\r\nHost: example\r\n\r\n".toList).req.uri []).handler
          = .ok (some handler)
        ∧ handler.handle_request quiet_world
            (requestParser.parse requestParser.reset (requestParser.fresh_request 0 0)
              "GET / HTTP/1.1\r\nHost: example\r\n\r\n".toList).req = .ok rep
        ∧ session.process_read echo_registry echo_factory_map quiet_world 0 0 0
            "GET / HTTP/1.1\r\nHost: example\r\n\r\n".toList []
          = .ok (SessionAction.WriteResponse, reply.to_buffers rep)
        ∧ reply.to_buffers rep ≠ [] :=
  ⟨(process_read_serves_get_only echo_registry echo_factory_map quiet_world 0 0
      "POST / HTTP/1.1\r\n\r\n".toList ["stale".toList]).1 (by decide),
   (process_read_serves_get_only echo_registry echo_factory_map quiet_world 0 0
      "GET / HTTP/1.1\r\nHost: example\r\n\r\n".toList []).2.1 (by decide)
      (fun e h => by
        have hc : (echo_registry.CreateHandler echo_factory_map
            (requestParser.parse requestParser.reset (requestParser.fresh_request 0 0)
              "GET / HTTP/1.1\r\nHost: example\r\n\r\n".toList).req.uri []).handler
            = .ok (some RequestHandler.NotFoundHandler) := rfl
        rw [hc] at h
        cases h)
      (fun handler e hh h => by
        have hc : (echo_registry.CreateHandler echo_factory_map
            (requestParser.parse requestParser.reset (requestParser.fresh_request 0 0)
              "GET / HTTP/1.1\r\nHost: example\r\n\r\n".toList).req.uri []).handler
            = .ok (some RequestHandler.NotFoundHandler) := rfl
        rw [hc] at hh
        cases hh
        cases h)⟩

theorem read_body_uri (parse_request_body : Str → Nat → Str → Nat → Str) (data : Str)
    (req : request) : (session.read_body parse_request_body data req).1.uri = req.uri := by
  simp only [session.read_body]
  split <;> rfl

/-- The ways in which `handle_read` ends for a read without error whose parse result
is `good`: `CreateHandler` is called with the URI of the request, and the factory
raises, the handler raises, or the reply of the handler is the reply of the session. -/
theorem handle_read_good (handler_registry_ : RequestHandlerRegistry)
    (factory_map_ : FactoryMap) (w : World)
    (parse_request_body : Str → Nat → Str → Nat → Str) (major minor : Int) (data : Str)
    (hgood : (requestParser.parse requestParser.reset (requestParser.fresh_request major minor)
        data).result = requestParser.result_type.good) :
    (session.handle_read handler_registry_ factory_map_ w parse_request_body major minor 0
        data).create_handler_call = some (requestParser.parse requestParser.reset
        (requestParser.fresh_request major minor) data).req.uri
      ∧ (session.handle_read handler_registry_ factory_map_ w parse_request_body major minor 0
          data).body_call = (session.read_body parse_request_body data (requestParser.parse
          requestParser.reset (requestParser.fresh_request major minor) data).req).2
      ∧ ((∃ e, (handler_registry_.CreateHandler factory_map_ (requestParser.parse
          requestParser.reset (requestParser.fresh_request major minor) data).req.uri []).handler
          = .error e
            ∧ (session.handle_read handler_registry_ factory_map_ w parse_request_body major minor
                0 data).rep = some (.error e) ∧ (session.handle_read handler_registry_
                factory_map_ w parse_request_body major minor 0 data).buffers = none)
        ∨ (∃ handler e, (handler_registry_.CreateHandler factory_map_ (requestParser.parse
            requestParser.reset (requestParser.fresh_request major minor) data).req.uri
            []).handler = .ok (some handler)
            ∧ handler.handle_request w (session.read_body parse_request_body data
                (requestParser.parse requestParser.reset (requestParser.fresh_request major minor)
                data).req).1 = .error e
            ∧ (session.handle_read handler_registry_ factory_map_ w parse_request_body major minor
                0 data).rep = some (.error e) ∧ (session.handle_read handler_registry_
                factory_map_ w parse_request_body major minor 0 data).buffers = none)
        ∨ (∃ handler rep, (handler_registry_.CreateHandler factory_map_ (requestParser.parse
            requestParser.reset (requestParser.fresh_request major minor) data).req.uri
            []).handler = .ok (some handler)
            ∧ handler.handle_request w (session.read_body parse_request_body data
                (requestParser.parse requestParser.reset (requestParser.fresh_request major minor)
                data).req).1 = .ok rep
            ∧ (session.handle_read handler_registry_ factory_map_ w parse_request_body major minor
                0 data).rep = some (.ok rep)
            ∧ (session.handle_read handler_registry_ factory_map_ w parse_request_body major minor
                0 data).buffers = some (reply.to_buffers rep))) := by
  have hm : decide ((requestParser.parse requestParser.reset (requestParser.fresh_request major
      minor) data).result.toInt ≠ 0) = false := by
    rw [hgood]
    decide
  have hhr : (session.handle_read handler_registry_ factory_map_ w parse_request_body major minor
      0 data)
      = match (handler_registry_.CreateHandler factory_map_ (requestParser.parse
          requestParser.reset (requestParser.fresh_request major minor) data).req.uri []).handler
          with
        | .ok (some handler) =>
          match handler.handle_request w (session.read_body parse_request_body data
              (requestParser.parse requestParser.reset (requestParser.fresh_request major minor)
              data).req).1 with
          | .ok rep =>
            { deleted := false,
              body_call := (session.read_body parse_request_body data (requestParser.parse
                  requestParser.reset (requestParser.fresh_request major minor) data).req).2,
              create_handler_call := some (requestParser.parse requestParser.reset
                  (requestParser.fresh_request major minor) data).req.uri,
              rep := some (.ok rep), buffers := some (reply.to_buffers rep) }
          | .error e =>
            { deleted := false,
              body_call := (session.read_body parse_request_body data (requestParser.parse
                  requestParser.reset (requestParser.fresh_request major minor) data).req).2,
              create_handler_call := some (requestParser.parse requestParser.reset
                  (requestParser.fresh_request major minor) data).req.uri,
              rep := some (.error e), buffers := none }
        | .ok none =>
          { deleted := false,
            body_call := (session.read_body parse_request_body data (requestParser.parse
                requestParser.reset (requestParser.fresh_request major minor) data).req).2,
            create_handler_call := some (requestParser.parse requestParser.reset
                (requestParser.fresh_request major minor) data).req.uri,
            rep := some (.error "null handler".toList), buffers := none }
        | .error e =>
          { deleted := false,
            body_call := (session.read_body parse_request_body data (requestParser.parse
                requestParser.reset (requestParser.fresh_request major minor) data).req).2,
            create_handler_call := some (requestParser.parse requestParser.reset
                (requestParser.fresh_request major minor) data).req.uri,
            rep := some (.error e), buffers := none } := by
    simp only [session.handle_read, if_true, hm, Bool.false_eq_true, if_false,
      read_body_uri]
  rw [hhr]
  rcases CreateHandler_handler_cases handler_registry_ factory_map_ (requestParser.parse
      requestParser.reset (requestParser.fresh_request major minor) data).req.uri []
    with ⟨e, he⟩ | ⟨handler, hh⟩
  · rw [he]
    exact ⟨rfl, rfl, Or.inl ⟨e, rfl, rfl, rfl⟩⟩
  · rw [hh]
    dsimp only
    cases hrep : handler.handle_request w (session.read_body parse_request_body data
        (requestParser.parse requestParser.reset (requestParser.fresh_request major minor)
        data).req).1 with
    | error e => exact ⟨rfl, rfl, Or.inr (Or.inl ⟨handler, e, rfl, hrep, rfl, rfl⟩)⟩
    | ok rep => exact ⟨rfl, rfl, Or.inr (Or.inr ⟨handler, rep, rfl, hrep, rfl, rfl⟩)⟩

/-- Counterexample to C16: the incomplete request `GET /echo HTTP/1.1` CR LF gives the
parse result `indeterminate`, which is neither `bad` nor `good`; `handle_read` answers
it with the stock malformed-request reply (status 400) and does not call
`CreateHandler`, although `/echo` is a registered prefix. And the complete request
`GET /upload HTTP/1.1`, whose parse result is `good`, gets no reply when `/upload` is
configured with `max_file_size abc;`: `CreateHandler` is called and the
`std::invalid_argument` of the factory leaves `handle_read`. -/
theorem handle_read_indeterminate_not_routed :
    ((requestParser.parse requestParser.reset (requestParser.fresh_request 0 0)
        "GET /echo HTTP/1.1\r\n".toList).result = requestParser.result_type.indeterminate
      ∧ (session.handle_read echo_registry echo_factory_map quiet_world last_bytes 0 0 0
          "GET /echo HTTP/1.1\r\n".toList).create_handler_call = none
      ∧ (session.handle_read echo_registry echo_factory_map quiet_world last_bytes 0 0 0
          "GET /echo HTTP/1.1\r\n".toList).rep = some (.ok reply.build_malformed_req_response)
      ∧ reply.build_malformed_req_response.status = 400)
    ∧ ((requestParser.parse requestParser.reset (requestParser.fresh_request 0 0)
        "GET /upload HTTP/1.1\r\n\r\n".toList).result = requestParser.result_type.good
      ∧ (session.handle_read upload_registry upload_factory_map quiet_world last_bytes 0 0 0
          "GET /upload HTTP/1.1\r\n\r\n".toList).create_handler_call = some "/upload".toList
      ∧ (session.handle_read upload_registry upload_factory_map quiet_world last_bytes 0 0 0
          "GET /upload HTTP/1.1\r\n\r\n".toList).rep
        = some (.error "std::invalid_argument".toList)
      ∧ (session.handle_read upload_registry upload_factory_map quiet_world last_bytes 0 0 0
          "GET /upload HTTP/1.1\r\n\r\n".toList).buffers = none) := by
  refine ⟨⟨by decide, rfl, rfl, rfl⟩, ⟨by decide, rfl, rfl, rfl⟩⟩

/-- C16 (amended): in `session::handle_read`, for every read without a transport error:
if the result of the parser is not `good` (that is, `bad` or `indeterminate`), the reply
is the stock malformed-request reply (status 400) and neither `CreateHandler` nor
`parse_request_body` is called; if the result is `good`, `CreateHandler` is called with
the URI of the request and, unless the selected factory or the selected handler raises,
the reply is the one that the selected handler returns for the request (with its body
read), and it is written. -/
theorem handle_read_routes_good_only (handler_registry_ : RequestHandlerRegistry)
    (factory_map_ : FactoryMap) (w : World)
    (parse_request_body : Str → Nat → Str → Nat → Str) (major minor : Int) (data : Str) :
    ((requestParser.parse requestParser.reset (requestParser.fresh_request major minor)
        data).result ≠ requestParser.result_type.good →
        (session.handle_read handler_registry_ factory_map_ w parse_request_body major minor 0
            data).rep = some (.ok reply.build_malformed_req_response)
          ∧ reply.build_malformed_req_response.status = 400
          ∧ (session.handle_read handler_registry_ factory_map_ w parse_request_body major minor 0
              data).create_handler_call = none
          ∧ (session.handle_read handler_registry_ factory_map_ w parse_request_body major minor 0
              data).body_call = none)
      ∧ ((requestParser.parse requestParser.reset (requestParser.fresh_request major minor)
          data).result = requestParser.result_type.good →
        (session.handle_read handler_registry_ factory_map_ w parse_request_body major minor 0
            data).create_handler_call = some (requestParser.parse requestParser.reset
            (requestParser.fresh_request major minor) data).req.uri
          ∧ ((∀ e, (handler_registry_.CreateHandler factory_map_ (requestParser.parse
              requestParser.reset (requestParser.fresh_request major minor) data).req.uri
              []).handler ≠ .error e) →
            (∀ handler e, (handler_registry_.CreateHandler factory_map_ (requestParser.parse
                requestParser.reset (requestParser.fresh_request major minor) data).req.uri
                []).handler = .ok (some handler) →
              handler.handle_request w (session.read_body parse_request_body data
                  (requestParser.parse requestParser.reset (requestParser.fresh_request major
                  minor) data).req).1 ≠ .error e) →
            ∃ handler rep, (handler_registry_.CreateHandler factory_map_ (requestParser.parse
                requestParser.reset (requestParser.fresh_request major minor) data).req.uri
                []).handler = .ok (some handler)
              ∧ handler.handle_request w (session.read_body parse_request_body data
                  (requestParser.parse requestParser.reset (requestParser.fresh_request major
                  minor) data).req).1 = .ok rep
              ∧ (session.handle_read handler_registry_ factory_map_ w parse_request_body major
                  minor 0 data).rep = some (.ok rep)
              ∧ (session.handle_read handler_registry_ factory_map_ w parse_request_body major
                  minor 0 data).buffers = some (reply.to_buffers rep))) := by
  constructor
  · intro h
    have hm : decide ((requestParser.parse requestParser.reset (requestParser.fresh_request major
        minor) data).result.toInt ≠ 0) = true := by
      cases hr : (requestParser.parse requestParser.reset (requestParser.fresh_request major
          minor) data).result
      · exact absurd hr h
      · decide
      · decide
    refine ⟨?_, rfl, ?_, ?_⟩ <;> simp only [session.handle_read, if_true, hm]
  · intro hgood
    obtain ⟨hcall, _, hcases⟩ := handle_read_good handler_registry_ factory_map_ w
      parse_request_body major minor data hgood
    refine ⟨hcall, ?_⟩
    intro hfactory hhandler
    rcases hcases with ⟨e, he, _⟩ | ⟨handler, e, hh, hrep, _⟩ | ⟨handler, rep, hh, hrep, hr, hb⟩
    · exact absurd he (hfactory e)
    · exact absurd hrep (hhandler handler e hh)
    · exact ⟨handler, rep, hh, hrep, hr, hb⟩

/-- Witness of C16 (amended): the malformed request `@ET / HTTP/1.1` gets the stock
reply and is not routed; the complete request `GET /echo HTTP/1.1` is routed. -/
theorem handle_read_routes_good_only_witness :
    ((session.handle_read echo_registry echo_factory_map quiet_world last_bytes 0 0 0
          "@ET / HTTP/1.1\r\n\r\n".toList).rep = some (.ok reply.build_malformed_req_response)
        ∧ reply.build_malformed_req_response.status = 400
        ∧ (session.handle_read echo_registry echo_factory_map quiet_world last_bytes 0 0 0
          "@ET / HTTP/1.1\r\n\r\n".toList).create_handler_call = none
        ∧ (session.handle_read echo_registry echo_factory_map quiet_world last_bytes 0 0 0
          "@ET / HTTP/1.1\r\n\r\n".toList).body_call = none)
      ∧ (session.handle_read echo_registry echo_factory_map quiet_world last_bytes 0 0 0
          "GET /echo HTTP/1.1\r\n\r\n".toList).create_handler_call = some "/echo".toList :=
  ⟨(handle_read_routes_good_only echo_registry echo_factory_map quiet_world last_bytes 0 0
      "@ET / HTTP/1.1\r\n\r\n".toList).1 (by decide),
   ((handle_read_routes_good_only echo_registry echo_factory_map quiet_world last_bytes
      0 0 "GET /echo HTTP/1.1\r\n\r\n".toList).2 (by decide)).1⟩

theorem content_length_loop_eq (hs : List header) :
    session.content_length_loop hs
      = match first_content_length hs with
        | none => 0
        | some v =>
          match stoi v with
          | .ok k => to_size_t k
          | .error _ => 0 := by
  induction hs with
  | nil => rfl
  | cons h rest ih =>
    by_cases hn : h.name = "Content-Length".toList
    · simp only [session.content_length_loop, first_content_length, hn, if_true]
    · simp only [session.content_length_loop, first_content_length, hn, if_false, ih]

theorem stoi_range (v : Str) (k : Int) (h : stoi v = .ok k) : INT_MIN ≤ k ∧ k ≤ INT_MAX := by
  unfold stoi at h
  cases hp : parse_number v with
  | none =>
    rw [hp] at h
    exact absurd h (by simp)
  | some p =>
    obtain ⟨negative, n⟩ := p
    rw [hp] at h
    simp only at h
    by_cases hr : (if negative = true then -(n : Int) else (n : Int)) < INT_MIN
        ∨ INT_MAX < (if negative = true then -(n : Int) else (n : Int))
    · rw [if_pos hr] at h
      exact absurd h (by simp)
    · rw [if_neg hr] at h
      simp only [Except.ok.injEq] at h
      subst h
      omega

theorem to_size_t_of_nonneg (k : Int) (h0 : 0 ≤ k) (h1 : k ≤ INT_MAX) :
    to_size_t k = k.toNat := by
  unfold to_size_t
  have hlt : k < (SIZE_RANGE : Int) := by
    have : INT_MAX < (SIZE_RANGE : Int) := by decide
    omega
  rw [Int.emod_eq_of_lt h0 hlt]

/-- Counterexample of C17: the request has the header `Content-Length:
99999999999999999999`, whose value is a positive integer, and parses to `good`, yet
`handle_read` does not call `parse_request_body`: `std::stoi` throws
`std::out_of_range` and the header is treated as absent. -/
theorem handle_read_ignores_large_content_length :
    (requestParser.parse requestParser.reset (requestParser.fresh_request 0 0)
        "POST /echo HTTP/1.1\r\nContent-Length: 99999999999999999999\r\n\r\n".toList).result
      = requestParser.result_type.good
    ∧ (requestParser.parse requestParser.reset (requestParser.fresh_request 0 0)
        "POST /echo HTTP/1.1\r\nContent-Length: 99999999999999999999\r\n\r\n".toList).req.headers
      = [{ name := "Content-Length".toList, value := to_string 99999999999999999999 }]
    ∧ 0 < 99999999999999999999
    ∧ (session.handle_read echo_registry echo_factory_map quiet_world last_bytes 0 0 0
        "POST /echo HTTP/1.1\r\nContent-Length: 99999999999999999999\r\n\r\n".toList).body_call
      = none := by
  refine ⟨by decide, by decide, by decide, rfl⟩

/-- C17 (amended): in `session::handle_read`, for a read without a transport error
whose parse result is `good` and whose first `Content-Length` value `std::stoi` does not
convert to a negative number, `parse_request_body` is called if and only if the request
has a `Content-Length` header and `std::stoi` converts the value of the first one to a
positive `int` (digits after optional whitespace and sign, at most `INT_MAX`, whatever
follows the digits being ignored), and it is then asked for exactly that many bytes; a
first value that has no leading number, is zero or exceeds `INT_MAX` is treated as
absent. After a transport error or a parse result other than `good` it is not called. -/
theorem handle_read_body_call (handler_registry_ : RequestHandlerRegistry)
    (factory_map_ : FactoryMap) (w : World)
    (parse_request_body : Str → Nat → Str → Nat → Str) (major minor : Int)
    (error : error_code) (data : Str) :
    (error = 0 →
      (requestParser.parse requestParser.reset (requestParser.fresh_request major minor)
        data).result = requestParser.result_type.good →
      (∀ v k, first_content_length (requestParser.parse requestParser.reset
          (requestParser.fresh_request major minor) data).req.headers = some v →
        stoi v = .ok k → 0 ≤ k) →
      ∀ n : Nat,
        (session.handle_read handler_registry_ factory_map_ w parse_request_body major minor
            error data).body_call = some n
          ↔ ∃ v, first_content_length (requestParser.parse requestParser.reset
                (requestParser.fresh_request major minor) data).req.headers = some v
              ∧ stoi v = .ok (n : Int) ∧ 0 < n)
      ∧ (error ≠ 0
          ∨ (requestParser.parse requestParser.reset (requestParser.fresh_request major minor)
              data).result ≠ requestParser.result_type.good →
        (session.handle_read handler_registry_ factory_map_ w parse_request_body major minor
            error data).body_call = none) := by
  constructor
  · intro herr hgood hneg n
    subst herr
    have hm : decide ((requestParser.parse requestParser.reset
        (requestParser.fresh_request major minor) data).result.toInt ≠ 0) = false := by
      rw [hgood]
      decide
    have hcall : (session.handle_read handler_registry_ factory_map_ w parse_request_body
        major minor 0 data).body_call
        = (session.read_body parse_request_body data
            (requestParser.parse requestParser.reset
              (requestParser.fresh_request major minor) data).req).2 :=
      (handle_read_good handler_registry_ factory_map_ w parse_request_body major minor data
        hgood).2.1
    rw [hcall]
    simp only [session.read_body, content_length_loop_eq]
    generalize (requestParser.parse requestParser.reset
      (requestParser.fresh_request major minor) data).req = req at hneg ⊢
    cases hv : first_content_length req.headers with
    | none => simp
    | some v =>
      cases hk : stoi v with
      | error e => simp [hk]
      | ok k =>
        have h0 : 0 ≤ k := hneg v k hv hk
        obtain ⟨_, h1⟩ := stoi_range v k hk
        simp only [hk, to_size_t_of_nonneg k h0 h1, Option.some.injEq, exists_eq_left',
          Except.ok.injEq]
        have hto : (k.toNat : Int) = k := Int.toNat_of_nonneg h0
        by_cases hpos : k.toNat > 0
        · simp only [hpos, if_true, Option.some.injEq]
          constructor
          · intro h
            subst h
            exact ⟨hto.symm, hpos⟩
          · rintro ⟨hkn, _⟩
            subst hkn
            simp
        · simp only [hpos, if_false]
          constructor
          · intro h
            exact absurd h (by simp)
          · rintro ⟨hkn, hn⟩
            subst hkn
            simp at hpos
            omega
  · intro h
    rcases h with h | h
    · simp [session.handle_read, h]
    · have hm : decide ((requestParser.parse requestParser.reset
          (requestParser.fresh_request major minor) data).result.toInt ≠ 0) = true := by
        cases hr : (requestParser.parse requestParser.reset
            (requestParser.fresh_request major minor) data).result
        · exact absurd hr h
        · decide
        · decide
      by_cases he : error = 0
      · simp only [session.handle_read, he, if_true, hm]
      · simp [session.handle_read, he]

/-- Witness of C17 (amended): the request with `Content-Length: 5` and the body `hello`
has `parse_request_body` asked for exactly 5 bytes. -/
theorem handle_read_body_call_witness :
    (session.handle_read echo_registry echo_factory_map quiet_world last_bytes 0 0 0
        "POST /echo HTTP/1.1\r\nContent-Length: 5\r\n\r\nhello".toList).body_call = some 5 :=
  ((handle_read_body_call echo_registry echo_factory_map quiet_world last_bytes 0 0 0
      "POST /echo HTTP/1.1\r\nContent-Length: 5\r\n\r\nhello".toList).1 rfl (by decide)
    (by
      intro v k hv hk
      have e : first_content_length (requestParser.parse requestParser.reset
          (requestParser.fresh_request 0 0)
          "POST /echo HTTP/1.1\r\nContent-Length: 5\r\n\r\nhello".toList).req.headers
          = some "5".toList := by decide
      rw [e] at hv
      simp only [Option.some.injEq] at hv
      subst hv
      have e2 : stoi "5".toList = .ok 5 := rfl
      rw [e2] at hk
      simp only [Except.ok.injEq] at hk
      omega) 5).2 ⟨"5".toList, by decide, rfl, by decide⟩

/-- A negative `Content-Length` becomes a huge `size_t`, so `parse_request_body` is
called, with `2 ^ 64 - 5` for `-5`. -/
theorem handle_read_negative_content_length :
    (session.handle_read echo_registry echo_factory_map quiet_world last_bytes 0 0 0
        "POST /echo HTTP/1.1\r\nContent-Length: -5\r\n\r\nhello".toList).body_call
      = some 18446744073709551611 := by
  decide

/-- Counterexample to C18: on `SIGINT` the handler logs the shutdown, but the process exits
with status 2, the signal number, not with zero. -/
theorem interrupt_handler_sigint_exit_status :
    (interrupt_handler 0 SIGINT).log = [log_server_close]
      ∧ (interrupt_handler 0 SIGINT).exit_status = 2
      ∧ (interrupt_handler 0 SIGINT).exit_status ≠ 0 := by
  decide

/-- C18 (amended): when the server receives `SIGINT` or `SIGTERM`, `interrupt_handler`
logs the shutdown and the process exits with the signal number as its exit code (2 for
`SIGINT`, 15 for `SIGTERM`), which is not zero. -/
theorem interrupt_handler_exit_status (error : error_code) (signal_number : Int)
    (h : signal_number = SIGINT ∨ signal_number = SIGTERM) :
    (interrupt_handler error signal_number).log = [log_server_close]
      ∧ (interrupt_handler error signal_number).exit_status = signal_number
      ∧ (interrupt_handler error signal_number).exit_status ≠ 0
      ∧ (interrupt_handler error SIGINT).exit_status = 2
      ∧ (interrupt_handler error SIGTERM).exit_status = 15 := by
  rcases h with h | h <;> subst h <;> simp [interrupt_handler, SIGINT, SIGTERM]

/-- Witness of C18 (amended): the handler called for `SIGTERM`. -/
theorem interrupt_handler_exit_status_witness :
    (SIGTERM = SIGINT ∨ SIGTERM = SIGTERM)
      ∧ (interrupt_handler 0 SIGTERM).log = [log_server_close]
      ∧ (interrupt_handler 0 SIGTERM).exit_status = SIGTERM
      ∧ (interrupt_handler 0 SIGTERM).exit_status ≠ 0 :=
  ⟨Or.inr rfl, (interrupt_handler_exit_status 0 SIGTERM (Or.inr rfl)).1,
    (interrupt_handler_exit_status 0 SIGTERM (Or.inr rfl)).2.1,
    (interrupt_handler_exit_status 0 SIGTERM (Or.inr rfl)).2.2.1⟩

/-- Counterexample to C19: with the option `view_dir /abs;` the config has the required
option of `TextViewHandler::Init`, and the factory returns null all the same. -/
theorem TextViewHandler_Init_null_with_option :
    FindConfigToken "view_dir".toList (single_option "view_dir".toList "/abs".toList)
        = "/abs".toList
      ∧ TextViewHandler.Init nothing_exists "/view".toList
          (some (single_option "view_dir".toList "/abs".toList)) = .ok none :=
  ⟨by decide, rfl⟩

/-- An exception leaves a factory: with the option `max_file_size abc;` the exception of
`std::stoull` leaves `UploadHandler::Init`. -/
theorem UploadHandler_Init_raises :
    UploadHandler.Init "/upload".toList
        (some (single_option "max_file_size".toList "abc".toList))
      = .error "std::invalid_argument".toList :=
  rfl

set_option maxRecDepth 100000 in
/-- An exception leaves a factory: with a `view_dir` of 300 bytes, in a file system
that refuses names of more than 255 bytes, the exception of `std::filesystem::exists`
leaves `TextViewHandler::Init`. -/
theorem TextViewHandler_Init_raises :
    TextViewHandler.Init long_name_refused "/view".toList
        (some (single_option "view_dir".toList (List.replicate 300 'a')))
      = .error "std::filesystem::filesystem_error".toList :=
  rfl

/-- C19 (amended): every registered factory other than `UploadHandler::Init` and
`TextViewHandler::Init` returns a handler or null and never raises, for every path
prefix and every config block or none; `UploadHandler::Init` does so when the config is
missing, when the option `max_file_size` is missing and when `std::stoull` converts its
value, and `TextViewHandler::Init` does so when `std::filesystem::exists` does not raise
for its `view_dir`; `APIHandler::Init` and `StaticFileHandler::Init` return null exactly
when the config is missing or lacks their required option, and `TextViewHandler::Init`
exactly when the config is missing, lacks `view_dir`, or `view_dir` contains `..` or
begins with `/`. -/
theorem factories_return_handler_or_null (make_entity_processor : Str → EntityProcessor)
    (filesystem_exists : Str → Except Str Bool) :
    (∀ entry ∈ registered_factories make_entity_processor filesystem_exists,
        entry.1 ≠ "UploadHandler".toList → entry.1 ≠ "TextViewHandler".toList →
        ∀ path_prefix config, ∃ handler, entry.2 path_prefix config = .ok handler)
      ∧ (∀ path_prefix config,
          (∀ cfg, config = some cfg →
            FindConfigToken "max_file_size".toList cfg = []
              ∨ ∃ n, stoull (FindConfigToken "max_file_size".toList cfg) = .ok n) →
          ∃ handler, UploadHandler.Init path_prefix config = .ok handler)
      ∧ (∀ path_prefix config,
          (∀ cfg, config = some cfg →
            ∃ b, filesystem_exists (FindConfigToken "view_dir".toList cfg) = .ok b) →
          ∃ handler, TextViewHandler.Init filesystem_exists path_prefix config = .ok handler)
      ∧ (∀ path_prefix config,
          APIHandler.Init make_entity_processor path_prefix config = .ok none
            ↔ (config = none
                ∨ ∃ cfg, config = some cfg ∧ FindConfigToken "data_path".toList cfg = []))
      ∧ (∀ path_prefix config,
          StaticFileHandler.Init path_prefix config = .ok none
            ↔ (config = none
                ∨ ∃ cfg, config = some cfg ∧ FindConfigToken "root".toList cfg = []))
      ∧ (∀ path_prefix config,
          TextViewHandler.Init filesystem_exists path_prefix config = .ok none
            ↔ (config = none
                ∨ ∃ cfg, config = some cfg
                    ∧ (FindConfigToken "view_dir".toList cfg = []
                      ∨ (find (FindConfigToken "view_dir".toList cfg) "..".toList 0).isSome
                      ∨ (FindConfigToken "view_dir".toList cfg).head? = some '/'))) := by
  refine ⟨?_, ?_, ?_, ?_, ?_, ?_⟩
  · intro entry hmem hne hne2 path_prefix config
    simp only [registered_factories, List.mem_cons, List.mem_singleton, List.mem_nil_iff,
      or_false] at hmem
    rcases hmem with h | h | h | h | h | h | h | h | h
    · subst h; exact ⟨_, rfl⟩
    · subst h; exact ⟨_, rfl⟩
    · subst h; exact ⟨_, rfl⟩
    · subst h; exact ⟨_, rfl⟩
    · subst h
      cases config with
      | none => exact ⟨_, rfl⟩
      | some cfg =>
        simp only [APIHandler.Init]
        split <;> exact ⟨_, rfl⟩
    · subst h
      cases config with
      | none => exact ⟨_, rfl⟩
      | some cfg =>
        simp only [StaticFileHandler.Init]
        split <;> exact ⟨_, rfl⟩
    · subst h; exact absurd rfl hne
    · subst h; exact absurd rfl hne2
    · subst h
      cases config with
      | none => exact ⟨_, rfl⟩
      | some cfg =>
        simp only [SimpleAuthHandler.Init]
        exact ⟨_, rfl⟩
  · intro path_prefix config h
    cases config with
    | none => exact ⟨_, rfl⟩
    | some cfg =>
      rcases h cfg rfl with h | ⟨n, h⟩
      · simp only [UploadHandler.Init, h]
        exact ⟨_, rfl⟩
      · simp only [UploadHandler.Init, h]
        split <;> exact ⟨_, rfl⟩
  · intro path_prefix config h
    cases config with
    | none => exact ⟨_, rfl⟩
    | some cfg =>
      obtain ⟨b, hb⟩ := h cfg rfl
      simp only [TextViewHandler.Init]
      split
      · exact ⟨_, rfl⟩
      · split
        · exact ⟨_, rfl⟩
        · rw [hb]
          exact ⟨_, rfl⟩
  · intro path_prefix config
    cases config with
    | none => simp [APIHandler.Init]
    | some cfg =>
      simp only [APIHandler.Init]
      split <;> simp_all
  · intro path_prefix config
    cases config with
    | none => simp [StaticFileHandler.Init]
    | some cfg =>
      simp only [StaticFileHandler.Init]
      split <;> simp_all
  · intro path_prefix config
    cases config with
    | none => simp [TextViewHandler.Init]
    | some cfg =>
      refine Iff.trans ?_
        (show (FindConfigToken "view_dir".toList cfg = []
            ∨ (find (FindConfigToken "view_dir".toList cfg) "..".toList 0).isSome
            ∨ (FindConfigToken "view_dir".toList cfg).head? = some '/') ↔ _ from
          ⟨fun h => Or.inr ⟨cfg, rfl, h⟩, fun h => by
            rcases h with h | ⟨c, hc, h⟩
            · cases h
            · cases hc
              exact h⟩)
      unfold TextViewHandler.Init
      dsimp only
      generalize FindConfigToken "view_dir".toList cfg = v
      split
      · simp_all
      · split
        · simp_all
        · cases filesystem_exists v <;> simp_all

/-- Witness of C19 (amended): `StaticFileHandler::Init` with the option `root ./files;`,
`UploadHandler::Init` with the option `max_file_size 1024;`, and `TextViewHandler::Init`
with the option `view_dir files;` and without a config. -/
theorem factories_return_handler_or_null_witness :
    (∃ handler,
        StaticFileHandler.Init "/static".toList
          (some (single_option "root".toList "./files".toList)) = .ok handler)
      ∧ (∃ handler,
          UploadHandler.Init "/upload".toList
            (some (single_option "max_file_size".toList "1024".toList)) = .ok handler)
      ∧ (∃ handler,
          TextViewHandler.Init long_name_refused "/view".toList
            (some (single_option "view_dir".toList "files".toList)) = .ok handler)
      ∧ TextViewHandler.Init long_name_refused "/view".toList none = .ok none :=
  ⟨(factories_return_handler_or_null empty_entity_processor long_name_refused).1
      ("StaticHandler".toList, StaticFileHandler.Init)
      (by simp [registered_factories]) (by decide) (by decide) "/static".toList
      (some (single_option "root".toList "./files".toList)),
   (factories_return_handler_or_null empty_entity_processor long_name_refused).2.1
      "/upload".toList (some (single_option "max_file_size".toList "1024".toList))
      (fun cfg h => by
        cases h
        exact Or.inr ⟨1024, by rfl⟩),
   (factories_return_handler_or_null empty_entity_processor long_name_refused).2.2.1
      "/view".toList (some (single_option "view_dir".toList "files".toList))
      (fun cfg h => by
        cases h
        exact ⟨false, rfl⟩),
   ((factories_return_handler_or_null empty_entity_processor long_name_refused).2.2.2.2.2
      "/view".toList none).mpr (Or.inl rfl)⟩

theorem StdMap.find_eq_none_iff {V : Type} (m : StdMap V) (k : Str) :
    m.find k = none ↔ k ∉ m.keys := by
  induction m with
  | nil => exact ⟨fun _ h => (nomatch h), fun _ => rfl⟩
  | cons e rest ih =>
    obtain ⟨k', v'⟩ := e
    simp only [StdMap.keys, List.map_cons, List.mem_cons, not_or] at ih ⊢
    by_cases h : k' = k
    · simp only [StdMap.find, h, if_true]
      exact ⟨fun x => (nomatch x), fun x => absurd trivial x.1⟩
    · have h2 : ¬ k = k' := fun x => h x.symm
      simp only [StdMap.find, h, if_false, ih]
      exact ⟨fun x => ⟨h2, x⟩, fun x => x.2⟩

theorem StdMap.set_perm {V : Type} (m : StdMap V) (k : Str) (v : V) (h : m.find k = none) :
    List.Perm (m.set k v) ((k, v) :: m) := by
  induction m with
  | nil => simp [StdMap.set]
  | cons e rest ih =>
    obtain ⟨k', v'⟩ := e
    have hk : ¬ k' = k := by
      intro x
      simp [StdMap.find, x] at h
    have hk2 : ¬ k = k' := fun x => hk x.symm
    have hr : StdMap.find rest k = none := by
      simpa [StdMap.find, hk] using h
    unfold StdMap.set
    by_cases h2 : strLess k k' = true
    · simp [hk2, h2]
    · simp only [hk2, h2, if_false]
      exact ((ih hr).cons (k', v')).trans (List.Perm.swap _ _ _)

/-- One step of the loop, in terms of the entry the statement stands for. -/
theorem ExtractHandlerConfigs_statement_eq (m : StdMap HandlerConfig)
    (s : NginxConfigStatement) :
    ExtractHandlerConfigs_statement m s
      = match location_entry s with
        | none => m
        | some e => if (m.find e.1).isSome then m else m.set e.1 e.2 := by
  obtain ⟨tokens, child⟩ := s
  rcases tokens with _ | ⟨a, _ | ⟨b, _ | ⟨c, _ | ⟨d, t⟩⟩⟩⟩ <;> cases child <;>
    try rfl
  rename_i block
  simp only [ExtractHandlerConfigs_statement, location_entry]
  by_cases hk : a = "location".toList
  · by_cases ht : has_trailing_slash b = true
    · simp only [hk, ht, if_true, true_and, Bool.true_eq_false, if_false]
    · have ht2 : has_trailing_slash b = false := by simpa using ht
      simp only [hk, ht2, if_true, true_and, Bool.false_eq_true, if_false, and_self]
  · simp only [hk, if_false, false_and]

theorem ExtractHandlerConfigs_fold_find (ss : List NginxConfigStatement)
    (acc : StdMap HandlerConfig) (p : Str) :
    (ss.foldl ExtractHandlerConfigs_statement acc).find p
      = match acc.find p with
        | some v => some v
        | none => ((ss.filterMap location_entry).find? (fun e => e.1 = p)).map Prod.snd := by
  induction ss generalizing acc with
  | nil =>
    simp only [List.foldl_nil, List.filterMap_nil, List.find?_nil, Option.map_none']
    cases acc.find p <;> rfl
  | cons s rest ih =>
    rw [List.foldl_cons, ih, ExtractHandlerConfigs_statement_eq]
    cases he : location_entry s with
    | none => simp [List.filterMap_cons, he]
    | some e =>
      simp only [List.filterMap_cons, he]
      by_cases hf : (acc.find e.1).isSome = true
      · simp only [hf, if_true]
        cases hp : acc.find p with
        | some v => rfl
        | none =>
          have hne : ¬ e.1 = p := by
            intro x
            rw [x, hp] at hf
            exact absurd hf (by simp)
          simp [List.find?_cons, hne]
      · simp only [hf, Bool.false_eq_true, if_false]
        have hnone : acc.find e.1 = none := by
          cases hx : acc.find e.1 with
          | none => rfl
          | some v => rw [hx] at hf; exact absurd rfl hf
        by_cases hep : e.1 = p
        · subst hep
          rw [StdMap.find_set_same, hnone]
          simp [List.find?_cons]
        · rw [StdMap.find_set_other _ _ _ _ (fun x => hep x.symm)]
          cases hp : acc.find p with
          | some v => rfl
          | none => simp [List.find?_cons, hep]

theorem ExtractHandlerConfigs_fold_keys (ss : List NginxConfigStatement)
    (acc : StdMap HandlerConfig) (hacc : acc.keys.Nodup) :
    (ss.foldl ExtractHandlerConfigs_statement acc).keys.Nodup
      ∧ ∀ k, k ∈ (ss.foldl ExtractHandlerConfigs_statement acc).keys
          ↔ k ∈ acc.keys ∨ k ∈ (ss.filterMap location_entry).map Prod.fst := by
  induction ss generalizing acc with
  | nil => simp [hacc]
  | cons s rest ih =>
    rw [List.foldl_cons, ExtractHandlerConfigs_statement_eq]
    cases he : location_entry s with
    | none =>
      simp only [List.filterMap_cons, he]
      exact ih acc hacc
    | some e =>
      simp only [List.filterMap_cons, he, List.map_cons, List.mem_cons]
      by_cases hf : (acc.find e.1).isSome = true
      · simp only [hf, if_true]
        refine ⟨(ih acc hacc).1, fun k => ?_⟩
        rw [(ih acc hacc).2 k]
        have hmem : e.1 ∈ acc.keys := by
          by_contra hx
          rw [(StdMap.find_eq_none_iff acc e.1).mpr hx] at hf
          exact absurd hf (by simp)
        constructor
        · rintro (h | h)
          · exact Or.inl h
          · exact Or.inr (Or.inr h)
        · rintro (h | h | h)
          · exact Or.inl h
          · exact Or.inl (h ▸ hmem)
          · exact Or.inr h
      · simp only [hf, Bool.false_eq_true, if_false]
        have hnone : acc.find e.1 = none := by
          cases hx : acc.find e.1 with
          | none => rfl
          | some v => rw [hx] at hf; exact absurd rfl hf
        have hperm : List.Perm (acc.set e.1 e.2).keys (e.1 :: acc.keys) :=
          (StdMap.set_perm acc e.1 e.2 hnone).map Prod.fst
        have hnd : (acc.set e.1 e.2).keys.Nodup :=
          hperm.nodup_iff.mpr
            (List.nodup_cons.mpr ⟨(StdMap.find_eq_none_iff acc e.1).mp hnone, hacc⟩)
        refine ⟨(ih _ hnd).1, fun k => ?_⟩
        rw [(ih _ hnd).2 k, hperm.mem_iff, List.mem_cons]
        tauto

/-- The size of the mapping when every key is new. -/
theorem ExtractHandlerConfigs_fold_length (ss : List NginxConfigStatement) :
    (ss.foldl ExtractHandlerConfigs_statement []).length
      = ((ss.filterMap location_entry).map Prod.fst).dedup.length := by
  have h := ExtractHandlerConfigs_fold_keys ss [] List.nodup_nil
  have hlen : (ss.foldl ExtractHandlerConfigs_statement []).length
      = (ss.foldl ExtractHandlerConfigs_statement []).keys.length := by
    simp [StdMap.keys]
  rw [hlen, ← List.toFinset_card_of_nodup h.1, ← List.card_toFinset]
  congr 1
  ext k
  simp only [List.mem_toFinset]
  rw [h.2 k]
  exact ⟨fun x => x.elim
    (fun y => absurd (show k ∈ ([] : List Str) from y) (List.not_mem_nil k)) id, Or.inr⟩

/-- A path other than `/` that ends in `/` has a trailing slash. -/
theorem has_trailing_slash_of_last (path : Str) (hroot : path ≠ "/".toList)
    (hlast : path.getLast? = some '/') : has_trailing_slash path = true := by
  rcases path with _ | ⟨c, _ | ⟨d, rest⟩⟩
  · simp at hlast
  · simp only [List.getLast?_singleton, Option.some.injEq] at hlast
    subst hlast
    exact absurd rfl hroot
  · simp only [has_trailing_slash, hlast, List.length_cons, decide_True, Bool.and_true]
    simp

/-- C12: `ExtractHandlerConfigs` holds, for every path, the handler type and block of
the first top-level statement of the form `location <path> <HandlerType> { ... }` whose
path has no trailing slash (the root path `/` counts as having none), and holds one entry
for each such path; a statement whose path is missing, whose path ends in `/` and is not
`/`, or whose path already has an entry is skipped: the mapping is the one of the config
without that statement, so the entry count is unaffected. -/
theorem ExtractHandlerConfigs_entries (statements_ : List NginxConfigStatement) :
    (∀ path,
        (ExtractHandlerConfigs (NginxConfig.mk statements_)).find path
          = ((statements_.filterMap location_entry).find? (fun e => e.1 = path)).map
              Prod.snd)
      ∧ (ExtractHandlerConfigs (NginxConfig.mk statements_)).length
          = ((statements_.filterMap location_entry).map Prod.fst).dedup.length
      ∧ (∀ before statement after, statements_ = before ++ statement :: after →
          ((∃ tokens child, statement = NginxConfigStatement.mk tokens child
                ∧ tokens.length < 3)
            ∨ (∃ keyword path handler_type child,
                statement = NginxConfigStatement.mk [keyword, path, handler_type] child
                  ∧ path ≠ "/".toList ∧ path.getLast? = some '/')
            ∨ (∃ keyword path handler_type child,
                statement = NginxConfigStatement.mk [keyword, path, handler_type] child
                  ∧ ((ExtractHandlerConfigs (NginxConfig.mk before)).find path).isSome)) →
          ExtractHandlerConfigs (NginxConfig.mk statements_)
              = ExtractHandlerConfigs (NginxConfig.mk (before ++ after))
            ∧ (ExtractHandlerConfigs (NginxConfig.mk statements_)).length
              = (ExtractHandlerConfigs (NginxConfig.mk (before ++ after))).length) := by
  refine ⟨fun path => ?_, ExtractHandlerConfigs_fold_length statements_, ?_⟩
  · exact ExtractHandlerConfigs_fold_find statements_ [] path
  · intro before statement after hs hskip
    have hstep : ExtractHandlerConfigs_statement
        (before.foldl ExtractHandlerConfigs_statement []) statement
        = before.foldl ExtractHandlerConfigs_statement [] := by
      rcases hskip with ⟨tokens, child, rfl, hlen⟩
        | ⟨keyword, path, handler_type, child, rfl, hroot, hlast⟩
        | ⟨keyword, path, handler_type, child, rfl, hfound⟩
      · rcases tokens with _ | ⟨a, _ | ⟨b, _ | ⟨c, t⟩⟩⟩
        · rfl
        · rfl
        · rfl
        · simp only [List.length_cons] at hlen
          omega
      · cases child with
        | none => rfl
        | some block =>
          simp only [ExtractHandlerConfigs_statement,
            has_trailing_slash_of_last path hroot hlast, if_true, ite_self]
      · cases child with
        | none => rfl
        | some block =>
          have hfound2 : ((before.foldl ExtractHandlerConfigs_statement []).find
              path).isSome = true := hfound
          simp only [ExtractHandlerConfigs_statement, hfound2, if_true, ite_self]
    have heq : ExtractHandlerConfigs (NginxConfig.mk statements_)
        = ExtractHandlerConfigs (NginxConfig.mk (before ++ after)) := by
      subst hs
      simp only [ExtractHandlerConfigs, List.foldl_append, List.foldl_cons, hstep]
    exact ⟨heq, by rw [heq]⟩

/-- Witness of C12: the configs of the tests `ExtractHandlerConfigs_TrailingSlash`,
`ExtractHandlerConfigs_DuplicatePaths`, `ExtractHandlerConfigs_InvalidFormat` and
`ExtractHandlerConfigs_RootPath`. -/
theorem ExtractHandlerConfigs_entries_witness :
    (ExtractHandlerConfigs (NginxConfig.mk
          [port_statement, location_statement ["/echo/".toList, "EchoHandler".toList],
            location_statement ["/static".toList, "StaticHandler".toList]])
        = ExtractHandlerConfigs (NginxConfig.mk
          [port_statement, location_statement ["/static".toList, "StaticHandler".toList]])
      ∧ handler_types (ExtractHandlerConfigs (NginxConfig.mk
          [port_statement, location_statement ["/echo/".toList, "EchoHandler".toList],
            location_statement ["/static".toList, "StaticHandler".toList]]))
        = [("/static".toList, "StaticHandler".toList)])
      ∧ ((ExtractHandlerConfigs (NginxConfig.mk
          [port_statement, location_statement ["/echo".toList, "EchoHandler".toList],
            location_statement ["/echo".toList, "StaticHandler".toList]])).length
        = (ExtractHandlerConfigs (NginxConfig.mk
          [port_statement,
            location_statement ["/echo".toList, "EchoHandler".toList]])).length
      ∧ handler_types (ExtractHandlerConfigs (NginxConfig.mk
          [port_statement, location_statement ["/echo".toList, "EchoHandler".toList],
            location_statement ["/echo".toList, "StaticHandler".toList]]))
        = [("/echo".toList, "EchoHandler".toList)])
      ∧ (ExtractHandlerConfigs (NginxConfig.mk
          [port_statement, location_statement ["EchoHandler".toList]])
        = ExtractHandlerConfigs (NginxConfig.mk [port_statement])
      ∧ handler_types (ExtractHandlerConfigs (NginxConfig.mk
          [port_statement, location_statement ["EchoHandler".toList]])) = [])
      ∧ handler_types (ExtractHandlerConfigs (NginxConfig.mk
          [port_statement, location_statement ["/".toList, "DefaultHandler".toList]]))
        = [("/".toList, "DefaultHandler".toList)] :=
  ⟨⟨((ExtractHandlerConfigs_entries _).2.2 [port_statement]
        (location_statement ["/echo/".toList, "EchoHandler".toList])
        [location_statement ["/static".toList, "StaticHandler".toList]] rfl
        (Or.inr (Or.inl ⟨_, _, _, _, rfl, by decide, by decide⟩))).1, by decide⟩,
   ⟨((ExtractHandlerConfigs_entries _).2.2
        [port_statement, location_statement ["/echo".toList, "EchoHandler".toList]]
        (location_statement ["/echo".toList, "StaticHandler".toList]) [] rfl
        (Or.inr (Or.inr ⟨_, _, _, _, rfl, by decide⟩))).2, by decide⟩,
   ⟨((ExtractHandlerConfigs_entries _).2.2 [port_statement]
        (location_statement ["EchoHandler".toList]) [] rfl
        (Or.inl ⟨_, _, rfl, by decide⟩)).1, by decide⟩,
   by decide⟩

/-! ## The config parser on the text of `ToString` -/

theorem scan_normal_run (cs : Str) (value rest : Str)
    (hcs : cs.all (fun x => !ends_normal_token x) = true)
    (hrest : rest = [] ∨ ∃ d r, rest = d :: r ∧ ends_normal_token d = true) :
    ParseToken_scan TOKEN_STATE_TOKEN_TYPE_NORMAL value (cs ++ rest)
      = (TOKEN_TYPE_NORMAL, value ++ cs, rest) := by
  induction cs generalizing value with
  | nil =>
    rcases hrest with h | ⟨d, r, h, hd⟩
    · subst h
      simp [ParseToken_scan]
    · subst h
      simp [ParseToken_scan, hd]
  | cons c cs ih =>
    simp only [List.all_cons, Bool.and_eq_true, Bool.not_eq_true'] at hcs
    rw [List.cons_append, ParseToken_scan, if_neg (by simp [hcs.1]), ih (value ++ [c]) hcs.2,
      List.append_assoc]
    rfl

theorem scan_double_quote_run (cs : Str) (value rest : Str)
    (hcs : closes_quote '"' cs = true) :
    ParseToken_scan TOKEN_STATE_DOUBLE_QUOTE value (cs ++ rest)
      = (TOKEN_TYPE_NORMAL, value ++ cs, rest) := by
  induction cs generalizing value with
  | nil => simp [closes_quote] at hcs
  | cons c cs ih =>
    cases cs with
    | nil =>
      simp only [closes_quote, decide_eq_true_eq] at hcs
      simp [ParseToken_scan, hcs]
    | cons d ds =>
      simp only [closes_quote, Bool.and_eq_true, decide_eq_true_eq] at hcs
      have hc : ¬ c = '"' := by simpa using hcs.1
      rw [List.cons_append, ParseToken_scan, if_neg hc, ih (value ++ [c]) hcs.2,
        List.append_assoc]
      rfl

theorem scan_single_quote_run (cs : Str) (value rest : Str)
    (hcs : closes_quote '\'' cs = true) :
    ParseToken_scan TOKEN_STATE_SINGLE_QUOTE value (cs ++ rest)
      = (TOKEN_TYPE_NORMAL, value ++ cs, rest) := by
  induction cs generalizing value with
  | nil => simp [closes_quote] at hcs
  | cons c cs ih =>
    cases cs with
    | nil =>
      simp only [closes_quote, decide_eq_true_eq] at hcs
      simp [ParseToken_scan, hcs]
    | cons d ds =>
      simp only [closes_quote, Bool.and_eq_true, decide_eq_true_eq] at hcs
      have hc : ¬ c = '\'' := by simpa using hcs.1
      rw [List.cons_append, ParseToken_scan, if_neg hc, ih (value ++ [c]) hcs.2,
        List.append_assoc]
      rfl

/-- White space before a token is skipped. -/
theorem ParseToken_space (c : Char) (input : Str) (hc : config_space c = true) :
    ParseToken (c :: input) = ParseToken input := by
  simp only [config_space, Bool.or_eq_true, decide_eq_true_eq] at hc
  rcases hc with ((h | h) | h) | h <;> subst h <;> rfl

theorem ParseToken_spaces (ws input : Str) (hws : ws.all config_space = true) :
    ParseToken (ws ++ input) = ParseToken input := by
  induction ws with
  | nil => rfl
  | cons c ws ih =>
    simp only [List.all_cons, Bool.and_eq_true] at hws
    rw [List.cons_append, ParseToken_space c _ hws.1, ih hws.2]

/-- A token of a parsed config, followed by a byte that ends it, is scanned as it is. -/
theorem ParseToken_token (token rest : Str) (ht : config_token token = true)
    (hrest : rest = [] ∨ ∃ d r, rest = d :: r ∧ ends_normal_token d = true) :
    ParseToken (token ++ rest) = (TOKEN_TYPE_NORMAL, token, rest) := by
  cases token with
  | nil => simp [config_token, normal_token, quoted_token] at ht
  | cons c cs =>
    simp only [config_token, Bool.or_eq_true] at ht
    rcases ht with ht | ht
    · simp only [normal_token, Bool.and_eq_true, Bool.not_eq_true', Bool.or_eq_false_iff,
        decide_eq_false_iff_not] at ht
      obtain ⟨⟨⟨⟨⟨⟨⟨h1, h2⟩, h3⟩, h4⟩, h5⟩, h6⟩, h7⟩, hall⟩ := ht
      simp only [ParseToken, List.cons_append, ParseToken_scan, h1, h2, h3, h4, h5, h6, h7,
        if_false, Bool.false_eq_true, List.nil_append]
      exact scan_normal_run cs [c] rest hall hrest
    · simp only [quoted_token, Bool.and_eq_true, Bool.or_eq_true, decide_eq_true_eq] at ht
      rcases ht with ⟨hq | hq, hcl⟩
      · subst hq
        exact scan_double_quote_run cs ['"'] rest hcl
      · subst hq
        exact scan_single_quote_run cs ['\''] rest hcl

theorem scan_rest_le (state : TokenParserState) (value input : Str)
    (hs : state ≠ TOKEN_STATE_INITIAL_WHITESPACE) :
    (ParseToken_scan state value input).2.2.length ≤ input.length := by
  induction input generalizing value with
  | nil => cases state <;> simp [ParseToken_scan] at hs ⊢
  | cons c input ih =>
    cases state with
    | TOKEN_STATE_INITIAL_WHITESPACE => exact absurd rfl hs
    | TOKEN_STATE_SINGLE_QUOTE =>
      rw [ParseToken_scan]
      split
      · simp
      · exact Nat.le_succ_of_le (ih _)
    | TOKEN_STATE_DOUBLE_QUOTE =>
      rw [ParseToken_scan]
      split
      · simp
      · exact Nat.le_succ_of_le (ih _)
    | TOKEN_STATE_TOKEN_TYPE_COMMENT =>
      rw [ParseToken_scan]
      split
      · simp
      · exact Nat.le_succ_of_le (ih _)
    | TOKEN_STATE_TOKEN_TYPE_NORMAL =>
      rw [ParseToken_scan]
      split
      · simp
      · exact Nat.le_succ_of_le (ih _)

theorem scan_initial_rest_lt (value input : Str)
    (h1 : (ParseToken_scan TOKEN_STATE_INITIAL_WHITESPACE value input).1 ≠ TOKEN_TYPE_EOF) :
    (ParseToken_scan TOKEN_STATE_INITIAL_WHITESPACE value input).2.2.length < input.length
      ∨ (ParseToken_scan TOKEN_STATE_INITIAL_WHITESPACE value input).1 = TOKEN_TYPE_ERROR := by
  induction input generalizing value with
  | nil => exact absurd rfl h1
  | cons c input ih =>
    rw [ParseToken_scan] at h1 ⊢
    split_ifs at h1 ⊢
    · exact Or.inl (Nat.lt_succ_of_le (Nat.le_refl _))
    · exact Or.inl (Nat.lt_succ_of_le (Nat.le_refl _))
    · exact Or.inl (Nat.lt_succ_of_le (scan_rest_le _ _ _ (by decide)))
    · exact Or.inl (Nat.lt_succ_of_le (scan_rest_le _ _ _ (by decide)))
    · exact Or.inl (Nat.lt_succ_of_le (scan_rest_le _ _ _ (by decide)))
    · exact Or.inl (Nat.lt_succ_of_le (Nat.le_refl _))
    · rcases ih value h1 with h | h
      · exact Or.inl (Nat.lt_succ_of_lt h)
      · exact Or.inr h
    · exact Or.inl (Nat.lt_succ_of_le (scan_rest_le _ _ _ (by decide)))

/-- Every token but the end of the input and the error takes a byte of the input. -/
theorem ParseToken_rest_lt (input : Str) (type : TokenType) (value rest : Str)
    (h : ParseToken input = (type, value, rest)) (h1 : type ≠ TOKEN_TYPE_EOF)
    (h2 : type ≠ TOKEN_TYPE_ERROR) : rest.length < input.length := by
  have h3 := scan_initial_rest_lt [] input
  unfold ParseToken at h
  rw [h] at h3
  rcases h3 h1 with h4 | h4
  · exact h4
  · exact absurd h4 h2

/-- The fuel of `Parse_loop` does not matter once it exceeds the length of the input. -/
theorem Parse_loop_fuel (f1 : Nat) :
    ∀ (f2 : Nat) (input : Str) (config_stack : List (List NginxConfigStatement))
      (last_token_type : TokenType), input.length < f1 → input.length < f2 →
      Parse_loop f1 input config_stack last_token_type
        = Parse_loop f2 input config_stack last_token_type := by
  induction f1 with
  | zero => intro f2 input _ _ h1; exact absurd h1 (Nat.not_lt_zero _)
  | succ f1 ih =>
    intro f2 input config_stack last_token_type h1 h2
    cases f2 with
    | zero => exact absurd h2 (Nat.not_lt_zero _)
    | succ f2 =>
      simp only [Parse_loop]
      rcases hp : ParseToken input with ⟨type, value, rest⟩
      have hlt : type ≠ TOKEN_TYPE_EOF → type ≠ TOKEN_TYPE_ERROR →
          rest.length < f1 ∧ rest.length < f2 := by
        intro h3 h4
        have := ParseToken_rest_lt input type value rest hp h3 h4
        omega
      cases type with
      | TOKEN_TYPE_START => rfl
      | TOKEN_TYPE_ERROR => rfl
      | TOKEN_TYPE_EOF => rfl
      | TOKEN_TYPE_COMMENT =>
        obtain ⟨h3, h4⟩ := hlt (by decide) (by decide)
        exact ih f2 rest _ _ h3 h4
      | TOKEN_TYPE_NORMAL =>
        obtain ⟨h3, h4⟩ := hlt (by decide) (by decide)
        cases config_stack with
        | nil => rfl
        | cons top below =>
          simp only
          split
          · exact ih f2 rest _ _ h3 h4
          · exact ih f2 rest _ _ h3 h4
      | TOKEN_TYPE_STATEMENT_END =>
        obtain ⟨h3, h4⟩ := hlt (by decide) (by decide)
        simp only
        split
        · exact ih f2 rest _ _ h3 h4
        · rfl
      | TOKEN_TYPE_START_BLOCK =>
        obtain ⟨h3, h4⟩ := hlt (by decide) (by decide)
        simp only
        split
        · exact ih f2 rest _ _ h3 h4
        · rfl
      | TOKEN_TYPE_END_BLOCK =>
        obtain ⟨h3, h4⟩ := hlt (by decide) (by decide)
        simp only
        split
        · rcases config_stack with _ | ⟨block, _ | ⟨top, below⟩⟩
          · rfl
          · rfl
          · exact ih f2 rest _ _ h3 h4
        · rfl

/-- One turn of the loop of `Parse`, free of fuel. -/
theorem Parse_from_eq (input : Str) (config_stack : List (List NginxConfigStatement))
    (last_token_type : TokenType) :
    Parse_from input config_stack last_token_type
      = match ParseToken input with
        | (TOKEN_TYPE_ERROR, _, _) => none
        | (TOKEN_TYPE_START, _, _) => none
        | (TOKEN_TYPE_COMMENT, _, rest) => Parse_from rest config_stack last_token_type
        | (TOKEN_TYPE_NORMAL, token, rest) =>
          match config_stack with
          | [] => none
          | top :: below =>
            if last_token_type = TOKEN_TYPE_NORMAL then
              Parse_from rest (update_back (push_token token) top :: below) TOKEN_TYPE_NORMAL
            else
              Parse_from rest ((top ++ [NginxConfigStatement.mk [token] none]) :: below)
                TOKEN_TYPE_NORMAL
        | (TOKEN_TYPE_STATEMENT_END, _, rest) =>
          if last_token_type = TOKEN_TYPE_NORMAL then
            Parse_from rest config_stack TOKEN_TYPE_STATEMENT_END
          else none
        | (TOKEN_TYPE_START_BLOCK, _, rest) =>
          if last_token_type = TOKEN_TYPE_NORMAL then
            Parse_from rest ([] :: config_stack) TOKEN_TYPE_START_BLOCK
          else none
        | (TOKEN_TYPE_END_BLOCK, _, rest) =>
          if last_token_type = TOKEN_TYPE_STATEMENT_END
              ∨ last_token_type = TOKEN_TYPE_START_BLOCK
              ∨ last_token_type = TOKEN_TYPE_END_BLOCK then
            match config_stack with
            | block :: top :: below =>
              Parse_from rest (update_back (set_child_block block) top :: below)
                TOKEN_TYPE_END_BLOCK
            | _ => none
          else none
        | (TOKEN_TYPE_EOF, _, _) =>
          if last_token_type = TOKEN_TYPE_START
              ∨ last_token_type = TOKEN_TYPE_STATEMENT_END
              ∨ last_token_type = TOKEN_TYPE_END_BLOCK then
            match config_stack with
            | [top] => some (NginxConfig.mk top)
            | _ => none
          else none := by
  unfold Parse_from
  simp only [Parse_loop]
  rcases hp : ParseToken input with ⟨type, value, rest⟩
  have hlt : type ≠ TOKEN_TYPE_EOF → type ≠ TOKEN_TYPE_ERROR →
      ∀ s l, Parse_loop input.length rest s l = Parse_loop (rest.length + 1) rest s l := by
    intro h3 h4 s l
    have := ParseToken_rest_lt input type value rest hp h3 h4
    exact Parse_loop_fuel _ _ rest s l this (Nat.lt_succ_self _)
  cases type with
  | TOKEN_TYPE_START => rfl
  | TOKEN_TYPE_ERROR => rfl
  | TOKEN_TYPE_EOF => rfl
  | TOKEN_TYPE_COMMENT => exact hlt (by decide) (by decide) _ _
  | TOKEN_TYPE_NORMAL =>
    cases config_stack with
    | nil => rfl
    | cons top below =>
      simp only
      split
      · exact hlt (by decide) (by decide) _ _
      · exact hlt (by decide) (by decide) _ _
  | TOKEN_TYPE_STATEMENT_END =>
    simp only
    split
    · exact hlt (by decide) (by decide) _ _
    · rfl
  | TOKEN_TYPE_START_BLOCK =>
    simp only
    split
    · exact hlt (by decide) (by decide) _ _
    · rfl
  | TOKEN_TYPE_END_BLOCK =>
    simp only
    split
    · rcases config_stack with _ | ⟨block, _ | ⟨top, below⟩⟩
      · rfl
      · rfl
      · exact hlt (by decide) (by decide) _ _
    · rfl

theorem update_back_append {α : Type} (f : α → α) (xs : List α) (a : α) :
    update_back f (xs ++ [a]) = xs ++ [f a] := by
  induction xs with
  | nil => rfl
  | cons x xs ih =>
    cases xs with
    | nil => rfl
    | cons y ys =>
      show x :: update_back f (y :: ys ++ [a]) = _
      rw [ih]
      rfl

/-- The first token of a statement opens the statement. -/
theorem Parse_from_first_token (input token rest : Str)
    (top : List NginxConfigStatement) (below : List (List NginxConfigStatement))
    (last_token_type : TokenType) (hp : ParseToken input = (TOKEN_TYPE_NORMAL, token, rest))
    (hl : last_token_type ≠ TOKEN_TYPE_NORMAL) :
    Parse_from input (top :: below) last_token_type
      = Parse_from rest ((top ++ [NginxConfigStatement.mk [token] none]) :: below)
          TOKEN_TYPE_NORMAL := by
  rw [Parse_from_eq, hp]
  simp only [hl, if_false]

/-- A further token goes to the statement that is open. -/
theorem Parse_from_next_token (input token rest : Str)
    (top : List NginxConfigStatement) (statement : NginxConfigStatement)
    (below : List (List NginxConfigStatement))
    (hp : ParseToken input = (TOKEN_TYPE_NORMAL, token, rest)) :
    Parse_from input ((top ++ [statement]) :: below) TOKEN_TYPE_NORMAL
      = Parse_from rest ((top ++ [push_token token statement]) :: below)
          TOKEN_TYPE_NORMAL := by
  rw [Parse_from_eq, hp]
  simp only [if_true, update_back_append]

theorem Parse_from_statement_end (input value rest : Str)
    (config_stack : List (List NginxConfigStatement))
    (hp : ParseToken input = (TOKEN_TYPE_STATEMENT_END, value, rest)) :
    Parse_from input config_stack TOKEN_TYPE_NORMAL
      = Parse_from rest config_stack TOKEN_TYPE_STATEMENT_END := by
  rw [Parse_from_eq, hp]
  simp only [if_true]

theorem Parse_from_start_block (input value rest : Str)
    (config_stack : List (List NginxConfigStatement))
    (hp : ParseToken input = (TOKEN_TYPE_START_BLOCK, value, rest)) :
    Parse_from input config_stack TOKEN_TYPE_NORMAL
      = Parse_from rest ([] :: config_stack) TOKEN_TYPE_START_BLOCK := by
  rw [Parse_from_eq, hp]
  simp only [if_true]

theorem Parse_from_end_block (input value rest : Str)
    (block top : List NginxConfigStatement) (statement : NginxConfigStatement)
    (below : List (List NginxConfigStatement)) (last_token_type : TokenType)
    (hp : ParseToken input = (TOKEN_TYPE_END_BLOCK, value, rest))
    (hl : last_token_type = TOKEN_TYPE_STATEMENT_END
      ∨ last_token_type = TOKEN_TYPE_START_BLOCK
      ∨ last_token_type = TOKEN_TYPE_END_BLOCK) :
    Parse_from input (block :: (top ++ [statement]) :: below) last_token_type
      = Parse_from rest ((top ++ [set_child_block block statement]) :: below)
          TOKEN_TYPE_END_BLOCK := by
  rw [Parse_from_eq, hp]
  simp only [hl, if_true, update_back_append]

theorem Parse_from_eof (input value rest : Str) (top : List NginxConfigStatement)
    (last_token_type : TokenType)
    (hp : ParseToken input = (TOKEN_TYPE_EOF, value, rest))
    (hl : last_token_type = TOKEN_TYPE_START
      ∨ last_token_type = TOKEN_TYPE_STATEMENT_END
      ∨ last_token_type = TOKEN_TYPE_END_BLOCK) :
    Parse_from input [top] last_token_type = some (NginxConfig.mk top) := by
  rw [Parse_from_eq, hp]
  simp only [hl, if_true]

theorem Parse_from_space (c : Char) (input : Str)
    (config_stack : List (List NginxConfigStatement)) (last_token_type : TokenType)
    (hc : config_space c = true) :
    Parse_from (c :: input) config_stack last_token_type
      = Parse_from input config_stack last_token_type := by
  rw [Parse_from_eq, ParseToken_space c input hc, ← Parse_from_eq]

theorem Parse_from_spaces (ws input : Str)
    (config_stack : List (List NginxConfigStatement)) (last_token_type : TokenType)
    (hws : ws.all config_space = true) :
    Parse_from (ws ++ input) config_stack last_token_type
      = Parse_from input config_stack last_token_type := by
  rw [Parse_from_eq, ParseToken_spaces ws input hws, ← Parse_from_eq]

theorem indentation_space (depth : Nat) : (indentation depth).all config_space = true := by
  induction depth with
  | zero => rfl
  | succ d ih =>
    show (' ' :: ' ' :: indentation d).all config_space = true
    simp only [List.all_cons, ih, Bool.and_true]
    rfl

theorem ToString_tokens_cons (token : Str) (rest : List Str) :
    ToString_tokens (token :: rest) = token ++ spaced_tokens rest := by
  induction rest generalizing token with
  | nil => simp [ToString_tokens, spaced_tokens]
  | cons t ts ih =>
    rw [ToString_tokens, ih, List.append_assoc]
    · rfl
    · exact fun h => nomatch h

theorem spaced_tokens_tail (ts : List Str) (tail : Str)
    (htail : ∃ d r, tail = d :: r ∧ ends_normal_token d = true) :
    spaced_tokens ts ++ tail = []
      ∨ ∃ d r, spaced_tokens ts ++ tail = d :: r ∧ ends_normal_token d = true := by
  cases ts with
  | nil => exact Or.inr htail
  | cons t ts => exact Or.inr ⟨' ', _, rfl, rfl⟩

/-- The further tokens of a statement are scanned into the open statement. -/
theorem Parse_from_spaced_tokens (ts : List Str) (acc : List Str) (tail : Str)
    (top : List NginxConfigStatement) (below : List (List NginxConfigStatement))
    (hts : ts.all config_token = true)
    (htail : ∃ d r, tail = d :: r ∧ ends_normal_token d = true) :
    Parse_from (spaced_tokens ts ++ tail)
        ((top ++ [NginxConfigStatement.mk acc none]) :: below) TOKEN_TYPE_NORMAL
      = Parse_from tail ((top ++ [NginxConfigStatement.mk (acc ++ ts) none]) :: below)
          TOKEN_TYPE_NORMAL := by
  induction ts generalizing acc with
  | nil => simp [spaced_tokens]
  | cons t ts ih =>
    simp only [List.all_cons, Bool.and_eq_true] at hts
    have hp : ParseToken (t ++ (spaced_tokens ts ++ tail))
        = (TOKEN_TYPE_NORMAL, t, spaced_tokens ts ++ tail) :=
      ParseToken_token t _ hts.1 (spaced_tokens_tail ts tail htail)
    show Parse_from (' ' :: (t ++ spaced_tokens ts) ++ tail) _ _ = _
    rw [List.cons_append, Parse_from_space ' ' _ _ _ rfl, List.append_assoc,
      Parse_from_next_token _ t _ top _ below hp]
    show Parse_from _ ((top ++ [NginxConfigStatement.mk (acc ++ [t]) none]) :: below) _ = _
    rw [ih (acc ++ [t]) hts.2, List.append_assoc]
    rfl

/-- The tokens of a statement, after its indentation, are scanned into a new
statement. -/
theorem Parse_from_tokens (depth : Nat) (t : Str) (ts : List Str) (tail : Str)
    (top : List NginxConfigStatement) (below : List (List NginxConfigStatement))
    (last_token_type : TokenType) (ht : config_token t = true)
    (hts : ts.all config_token = true)
    (htail : ∃ d r, tail = d :: r ∧ ends_normal_token d = true)
    (hl : last_token_type ≠ TOKEN_TYPE_NORMAL) :
    Parse_from (indentation depth ++ ToString_tokens (t :: ts) ++ tail) (top :: below)
        last_token_type
      = Parse_from tail ((top ++ [NginxConfigStatement.mk (t :: ts) none]) :: below)
          TOKEN_TYPE_NORMAL := by
  have hp : ParseToken (t ++ (spaced_tokens ts ++ tail))
      = (TOKEN_TYPE_NORMAL, t, spaced_tokens ts ++ tail) :=
    ParseToken_token t _ ht (spaced_tokens_tail ts tail htail)
  rw [List.append_assoc, Parse_from_spaces _ _ _ _ (indentation_space depth),
    ToString_tokens_cons, List.append_assoc,
    Parse_from_first_token _ t _ top below last_token_type hp hl,
    Parse_from_spaced_tokens ts [t] tail top below hts htail]
  rfl

theorem ParseToken_statement_end (input : Str) :
    ParseToken (';' :: input) = (TOKEN_TYPE_STATEMENT_END, [';'], input) := rfl

theorem ParseToken_start_block (input : Str) :
    ParseToken ('\x7b' :: input) = (TOKEN_TYPE_START_BLOCK, ['\x7b'], input) := rfl

theorem ParseToken_end_block (input : Str) :
    ParseToken ('\x7d' :: input) = (TOKEN_TYPE_END_BLOCK, ['\x7d'], input) := rfl

/-- A statement without a block: its text up to the end of the line is parsed into the
statement. -/
theorem Parse_from_simple_statement (depth : Nat) (t : Str) (ts : List Str) (rest : Str)
    (top : List NginxConfigStatement) (below : List (List NginxConfigStatement))
    (last_token_type : TokenType) (ht : config_token t = true)
    (hts : ts.all config_token = true) (hl : last_token_type ≠ TOKEN_TYPE_NORMAL) :
    Parse_from (indentation depth ++ ToString_tokens (t :: ts) ++ (';' :: '\n' :: rest))
        (top :: below) last_token_type
      = Parse_from rest ((top ++ [NginxConfigStatement.mk (t :: ts) none]) :: below)
          TOKEN_TYPE_STATEMENT_END := by
  rw [Parse_from_tokens depth t ts _ top below last_token_type ht hts
      ⟨';', '\n' :: rest, rfl, rfl⟩ hl,
    Parse_from_statement_end _ _ _ _ (ParseToken_statement_end _),
    Parse_from_space '\n' _ _ _ rfl]

/-- The head of a statement with a block: its text up to the end of the line opens the
statement and its block. -/
theorem Parse_from_block_head (depth : Nat) (t : Str) (ts : List Str) (rest : Str)
    (top : List NginxConfigStatement) (below : List (List NginxConfigStatement))
    (last_token_type : TokenType) (ht : config_token t = true)
    (hts : ts.all config_token = true) (hl : last_token_type ≠ TOKEN_TYPE_NORMAL) :
    Parse_from (indentation depth ++ ToString_tokens (t :: ts)
          ++ (' ' :: '\x7b' :: '\n' :: rest))
        (top :: below) last_token_type
      = Parse_from rest
          ([] :: (top ++ [NginxConfigStatement.mk (t :: ts) none]) :: below)
          TOKEN_TYPE_START_BLOCK := by
  rw [Parse_from_tokens depth t ts _ top below last_token_type ht hts
      ⟨' ', '\x7b' :: '\n' :: rest, rfl, rfl⟩ hl,
    Parse_from_space ' ' _ _ _ rfl,
    Parse_from_start_block _ _ _ _ (ParseToken_start_block _),
    Parse_from_space '\n' _ _ _ rfl]

/-- The last line of a statement with a block closes the block and hands it to the
statement. -/
theorem Parse_from_block_end (depth : Nat) (tokens : List Str) (rest : Str)
    (block top : List NginxConfigStatement) (below : List (List NginxConfigStatement))
    (last_token_type : TokenType)
    (hl : last_token_type = TOKEN_TYPE_STATEMENT_END
      ∨ last_token_type = TOKEN_TYPE_START_BLOCK
      ∨ last_token_type = TOKEN_TYPE_END_BLOCK) :
    Parse_from (indentation depth ++ ('\x7d' :: '\n' :: rest))
        (block :: (top ++ [NginxConfigStatement.mk tokens none]) :: below) last_token_type
      = Parse_from rest
          ((top ++ [NginxConfigStatement.mk tokens (some (NginxConfig.mk block))]) :: below)
          TOKEN_TYPE_END_BLOCK := by
  rw [Parse_from_spaces _ _ _ _ (indentation_space depth),
    Parse_from_end_block _ _ _ block top _ below last_token_type (ParseToken_end_block _) hl,
    Parse_from_space '\n' _ _ _ rfl]
  rfl

mutual
/-- The text of a well-formed statement is parsed into the statement. -/
theorem Parse_from_statement_text :
    (statement : NginxConfigStatement) → NginxConfigStatement.well_formed statement = true →
    ∀ (depth : Nat) (rest : Str) (top : List NginxConfigStatement)
      (below : List (List NginxConfigStatement)) (last_token_type : TokenType),
      last_token_type ≠ TOKEN_TYPE_NORMAL →
      ∃ last, (last = TOKEN_TYPE_STATEMENT_END ∨ last = TOKEN_TYPE_END_BLOCK)
        ∧ Parse_from (NginxConfigStatement.ToString depth statement ++ rest) (top :: below)
            last_token_type
          = Parse_from rest ((top ++ [statement]) :: below) last
  | .mk [] child, h => by
    simp [NginxConfigStatement.well_formed] at h
  | .mk (t :: ts) none, h => by
    intro depth rest top below last_token_type hl
    simp only [NginxConfigStatement.well_formed, List.isEmpty_cons, Bool.not_false,
      Bool.true_and, List.all_cons, Bool.and_true, Bool.and_eq_true] at h
    refine ⟨TOKEN_TYPE_STATEMENT_END, Or.inl rfl, ?_⟩
    rw [← Parse_from_simple_statement depth t ts rest top below last_token_type h.1 h.2 hl]
    simp [NginxConfigStatement.ToString]
  | .mk (t :: ts) (some (.mk block)), h => by
    intro depth rest top below last_token_type hl
    simp only [NginxConfigStatement.well_formed, NginxConfig.well_formed, List.isEmpty_cons,
      Bool.not_false, Bool.true_and, List.all_cons, Bool.and_eq_true] at h
    obtain ⟨last, hlast, hblock⟩ := Parse_from_statements_text block h.2 (depth + 1)
      (indentation depth ++ ('\x7d' :: '\n' :: rest)) []
      ((top ++ [NginxConfigStatement.mk (t :: ts) none]) :: below) TOKEN_TYPE_START_BLOCK
      (by decide)
    refine ⟨TOKEN_TYPE_END_BLOCK, Or.inr rfl, ?_⟩
    have hhead := Parse_from_block_head depth t ts
      (ToString_statements (depth + 1) block ++ (indentation depth ++ ('\x7d' :: '\n' :: rest)))
      top below last_token_type h.1.1 h.1.2 hl
    have hend := Parse_from_block_end depth (t :: ts) rest block top below last
      (by rcases hlast with h | h | h <;> simp [h])
    rw [List.nil_append] at hblock
    rw [← hend, ← hblock, ← hhead]
    simp [NginxConfigStatement.ToString, NginxConfig.ToString]
/-- The text of well-formed statements is parsed into the statements. -/
theorem Parse_from_statements_text :
    (statements : List NginxConfigStatement) → well_formed_statements statements = true →
    ∀ (depth : Nat) (rest : Str) (top : List NginxConfigStatement)
      (below : List (List NginxConfigStatement)) (last_token_type : TokenType),
      last_token_type ≠ TOKEN_TYPE_NORMAL →
      ∃ last, (last = last_token_type ∨ last = TOKEN_TYPE_STATEMENT_END
            ∨ last = TOKEN_TYPE_END_BLOCK)
        ∧ Parse_from (ToString_statements depth statements ++ rest) (top :: below)
            last_token_type
          = Parse_from rest ((top ++ statements) :: below) last
  | [], _ => by
    intro depth rest top below last_token_type _
    exact ⟨last_token_type, Or.inl rfl, by simp [ToString_statements]⟩
  | statement :: others, h => by
    intro depth rest top below last_token_type hl
    simp only [well_formed_statements, Bool.and_eq_true] at h
    obtain ⟨last1, hlast1, h1⟩ := Parse_from_statement_text statement h.1 depth
      (ToString_statements depth others ++ rest) top below last_token_type hl
    obtain ⟨last2, hlast2, h2⟩ := Parse_from_statements_text others h.2 depth rest
      (top ++ [statement]) below last1 (by rcases hlast1 with h | h <;> simp [h])
    refine ⟨last2, ?_, ?_⟩
    · rcases hlast2 with h | h | h
      · rcases hlast1 with h3 | h3
        · exact Or.inr (Or.inl (h.trans h3))
        · exact Or.inr (Or.inr (h.trans h3))
      · exact Or.inr (Or.inl h)
      · exact Or.inr (Or.inr h)
    · rw [ToString_statements, List.append_assoc, h1, h2, List.append_assoc]
      rfl
end

/-! ## The configs that `Parse` builds -/

theorem scan_normal_range (input value : Str) (type : TokenType) (token rest : Str)
    (h : ParseToken_scan TOKEN_STATE_TOKEN_TYPE_NORMAL value input = (type, token, rest)) :
    ∃ cs, token = value ++ cs ∧ cs.all (fun x => !ends_normal_token x) = true := by
  induction input generalizing value with
  | nil =>
    simp only [ParseToken_scan, Prod.mk.injEq] at h
    exact ⟨[], by simp [h.2.1], rfl⟩
  | cons c input ih =>
    rw [ParseToken_scan] at h
    split_ifs at h with hc
    · simp only [Prod.mk.injEq] at h
      exact ⟨[], by simp [h.2.1], rfl⟩
    · obtain ⟨cs, h1, h2⟩ := ih _ h
      refine ⟨c :: cs, by simp [h1], ?_⟩
      simp only [List.all_cons, h2, Bool.and_true]
      simpa using hc

theorem scan_double_quote_range (input value : Str) (token rest : Str)
    (h : ParseToken_scan TOKEN_STATE_DOUBLE_QUOTE value input
      = (TOKEN_TYPE_NORMAL, token, rest)) :
    ∃ cs, token = value ++ cs ∧ closes_quote '"' cs = true := by
  induction input generalizing value with
  | nil => simp [ParseToken_scan] at h
  | cons c input ih =>
    rw [ParseToken_scan] at h
    split_ifs at h with hc
    · simp only [Prod.mk.injEq, true_and] at h
      exact ⟨[c], h.1.symm, by simp [closes_quote, hc]⟩
    · obtain ⟨cs, h1, h2⟩ := ih _ h
      refine ⟨c :: cs, by simp [h1], ?_⟩
      cases cs with
      | nil => simp [closes_quote] at h2
      | cons d ds => simp [closes_quote, hc, h2]

theorem scan_single_quote_range (input value : Str) (token rest : Str)
    (h : ParseToken_scan TOKEN_STATE_SINGLE_QUOTE value input
      = (TOKEN_TYPE_NORMAL, token, rest)) :
    ∃ cs, token = value ++ cs ∧ closes_quote '\'' cs = true := by
  induction input generalizing value with
  | nil => simp [ParseToken_scan] at h
  | cons c input ih =>
    rw [ParseToken_scan] at h
    split_ifs at h with hc
    · simp only [Prod.mk.injEq, true_and] at h
      exact ⟨[c], h.1.symm, by simp [closes_quote, hc]⟩
    · obtain ⟨cs, h1, h2⟩ := ih _ h
      refine ⟨c :: cs, by simp [h1], ?_⟩
      cases cs with
      | nil => simp [closes_quote] at h2
      | cons d ds => simp [closes_quote, hc, h2]

theorem scan_comment_type (input value : Str) :
    (ParseToken_scan TOKEN_STATE_TOKEN_TYPE_COMMENT value input).1 = TOKEN_TYPE_COMMENT := by
  induction input generalizing value with
  | nil => rfl
  | cons c input ih =>
    rw [ParseToken_scan]
    split_ifs
    · rfl
    · exact ih _

/-- Every value that `ParseToken` gives with the type `TOKEN_TYPE_NORMAL` is a normal or
a quoted token. -/
theorem ParseToken_normal_range (input : Str) (token rest : Str)
    (h : ParseToken input = (TOKEN_TYPE_NORMAL, token, rest)) : config_token token = true := by
  unfold ParseToken at h
  induction input with
  | nil => simp [ParseToken_scan] at h
  | cons c input ih =>
    rw [ParseToken_scan] at h
    split_ifs at h with h1 h2 h3 h4 h5 h6 h7
    · simp at h
    · simp at h
    · have := scan_comment_type input [c]
      rw [h] at this
      simp at this
    · obtain ⟨cs, hcs, hq⟩ := scan_double_quote_range input [c] token rest h
      subst hcs
      subst h4
      simp [config_token, quoted_token, hq]
    · obtain ⟨cs, hcs, hq⟩ := scan_single_quote_range input [c] token rest h
      subst hcs
      subst h5
      simp [config_token, quoted_token, hq]
    · simp at h
    · exact ih h
    · obtain ⟨cs, hcs, hq⟩ := scan_normal_range input ([] ++ [c]) _ token rest h
      subst hcs
      simp [config_token, normal_token, h1, h2, h3, h4, h5, h6, h7, hq]

theorem well_formed_statements_append (xs ys : List NginxConfigStatement) :
    well_formed_statements (xs ++ ys)
      = (well_formed_statements xs && well_formed_statements ys) := by
  induction xs with
  | nil => simp [well_formed_statements]
  | cons x xs ih => simp [well_formed_statements, ih, Bool.and_assoc]

theorem well_formed_update_back (f : NginxConfigStatement → NginxConfigStatement)
    (hf : ∀ s, NginxConfigStatement.well_formed s = true →
      NginxConfigStatement.well_formed (f s) = true)
    (xs : List NginxConfigStatement) (h : well_formed_statements xs = true) :
    well_formed_statements (update_back f xs) = true := by
  induction xs with
  | nil => rfl
  | cons x xs ih =>
    simp only [well_formed_statements, Bool.and_eq_true] at h
    cases xs with
    | nil => simp [update_back, well_formed_statements, hf x h.1]
    | cons y ys =>
      show well_formed_statements (x :: update_back f (y :: ys)) = true
      simp only [well_formed_statements, Bool.and_eq_true]
      exact ⟨h.1, by simpa [well_formed_statements] using ih h.2⟩

theorem well_formed_push_token (token : Str) (ht : config_token token = true)
    (s : NginxConfigStatement) (h : NginxConfigStatement.well_formed s = true) :
    NginxConfigStatement.well_formed (push_token token s) = true := by
  obtain ⟨tokens, _ | ⟨⟨inner⟩⟩⟩ := s
  · simp only [NginxConfigStatement.well_formed, Bool.and_eq_true] at h
    simp only [push_token, NginxConfigStatement.well_formed, Bool.and_eq_true]
    refine ⟨⟨?_, ?_⟩, h.2⟩
    · cases tokens <;> rfl
    · simp [List.all_append, h.1.2, ht]
  · simp only [NginxConfigStatement.well_formed, Bool.and_eq_true] at h
    simp only [push_token, NginxConfigStatement.well_formed, Bool.and_eq_true]
    refine ⟨⟨?_, ?_⟩, h.2⟩
    · cases tokens <;> rfl
    · simp [List.all_append, h.1.2, ht]

theorem well_formed_set_child_block (block : List NginxConfigStatement)
    (hb : well_formed_statements block = true)
    (s : NginxConfigStatement) (h : NginxConfigStatement.well_formed s = true) :
    NginxConfigStatement.well_formed (set_child_block block s) = true := by
  obtain ⟨tokens, _ | ⟨⟨inner⟩⟩⟩ := s
  · simp only [NginxConfigStatement.well_formed, Bool.and_eq_true] at h
    simp only [set_child_block, NginxConfigStatement.well_formed, NginxConfig.well_formed,
      Bool.and_eq_true]
    exact ⟨h.1, hb⟩
  · simp only [NginxConfigStatement.well_formed, Bool.and_eq_true] at h
    simp only [set_child_block, NginxConfigStatement.well_formed, NginxConfig.well_formed,
      Bool.and_eq_true]
    exact ⟨h.1, hb⟩

/-- The loop of `Parse` keeps the blocks on its stack well formed, so the config it
returns is well formed. -/
theorem Parse_loop_well_formed (fuel : Nat) :
    ∀ (input : Str) (config_stack : List (List NginxConfigStatement))
      (last_token_type : TokenType) (config : NginxConfig),
      (∀ block ∈ config_stack, well_formed_statements block = true) →
      Parse_loop fuel input config_stack last_token_type = some config →
      NginxConfig.well_formed config = true := by
  induction fuel with
  | zero =>
    intro input config_stack last_token_type config _ h
    simp [Parse_loop] at h
  | succ fuel ih =>
    intro input config_stack last_token_type config hstack h
    simp only [Parse_loop] at h
    rcases hp : ParseToken input with ⟨type, value, rest⟩
    rw [hp] at h
    cases type with
    | TOKEN_TYPE_START => simp at h
    | TOKEN_TYPE_ERROR => simp at h
    | TOKEN_TYPE_COMMENT => exact ih rest config_stack last_token_type config hstack h
    | TOKEN_TYPE_NORMAL =>
      have ht := ParseToken_normal_range input value rest hp
      cases config_stack with
      | nil => simp at h
      | cons top below =>
        have htop := hstack top (List.mem_cons_self _ _)
        have hbelow : ∀ block ∈ below, well_formed_statements block = true :=
          fun b hb => hstack b (List.mem_cons_of_mem _ hb)
        simp only at h
        split at h
        · refine ih rest _ _ config ?_ h
          intro block hb
          rcases List.mem_cons.mp hb with hb | hb
          · rw [hb]
            exact well_formed_update_back _ (well_formed_push_token value ht) top htop
          · exact hbelow block hb
        · refine ih rest _ _ config ?_ h
          intro block hb
          rcases List.mem_cons.mp hb with hb | hb
          · rw [hb, well_formed_statements_append, htop]
            simp [well_formed_statements, NginxConfigStatement.well_formed, ht]
          · exact hbelow block hb
    | TOKEN_TYPE_STATEMENT_END =>
      simp only at h
      split at h
      · exact ih rest config_stack _ config hstack h
      · simp at h
    | TOKEN_TYPE_START_BLOCK =>
      simp only at h
      split at h
      · refine ih rest _ _ config ?_ h
        intro block hb
        rcases List.mem_cons.mp hb with hb | hb
        · rw [hb]
          rfl
        · exact hstack block hb
      · simp at h
    | TOKEN_TYPE_END_BLOCK =>
      simp only at h
      split at h
      · rcases config_stack with _ | ⟨block, _ | ⟨top, below⟩⟩
        · simp at h
        · simp at h
        · refine ih rest _ _ config ?_ h
          intro b hb
          rcases List.mem_cons.mp hb with hb | hb
          · rw [hb]
            exact well_formed_update_back _
              (well_formed_set_child_block block (hstack block (List.mem_cons_self _ _)))
              top (hstack top (List.mem_cons_of_mem _ (List.mem_cons_self _ _)))
          · exact hstack b (List.mem_cons_of_mem _ (List.mem_cons_of_mem _ hb))
      · simp at h
    | TOKEN_TYPE_EOF =>
      simp only at h
      split at h
      · rcases config_stack with _ | ⟨top, _ | ⟨next, below⟩⟩
        · simp at h
        · simp only [Option.some.injEq] at h
          subst h
          exact hstack top (List.mem_cons_self _ _)
        · simp at h
      · simp at h

/-- Every config that `Parse` returns is well formed. -/
theorem Parse_well_formed (config_file : Str) (config : NginxConfig)
    (h : Parse config_file = some config) : NginxConfig.well_formed config = true := by
  refine Parse_loop_well_formed _ config_file [[]] TOKEN_TYPE_START config ?_ h
  intro block hb
  rw [List.mem_singleton.mp hb]
  rfl

/-- The text of a well-formed config is parsed into the config. -/
theorem Parse_ToString_of_well_formed (config : NginxConfig)
    (h : NginxConfig.well_formed config = true) :
    Parse (NginxConfig.ToString 0 config) = some config := by
  obtain ⟨statements⟩ := config
  obtain ⟨last, hlast, hrun⟩ := Parse_from_statements_text statements h 0 [] [] []
    TOKEN_TYPE_START (by decide)
  show Parse_from (ToString_statements 0 statements) [[]] TOKEN_TYPE_START = _
  rw [List.append_nil, List.nil_append] at hrun
  rw [hrun]
  exact Parse_from_eof [] [] [] statements last rfl hlast

/-! ## The braces of the text of `ToString` -/

theorem count_indentation (c : Char) (hc : c ≠ ' ') (depth : Nat) :
    (indentation depth).count c = 0 := by
  induction depth with
  | zero => rfl
  | succ d ih =>
    show (' ' :: ' ' :: indentation d).count c = 0
    have h : (' ' == c) = false := by simpa using fun h => hc h.symm
    simp [List.count_cons, ih, h]

theorem count_ToString_tokens (c : Char) (hc : c ≠ ' ') (tokens : List Str)
    (h : tokens.all (fun token => !token.contains c) = true) :
    (ToString_tokens tokens).count c = 0 := by
  have hsp : (' ' == c) = false := by simpa using fun h => hc h.symm
  have hspaced : ∀ ts : List Str, ts.all (fun token => !token.contains c) = true →
      (spaced_tokens ts).count c = 0 := by
    intro ts
    induction ts with
    | nil => intro _; rfl
    | cons t ts ih =>
      intro h
      simp only [List.all_cons, Bool.and_eq_true, Bool.not_eq_true'] at h
      have ht : t.count c = 0 := List.count_eq_zero.mpr (by simpa using h.1)
      simp [spaced_tokens, List.count_cons, List.count_append, hsp, ht, ih h.2]
  cases tokens with
  | nil => rfl
  | cons t ts =>
    simp only [List.all_cons, Bool.and_eq_true, Bool.not_eq_true'] at h
    have ht : t.count c = 0 := List.count_eq_zero.mpr (by simpa using h.1)
    rw [ToString_tokens_cons, List.count_append, ht, hspaced ts h.2]

mutual
/-- The text of a statement without a brace in its tokens has as many opening as
closing braces. -/
theorem count_braces_statement :
    (statement : NginxConfigStatement) → NginxConfigStatement.brace_free statement = true →
    ∀ depth : Nat,
      (NginxConfigStatement.ToString depth statement).count '\x7b'
        = (NginxConfigStatement.ToString depth statement).count '\x7d'
  | .mk tokens none, h => by
    intro depth
    simp only [NginxConfigStatement.brace_free, Bool.and_true, List.all_eq_true,
      Bool.and_eq_true] at h
    have h1 : tokens.all (fun token => !token.contains '\x7b') = true :=
      List.all_eq_true.mpr fun t ht => (h t ht).1
    have h2 : tokens.all (fun token => !token.contains '\x7d') = true :=
      List.all_eq_true.mpr fun t ht => (h t ht).2
    simp only [NginxConfigStatement.ToString, List.count_append,
      count_indentation '\x7b' (by decide), count_indentation '\x7d' (by decide),
      count_ToString_tokens _ (by decide) tokens h1,
      count_ToString_tokens _ (by decide) tokens h2]
    rfl
  | .mk tokens (some (.mk block)), h => by
    intro depth
    simp only [NginxConfigStatement.brace_free, NginxConfig.brace_free, List.all_eq_true,
      Bool.and_eq_true] at h
    have h1 : tokens.all (fun token => !token.contains '\x7b') = true :=
      List.all_eq_true.mpr fun t ht => (h.1 t ht).1
    have h2 : tokens.all (fun token => !token.contains '\x7d') = true :=
      List.all_eq_true.mpr fun t ht => (h.1 t ht).2
    have hb := count_braces_statements block h.2 (depth + 1)
    simp only [NginxConfigStatement.ToString, NginxConfig.ToString, List.count_append,
      count_indentation '\x7b' (by decide), count_indentation '\x7d' (by decide),
      count_ToString_tokens _ (by decide) tokens h1,
      count_ToString_tokens _ (by decide) tokens h2, hb]
    have e1 : List.count '\x7b' " \x7b\n".toList = 1 := by decide
    have e2 : List.count '\x7d' " \x7b\n".toList = 0 := by decide
    have e3 : List.count '\x7b' "\x7d".toList = 0 := by decide
    have e4 : List.count '\x7d' "\x7d".toList = 1 := by decide
    have e5 : List.count '\x7b' "\n".toList = 0 := by decide
    have e6 : List.count '\x7d' "\n".toList = 0 := by decide
    rw [e1, e2, e3, e4, e5, e6]
    omega
/-- The text of statements without a brace in their tokens has as many opening as
closing braces. -/
theorem count_braces_statements :
    (statements : List NginxConfigStatement) → brace_free_statements statements = true →
    ∀ depth : Nat,
      (ToString_statements depth statements).count '\x7b'
        = (ToString_statements depth statements).count '\x7d'
  | [], _ => by
    intro depth
    rfl
  | statement :: others, h => by
    intro depth
    simp only [brace_free_statements, Bool.and_eq_true] at h
    rw [ToString_statements, List.count_append, List.count_append,
      count_braces_statement statement h.1 depth, count_braces_statements others h.2 depth]
end

/-- Counterexample to C13: the text `foo "{";` is parsed into a config with the quoted
token `"{"`, and the text that `ToString` returns for this config has one opening brace
and no closing brace. -/
theorem ToString_quoted_brace_unbalanced :
    Parse quoted_brace_text = some quoted_brace_config
      ∧ NginxConfig.ToString 0 quoted_brace_config = "foo \"\x7b\";\n".toList
      ∧ (NginxConfig.ToString 0 quoted_brace_config).count '\x7b' = 1
      ∧ (NginxConfig.ToString 0 quoted_brace_config).count '\x7d' = 0 :=
  ⟨rfl, by decide, by decide, by decide⟩

/-- C13 (amended): for every config that `Parse` returns, parsing the text that
`ToString` returns for it succeeds and gives the same config (the same statements, the
same tokens in the same order, the same nesting), and when no token of the config holds
a brace this text has as many opening braces as closing braces. -/
theorem Parse_ToString_round_trip (config_file : Str) (config : NginxConfig)
    (h : Parse config_file = some config) :
    Parse (NginxConfig.ToString 0 config) = some config
      ∧ (NginxConfig.brace_free config = true →
          (NginxConfig.ToString 0 config).count '\x7b'
            = (NginxConfig.ToString 0 config).count '\x7d') := by
  refine ⟨Parse_ToString_of_well_formed config (Parse_well_formed config_file config h), ?_⟩
  obtain ⟨statements⟩ := config
  intro hb
  exact count_braces_statements statements hb 0

/-- Witness of C13 (amended): the config of the test `ToString_NestedBlocks`, whose text
has two braces of each kind, and the config with the quoted brace, which is parsed back
from its text as well. -/
theorem Parse_ToString_round_trip_witness :
    (Parse nested_blocks_text = some nested_blocks_config
        ∧ Parse (NginxConfig.ToString 0 nested_blocks_config) = some nested_blocks_config
        ∧ (NginxConfig.ToString 0 nested_blocks_config).count '\x7b' = 2
        ∧ (NginxConfig.ToString 0 nested_blocks_config).count '\x7d' = 2)
      ∧ Parse (NginxConfig.ToString 0 quoted_brace_config) = some quoted_brace_config :=
  ⟨⟨rfl, (Parse_ToString_round_trip nested_blocks_text nested_blocks_config rfl).1,
      by decide,
      ((Parse_ToString_round_trip nested_blocks_text nested_blocks_config rfl).2
        (by decide)).symm.trans (by decide)⟩,
    (Parse_ToString_round_trip quoted_brace_text quoted_brace_config rfl).1⟩

open RequestHandlerRegistry

/-- C27: an entry of the prefix table whose key is the empty string is never selected:
for every URI that starts with no non-empty registered prefix, `FindBestMatch` returns
the empty string, also when the empty prefix is registered, and `CreateHandler` returns
the not-found fallback handler and leaves `handler_name` as it was. -/
theorem CreateHandler_empty_key_not_selected (self : RequestHandlerRegistry)
    (factory_map_ : FactoryMap) (uri handler_name : Str)
    (h : ∀ k ∈ StdMap.keys self.handler_configs_, k ≠ [] → ¬ k <+: uri) :
    self.FindBestMatch uri = []
      ∧ ([] : Str) <+: uri
      ∧ (self.CreateHandler factory_map_ uri handler_name).handler
          = .ok (some RequestHandler.NotFoundHandler)
      ∧ (self.CreateHandler factory_map_ uri handler_name).handler_name = handler_name := by
  have h0 : self.FindBestMatch uri = [] := by
    obtain ⟨h1, _, _⟩ := FindBestMatch_fold uri self.handler_configs_ []
    rcases h1 with h1 | ⟨h1, h2⟩
    · exact h1
    · by_contra hne
      exact h _ h1 hne h2
  refine ⟨h0, List.nil_prefix, ?_, ?_⟩
  · simp [CreateHandler, h0]
  · simp [CreateHandler, h0]

/-- Witness of C27: with the empty prefix and `/api` registered and a factory for the
handler type of both, the URI `/other` gets the not-found handler. -/
theorem CreateHandler_empty_key_not_selected_witness :
    (empty_key_registry.handler_configs_.find []).isSome = true
      ∧ empty_key_registry.FindBestMatch "/other".toList = []
      ∧ (empty_key_registry.CreateHandler echo_factory_map "/other".toList
          "name".toList).handler = .ok (some RequestHandler.NotFoundHandler)
      ∧ (empty_key_registry.CreateHandler echo_factory_map "/other".toList
          "name".toList).handler_name = "name".toList :=
  ⟨rfl,
   (CreateHandler_empty_key_not_selected empty_key_registry echo_factory_map
      "/other".toList "name".toList (by decide)).1,
   (CreateHandler_empty_key_not_selected empty_key_registry echo_factory_map
      "/other".toList "name".toList (by decide)).2.2⟩

theorem BuildResponse_status (status : status_type) (content : Str) (headers : List header) :
    (BuildResponse status content headers).status = status := rfl

theorem get?_length_append (p t : Str) (c : Char) : (p ++ c :: t).get? p.length = some c := by
  induction p with
  | nil => rfl
  | cons d p ih => simpa using ih

/-- The function `is_valid_upload_path` accepts the prefix itself and the URIs that start
with the prefix and a slash. -/
theorem is_valid_upload_path_iff (path_prefix_ uri : Str) :
    UploadHandler.is_valid_upload_path path_prefix_ uri = true
      ↔ uri = path_prefix_ ∨ (path_prefix_ ++ ['/']) <+: uri := by
  unfold UploadHandler.is_valid_upload_path
  by_cases h1 : uri = path_prefix_
  · simp [h1]
  · simp only [h1, if_false, false_or]
    constructor
    · intro h
      split at h
      · rename_i hc
        simp only [Bool.and_eq_true, decide_eq_true_eq, compare_eq_iff_starts] at hc
        obtain ⟨⟨_, ⟨t, ht⟩⟩, h3⟩ := hc
        subst ht
        cases t with
        | nil => exact absurd (List.append_nil _) h1
        | cons c t =>
          rw [get?_length_append] at h3
          simp only [Option.some.injEq] at h3
          subst h3
          exact ⟨t, by simp⟩
      · exact absurd h (by simp)
    · rintro ⟨t, ht⟩
      subst ht
      rw [List.append_assoc, List.singleton_append] at h1 ⊢
      have hc : compare_eq (path_prefix_ ++ '/' :: t) path_prefix_ = true :=
        (compare_eq_iff_starts _ _).mpr ⟨'/' :: t, rfl⟩
      have hl : decide ((path_prefix_ ++ '/' :: t).length > path_prefix_.length) = true := by
        simp
      rw [hc, get?_length_append, hl]
      rfl

/-- C23: for every configured path prefix and every request, `UploadHandler`
answers 404 exactly when the URI is neither the prefix nor starts with the prefix
immediately followed by `/`. With the prefix `/upload`, the URIs `/uploadXYZ` and
`/uploading` get 404, and `/upload`, `/upload/` and `/upload/subpath` do not. -/
theorem UploadHandler_not_found_iff (w : World) (upload_dir_ path_prefix_ : Str)
    (max_file_size_ : Nat) (request : request) :
    ((UploadHandler.handle_request w upload_dir_ path_prefix_ max_file_size_ request).status
          = 404
        ↔ ¬ (request.uri = path_prefix_ ∨ (path_prefix_ ++ ['/']) <+: request.uri))
      ∧ (∀ uri ∈ ["/uploadXYZ".toList, "/uploading".toList],
          (UploadHandler.handle_request w upload_dir_ "/upload".toList max_file_size_
            { request with uri := uri }).status = 404)
      ∧ (∀ uri ∈ ["/upload".toList, "/upload/".toList, "/upload/subpath".toList],
          (UploadHandler.handle_request w upload_dir_ "/upload".toList max_file_size_
            { request with uri := uri }).status ≠ 404) := by
  have key : ∀ (p : Str) (r : Marko.request),
      (UploadHandler.handle_request w upload_dir_ p max_file_size_ r).status = 404
        ↔ ¬ (r.uri = p ∨ (p ++ ['/']) <+: r.uri) := by
    intro p r
    rw [← is_valid_upload_path_iff]
    unfold UploadHandler.handle_request
    by_cases hv : UploadHandler.is_valid_upload_path p r.uri = true
    · simp only [hv, Bool.not_true, Bool.false_eq_true, if_false, not_true_eq_false,
        iff_false]
      simp only [UploadHandler.create_upload_form, UploadHandler.create_error_response,
        UploadHandler.create_success_response]
      repeat' split
      all_goals simp [BuildResponse_status, reply.ok, reply.bad_request]
    · simp only [hv, Bool.not_false, if_true, not_false_eq_true, iff_true]
      simp [Bool.not_eq_true] at hv
      simp [hv, BuildResponse_status, reply.not_found]
  refine ⟨key path_prefix_ request, ?_, ?_⟩
  · intro uri hu
    rw [key]
    simp only [List.mem_cons, List.mem_singleton, List.mem_nil_iff, or_false] at hu
    rcases hu with hu | hu <;> subst hu <;> dsimp only <;> decide
  · intro uri hu
    rw [Ne, key, not_not]
    simp only [List.mem_cons, List.mem_singleton, List.mem_nil_iff, or_false] at hu
    rcases hu with hu | hu | hu <;> subst hu <;> dsimp only <;> decide


/-- Witness of C23: a `GET` of `/uploading` under the prefix `/upload` is answered with
404, and a `GET` of `/upload/subpath` is not. -/
theorem UploadHandler_not_found_iff_witness :
    (UploadHandler.handle_request quiet_world "./uploads".toList "/upload".toList 1048576
        (simple_request "GET".toList "/uploading".toList [])).status = 404
      ∧ (UploadHandler.handle_request quiet_world "./uploads".toList "/upload".toList 1048576
        (simple_request "GET".toList "/upload/subpath".toList [])).status ≠ 404 :=
  ⟨(UploadHandler_not_found_iff quiet_world "./uploads".toList "/upload".toList 1048576
      (simple_request "GET".toList "/uploading".toList [])).1.mpr (by decide),
   fun h => (UploadHandler_not_found_iff quiet_world "./uploads".toList "/upload".toList
      1048576 (simple_request "GET".toList "/upload/subpath".toList [])).1.mp h
        (by decide)⟩

theorem findLastAux_not_mem (c : Char) (s : Str) (i : Nat) (acc : Option Nat)
    (h : c ∉ s) : findLastAux c s i acc = acc := by
  induction s generalizing i acc with
  | nil => rfl
  | cons d s ih =>
    simp only [List.mem_cons, not_or] at h
    have hd : ¬ d = c := fun x => h.1 x.symm
    simp only [findLastAux, hd, if_false]
    exact ih _ _ h.2

theorem findLastAux_last (c : Char) (pre rest : Str) (i : Nat) (acc : Option Nat)
    (h : c ∉ rest) : findLastAux c (pre ++ c :: rest) i acc = some (i + pre.length) := by
  induction pre generalizing i acc with
  | nil =>
    simp only [List.nil_append, findLastAux, if_true, List.length_nil, Nat.add_zero]
    exact findLastAux_not_mem c rest _ _ h
  | cons d pre ih =>
    show findLastAux c (pre ++ c :: rest) (i + 1) _ = _
    rw [ih, List.length_cons]
    congr 1
    omega

theorem last_occurrence (c : Char) (s : Str) (h : c ∈ s) :
    ∃ pre rest, s = pre ++ c :: rest ∧ c ∉ rest := by
  induction s with
  | nil => exact absurd h (List.not_mem_nil c)
  | cons d s ih =>
    by_cases hs : c ∈ s
    · obtain ⟨pre, rest, h1, h2⟩ := ih hs
      exact ⟨d :: pre, rest, by rw [h1]; rfl, h2⟩
    · rcases List.mem_cons.mp h with h1 | h1
      · exact ⟨[], s, by rw [h1]; rfl, hs⟩
      · exact absurd h1 hs

/-- The call `find_last_of(c)`: no position when the byte does not occur, else the
position of its last occurrence. -/
theorem find_last_of_eq (s : Str) (c : Char) :
    (c ∉ s ∧ find_last_of s c = none)
      ∨ ∃ pre rest, s = pre ++ c :: rest ∧ c ∉ rest ∧ find_last_of s c = some pre.length := by
  by_cases h : c ∈ s
  · obtain ⟨pre, rest, h1, h2⟩ := last_occurrence c s h
    refine Or.inr ⟨pre, rest, h1, h2, ?_⟩
    rw [h1, find_last_of, findLastAux_last c pre rest 0 none h2, Nat.zero_add]
  · exact Or.inl ⟨h, findLastAux_not_mem c s 0 none h⟩

/-- C24: `validate_file(filename, size)` accepts if and only if the size is at most
`max_file_size_`, the file name contains a `.`, and the part of the file name from its
last `.` on, in lower case, is `.txt`, `.md` or `.pdf`. -/
theorem validate_file_iff (max_file_size_ : Nat) (filename : Str) (size : Nat) :
    UploadHandler.validate_file max_file_size_ filename size = true
      ↔ size ≤ max_file_size_
          ∧ ∃ pre rest, filename = pre ++ '.' :: rest ∧ '.' ∉ rest
              ∧ ('.' :: rest).map Char.toLower
                  ∈ [".txt".toList, ".md".toList, ".pdf".toList] := by
  unfold UploadHandler.validate_file
  by_cases hs : size > max_file_size_
  · simp only [hs, if_true, Bool.false_eq_true, false_iff, not_and]
    intro h
    omega
  · simp only [hs, if_false]
    have hle : size ≤ max_file_size_ := by omega
    rcases find_last_of_eq filename '.' with ⟨h1, h2⟩ | ⟨pre, rest, h1, h2, h3⟩
    · rw [h2]
      simp only [Bool.false_eq_true, false_iff, not_and, not_exists]
      intro _ pre rest hf
      exact absurd (hf ▸ List.mem_append_right pre (List.mem_cons_self _ _)) h1
    · rw [h3]
      simp only [decide_eq_true_eq, UploadHandler.allowed_extensions_]
      have hdrop : filename.drop pre.length = '.' :: rest := by
        rw [h1, List.drop_left]
      rw [hdrop]
      constructor
      · intro h
        exact ⟨hle, pre, rest, h1, h2, h⟩
      · rintro ⟨_, pre2, rest2, hf, hn, hm⟩
        have h4 : find_last_of filename '.' = some pre2.length := by
          rw [hf, find_last_of, findLastAux_last '.' pre2 rest2 0 none hn, Nat.zero_add]
        rw [h3, Option.some.injEq] at h4
        have h5 : filename.drop pre.length = '.' :: rest2 := by
          rw [h4, hf, List.drop_left]
        rw [hdrop] at h5
        rw [h5]
        exact hm

/-- Witness of C24: with the limit of the tests, `test.TXT` of 12 bytes is accepted,
and a file name without a `.` is not. -/
theorem validate_file_iff_witness :
    UploadHandler.validate_file 1048576 "test.TXT".toList 12 = true
      ∧ UploadHandler.validate_file 1048576 "README".toList 12 ≠ true :=
  ⟨(validate_file_iff 1048576 "test.TXT".toList 12).mpr
      ⟨by decide, "test".toList, "TXT".toList, rfl, by decide, by decide⟩,
   fun h =>
    match (validate_file_iff 1048576 "README".toList 12).mp h with
    | ⟨_, pre, rest, hf, _, _⟩ =>
      absurd (hf ▸ List.mem_append_right pre (List.mem_cons_self '.' rest)) (by decide)⟩

theorem ParseUri_entity_type_ne (path_prefix_ uri entity_type id : Str)
    (h : APIHandler.ParseUri path_prefix_ uri = some (entity_type, id)) :
    entity_type.isEmpty = false := by
  unfold APIHandler.ParseUri at h
  dsimp only at h
  split_ifs at h
  all_goals
    rename_i hne
    rw [Option.some.inj h] at hne
    simpa using hne

theorem isEmpty_eq_false_of_ne (s : Str) (h : s ≠ []) : s.isEmpty = false := by
  cases s with
  | nil => exact absurd rfl h
  | cons c s => rfl

/-- C21: for every request whose URI `ParseUri` accepts, `handle_request` makes at most
one call on the entity processor, chosen by the method and by whether an id is present;
the reply is 200 when the operation succeeds, 404 when `RetrieveEntity`,
`UpdateEntity`, `DeleteEntity` or `ListEntities` reports failure, 500 when
`CreateEntity` returns an empty id, 400 without a call for an empty `POST` or `PUT`
body, and 404 without a call for every other combination of method and id; a URI that
`ParseUri` rejects gets 400 without a call. -/
theorem APIHandler_dispatch (path_prefix_ : Str) (ep : EntityProcessor) (request : request) :
    (APIHandler.ParseUri path_prefix_ request.uri = none →
        (APIHandler.handle_request path_prefix_ ep request).status = 400
          ∧ APIHandler.handle_request_calls path_prefix_ request = [])
      ∧ ∀ entity_type id,
          APIHandler.ParseUri path_prefix_ request.uri = some (entity_type, id) →
          (APIHandler.handle_request_calls path_prefix_ request).length ≤ 1
            ∧ (request.method = "POST".toList → id = [] →
                (request.body = [] →
                  (APIHandler.handle_request path_prefix_ ep request).status = 400
                    ∧ APIHandler.handle_request_calls path_prefix_ request = [])
                ∧ (request.body ≠ [] →
                  APIHandler.handle_request_calls path_prefix_ request
                      = [EntityProcessorCall.CreateEntity entity_type request.body]
                    ∧ (APIHandler.handle_request path_prefix_ ep request).status
                      = if ep.CreateEntity entity_type request.body = [] then 500 else 200))
            ∧ (request.method = "GET".toList → id ≠ [] →
                APIHandler.handle_request_calls path_prefix_ request
                    = [EntityProcessorCall.RetrieveEntity entity_type id]
                  ∧ (APIHandler.handle_request path_prefix_ ep request).status
                    = if (ep.RetrieveEntity entity_type id).isSome then 200 else 404)
            ∧ (request.method = "PUT".toList → id ≠ [] →
                (request.body = [] →
                  (APIHandler.handle_request path_prefix_ ep request).status = 400
                    ∧ APIHandler.handle_request_calls path_prefix_ request = [])
                ∧ (request.body ≠ [] →
                  APIHandler.handle_request_calls path_prefix_ request
                      = [EntityProcessorCall.UpdateEntity entity_type id request.body]
                    ∧ (APIHandler.handle_request path_prefix_ ep request).status
                      = if ep.UpdateEntity entity_type id request.body then 200 else 404))
            ∧ (request.method = "DELETE".toList → id ≠ [] →
                APIHandler.handle_request_calls path_prefix_ request
                    = [EntityProcessorCall.DeleteEntity entity_type id]
                  ∧ (APIHandler.handle_request path_prefix_ ep request).status
                    = if ep.DeleteEntity entity_type id then 200 else 404)
            ∧ (request.method = "GET".toList → id = [] →
                APIHandler.handle_request_calls path_prefix_ request
                    = [EntityProcessorCall.ListEntities entity_type]
                  ∧ (APIHandler.handle_request path_prefix_ ep request).status
                    = if (ep.ListEntities entity_type).isSome then 200 else 404)
            ∧ (¬ (request.method = "POST".toList ∧ id = [])
                → ¬ (request.method = "GET".toList)
                → ¬ (request.method = "PUT".toList ∧ id ≠ [])
                → ¬ (request.method = "DELETE".toList ∧ id ≠ []) →
                (APIHandler.handle_request path_prefix_ ep request).status = 404
                  ∧ APIHandler.handle_request_calls path_prefix_ request = []) := by
  refine ⟨?_, ?_⟩
  · intro hp
    simp [APIHandler.handle_request, APIHandler.handle_request_calls, hp, BuildResponse_status,
      reply.bad_request]
  · intro entity_type id hp
    have he := ParseUri_entity_type_ne _ _ _ _ hp
    have hpost_get : ¬ "POST".toList = "GET".toList := by decide
    have hpost_put : ¬ "POST".toList = "PUT".toList := by decide
    have hpost_del : ¬ "POST".toList = "DELETE".toList := by decide
    have hget_put : ¬ "GET".toList = "PUT".toList := by decide
    have hget_del : ¬ "GET".toList = "DELETE".toList := by decide
    have hget_post : ¬ "GET".toList = "POST".toList := by decide
    have hput_post : ¬ "PUT".toList = "POST".toList := by decide
    have hput_get : ¬ "PUT".toList = "GET".toList := by decide
    have hput_del : ¬ "PUT".toList = "DELETE".toList := by decide
    have hdel_post : ¬ "DELETE".toList = "POST".toList := by decide
    have hdel_get : ¬ "DELETE".toList = "GET".toList := by decide
    have hdel_put : ¬ "DELETE".toList = "PUT".toList := by decide
    unfold APIHandler.handle_request APIHandler.handle_request_calls
    rw [hp]
    generalize hPOST : "POST".toList = POST at *
    generalize hGET : "GET".toList = GET at *
    generalize hPUT : "PUT".toList = PUT at *
    generalize hDELETE : "DELETE".toList = DELETE at *
    simp only [he, Bool.not_false, Bool.and_true]
    refine ⟨?_, ?_, ?_, ?_, ?_, ?_, ?_⟩
    · simp only [APIHandler.HandleCreate_calls, APIHandler.HandleRetrieve_calls,
        APIHandler.HandleUpdate_calls, APIHandler.HandleDelete_calls,
        APIHandler.HandleList_calls]
      repeat' split
      all_goals simp
    · intro hm hid
      subst hid
      refine ⟨?_, ?_⟩
      · intro hb
        simp [hm, hb, APIHandler.HandleCreate, APIHandler.HandleCreate_calls,
          BuildResponse_status, reply.bad_request]
      · intro hb
        have hb2 := isEmpty_eq_false_of_ne _ hb
        simp only [hm, decide_True, List.isEmpty_nil, Bool.and_self, if_true,
          APIHandler.HandleCreate, APIHandler.HandleCreate_calls, hb2, Bool.false_eq_true,
          if_false, true_and]
        by_cases hc : ep.CreateEntity entity_type request.body = []
        · simp [hc, BuildResponse_status, reply.internal_server_error]
        · simp [hc, isEmpty_eq_false_of_ne _ hc, BuildResponse_status, reply.ok]
    · intro hm hid
      have hid2 := isEmpty_eq_false_of_ne _ hid
      simp only [hm, hget_post, decide_False, Bool.false_and, Bool.false_eq_true, if_false,
        decide_True, hid2, Bool.not_false, Bool.and_self, if_true,
        APIHandler.HandleRetrieve, APIHandler.HandleRetrieve_calls, true_and]
      cases ep.RetrieveEntity entity_type id <;>
        simp [BuildResponse_status, reply.ok, reply.not_found]
    · intro hm hid
      have hid2 := isEmpty_eq_false_of_ne _ hid
      refine ⟨?_, ?_⟩
      · intro hb
        simp [hm, hput_post, hput_get, hid2, hb, APIHandler.HandleUpdate,
          APIHandler.HandleUpdate_calls, BuildResponse_status, reply.bad_request]
      · intro hb
        have hb2 := isEmpty_eq_false_of_ne _ hb
        simp only [hm, hput_post, hput_get, decide_False, Bool.false_and, Bool.false_eq_true,
          if_false, decide_True, hid2, Bool.not_false, Bool.and_self, if_true,
          APIHandler.HandleUpdate, APIHandler.HandleUpdate_calls, hb2, true_and]
        cases ep.UpdateEntity entity_type id request.body <;>
          simp [BuildResponse_status, reply.ok, reply.not_found]
    · intro hm hid
      have hid2 := isEmpty_eq_false_of_ne _ hid
      simp only [hm, hdel_post, hdel_get, hdel_put, decide_False, Bool.false_and,
        Bool.false_eq_true, if_false, decide_True, hid2, Bool.not_false, Bool.and_self,
        if_true, APIHandler.HandleDelete, APIHandler.HandleDelete_calls, true_and]
      cases ep.DeleteEntity entity_type id <;>
        simp [BuildResponse_status, reply.ok, reply.not_found]
    · intro hm hid
      subst hid
      simp only [hm, hget_post, hget_put, hget_del, decide_False, Bool.false_and,
        Bool.false_eq_true, if_false, decide_True, List.isEmpty_nil, Bool.not_true,
        Bool.and_false, Bool.and_self, if_true, APIHandler.HandleList,
        APIHandler.HandleList_calls, true_and]
      cases ep.ListEntities entity_type <;>
        simp [BuildResponse_status, reply.ok, reply.not_found]
    · intro h1 h2 h3 h4
      have hid : id.isEmpty = true ↔ id = [] := by cases id <;> simp
      by_cases hidc : id = []
      · subst hidc
        have h1' : ¬ request.method = POST := fun x => h1 ⟨x, rfl⟩
        simp [h1', h2, BuildResponse_status, reply.not_found]
      · have hid2 := isEmpty_eq_false_of_ne _ hidc
        have h3' : ¬ request.method = PUT := fun x => h3 ⟨x, hidc⟩
        have h4' : ¬ request.method = DELETE := fun x => h4 ⟨x, hidc⟩
        simp [h2, h3', h4', hid2, BuildResponse_status, reply.not_found]

/-- Witness of C21: under the prefix `/api`, a `GET` of `/api/Shoes/1` calls
`RetrieveEntity("Shoes", "1")` and nothing else and is answered with 200, and a `GET`
of `/api/Shoes/9`, which the processor does not find, with 404. -/
theorem APIHandler_dispatch_witness :
    (APIHandler.handle_request_calls "/api".toList
          (simple_request "GET".toList "/api/Shoes/1".toList [])
        = [EntityProcessorCall.RetrieveEntity "Shoes".toList "1".toList]
      ∧ (APIHandler.handle_request "/api".toList one_entity_processor
          (simple_request "GET".toList "/api/Shoes/1".toList [])).status = 200)
      ∧ (APIHandler.handle_request "/api".toList one_entity_processor
          (simple_request "GET".toList "/api/Shoes/9".toList [])).status = 404 :=
  ⟨((APIHandler_dispatch "/api".toList one_entity_processor
        (simple_request "GET".toList "/api/Shoes/1".toList [])).2
      "Shoes".toList "1".toList (by decide)).2.2.1 rfl (by decide),
   (((APIHandler_dispatch "/api".toList one_entity_processor
        (simple_request "GET".toList "/api/Shoes/9".toList [])).2
      "Shoes".toList "9".toList (by decide)).2.2.1 rfl (by decide)).2⟩

/-! ## The search `std::string::find` -/

theorem findAux_eq_some_iff (sub s : Str) (i k : Nat) :
    findAux sub s i = some k
      ↔ ∃ j, k = i + j ∧ j ≤ s.length ∧ sub <+: s.drop j
          ∧ ∀ j2, j2 < j → ¬ sub <+: s.drop j2 := by
  induction s generalizing i with
  | nil =>
    simp only [findAux, List.length_nil, Nat.le_zero, List.drop_nil, List.prefix_nil]
    constructor
    · intro h
      split at h
      · rename_i he
        simp only [Option.some.injEq] at h
        exact ⟨0, by omega, rfl, by simpa using he, fun j2 hj => absurd hj (Nat.not_lt_zero _)⟩
      · exact absurd h (by simp)
    · rintro ⟨j, hk, hj, hs, _⟩
      subst hj
      subst hs
      simp [hk]
  | cons c cs ih =>
    simp only [findAux, List.isPrefixOf_iff_prefix]
    by_cases hp : sub <+: c :: cs
    · simp only [hp, if_true, Option.some.injEq]
      constructor
      · intro h
        exact ⟨0, by omega, Nat.zero_le _, hp, fun j2 hj => absurd hj (Nat.not_lt_zero _)⟩
      · rintro ⟨j, hk, _, _, hmin⟩
        cases j with
        | zero => omega
        | succ j => exact absurd hp (hmin 0 (Nat.succ_pos _))
    · simp only [hp, if_false, ih]
      constructor
      · rintro ⟨j, hk, hj, hs, hmin⟩
        refine ⟨j + 1, by omega, by simp [hj], hs, ?_⟩
        intro j2 hj2
        cases j2 with
        | zero => exact hp
        | succ j2 => exact hmin j2 (by omega)
      · rintro ⟨j, hk, hj, hs, hmin⟩
        cases j with
        | zero => exact absurd hs hp
        | succ j =>
          refine ⟨j, by omega, by simpa using hj, hs, ?_⟩
          intro j2 hj2
          exact hmin (j2 + 1) (by omega)

theorem findAux_eq_none_iff (sub s : Str) (i : Nat) :
    findAux sub s i = none ↔ ∀ j, j ≤ s.length → ¬ sub <+: s.drop j := by
  induction s generalizing i with
  | nil =>
    simp only [findAux, List.length_nil, Nat.le_zero, List.drop_nil, List.prefix_nil]
    constructor
    · intro h j _
      split at h
      · exact absurd h (by simp)
      · rename_i he
        simpa using he
    · intro h
      have := h 0 rfl
      simp [this]
  | cons c cs ih =>
    simp only [findAux, List.isPrefixOf_iff_prefix]
    by_cases hp : sub <+: c :: cs
    · simp only [hp, if_true]
      constructor
      · intro h
        exact absurd h (by simp)
      · intro h
        exact absurd hp (h 0 (Nat.zero_le _))
    · simp only [hp, if_false, ih]
      constructor
      · intro h j hj
        cases j with
        | zero => exact hp
        | succ j => exact h j (by simpa using hj)
      · intro h j hj
        exact h (j + 1) (by simpa using hj)

/-- The call `s.find(sub, pos)` returns `i` exactly when `i` is the first position from
`pos` on at which `sub` starts. -/
theorem find_eq_some_iff (s sub : Str) (pos i : Nat) :
    find s sub pos = some i
      ↔ pos ≤ i ∧ i ≤ s.length ∧ sub <+: s.drop i
          ∧ ∀ j, pos ≤ j → j < i → ¬ sub <+: s.drop j := by
  unfold find
  by_cases hpos : pos > s.length
  · simp only [hpos, if_true]
    constructor
    · intro h
      exact absurd h (by simp)
    · rintro ⟨h1, h2, _, _⟩
      omega
  · simp only [hpos, if_false, findAux_eq_some_iff, List.drop_drop, List.length_drop]
    constructor
    · rintro ⟨j, hk, hj, hs, hmin⟩
      subst hk
      refine ⟨by omega, by omega, hs, ?_⟩
      intro j2 h1 h2
      have := hmin (j2 - pos) (by omega)
      rwa [show pos + (j2 - pos) = j2 by omega] at this
    · rintro ⟨h1, h2, hs, hmin⟩
      refine ⟨i - pos, by omega, by omega, ?_, ?_⟩
      · rwa [show pos + (i - pos) = i by omega]
      · intro j2 hj2
        exact hmin (pos + j2) (by omega) (by omega)

/-- The call `s.find(sub, pos)` returns `npos` exactly when `sub` starts at no position
from `pos` on. -/
theorem find_eq_npos_iff (s sub : Str) (pos : Nat) :
    find s sub pos = none
      ↔ ∀ j, pos ≤ j → j ≤ s.length → ¬ sub <+: s.drop j := by
  unfold find
  by_cases hpos : pos > s.length
  · simp only [hpos, if_true, true_iff]
    intro j h1 h2
    omega
  · simp only [hpos, if_false, findAux_eq_none_iff, List.drop_drop, List.length_drop]
    constructor
    · intro h j h1 h2
      have := h (j - pos) (by omega)
      rwa [show pos + (j - pos) = j by omega] at this
    · intro h j hj
      exact h (pos + j) (by omega) (by omega)

theorem findAux_char (c : Char) (s : Str) (i : Nat) :
    findAux [c] s i
      = if c ∈ s then some (i + (s.takeWhile (fun x => decide (x ≠ c))).length) else none := by
  induction s generalizing i with
  | nil => simp [findAux]
  | cons d s ih =>
    by_cases hd : d = c
    · subst hd
      simp [findAux, List.isPrefixOf]
    · have hd2 : ¬ c = d := fun x => hd x.symm
      have hp : List.isPrefixOf [c] (d :: s) = false := by
        simp [List.isPrefixOf, hd2]
      rw [findAux, hp]
      simp only [Bool.false_eq_true, if_false, ih, List.mem_cons, hd2, false_or]
      split
      · simp [List.takeWhile_cons, hd]
        omega
      · rfl

/-- The call `s.find(c)`: the length of the part before the first `c`, `npos` when there
is no `c`. -/
theorem find_char_eq (s : Str) (c : Char) :
    find_char s c
      = if c ∈ s then some (s.takeWhile (fun x => decide (x ≠ c))).length else none := by
  unfold find_char find
  simp [findAux_char]

theorem take_takeWhile_length (p : Char → Bool) (s : Str) :
    s.take (s.takeWhile p).length = s.takeWhile p := by
  induction s with
  | nil => rfl
  | cons d s ih =>
    by_cases hd : p d = true
    · simp [List.takeWhile_cons, hd, ih]
    · simp [List.takeWhile_cons, hd]

theorem drop_takeWhile_length (p : Char → Bool) (s : Str) :
    s.drop (s.takeWhile p).length = s.dropWhile p := by
  induction s with
  | nil => rfl
  | cons d s ih =>
    by_cases hd : p d = true
    · simp [List.takeWhile_cons, List.dropWhile_cons, hd, ih]
    · simp [List.takeWhile_cons, List.dropWhile_cons, hd]

theorem takeWhile_ne_of_not_mem (c : Char) (s : Str) (h : c ∉ s) :
    s.takeWhile (fun x => decide (x ≠ c)) = s
      ∧ s.dropWhile (fun x => decide (x ≠ c)) = [] := by
  induction s with
  | nil => exact ⟨rfl, rfl⟩
  | cons d s ih =>
    simp only [List.mem_cons, not_or] at h
    have hd : d ≠ c := fun x => h.1 x.symm
    obtain ⟨h1, h2⟩ := ih h.2
    simp only [List.takeWhile_cons, List.dropWhile_cons, ne_eq, hd, not_false_eq_true,
      decide_True, if_true]
    exact ⟨by rw [h1], h2⟩

theorem dropWhile_ne_of_mem (c : Char) (s : Str) (h : c ∈ s) :
    s.dropWhile (fun x => decide (x ≠ c))
      = c :: (s.dropWhile (fun x => decide (x ≠ c))).drop 1 := by
  induction s with
  | nil => exact absurd h (List.not_mem_nil c)
  | cons d s ih =>
    by_cases hd : d = c
    · subst hd
      simp [List.dropWhile_cons]
    · have hs : c ∈ s := by
        rcases List.mem_cons.mp h with h1 | h1
        · exact absurd h1.symm hd
        · exact h1
      simp only [List.dropWhile_cons, ne_eq, hd, not_false_eq_true, decide_True, if_true]
      exact ih hs

theorem not_mem_takeWhile_ne (c : Char) (s : Str) :
    c ∉ s.takeWhile (fun x => decide (x ≠ c)) := by
  intro h
  have := List.mem_takeWhile_imp h
  simp at this

/-- The function `ParseUri` in terms of the part of the rest before its first `/`. -/
theorem ParseUri_eq (path_prefix_ uri : Str) :
    APIHandler.ParseUri path_prefix_ uri
      = if path_prefix_ <+: uri
            ∧ (rest_after path_prefix_.length uri).takeWhile (fun x => decide (x ≠ '/')) ≠ []
        then
          some ((rest_after path_prefix_.length uri).takeWhile (fun x => decide (x ≠ '/')),
            ((rest_after path_prefix_.length uri).dropWhile
              (fun x => decide (x ≠ '/'))).drop 1)
        else none := by
  unfold APIHandler.ParseUri
  by_cases hc : compare_eq uri path_prefix_ = true
  · have hp := (compare_eq_iff_starts _ _).mp hc
    simp only [hc, Bool.not_true, Bool.false_eq_true, if_false, hp, true_and]
    have hrest : (if (!(uri.drop path_prefix_.length).isEmpty
          && decide ((uri.drop path_prefix_.length).head? = some '/')) = true
        then (uri.drop path_prefix_.length).drop 1 else uri.drop path_prefix_.length)
        = rest_after path_prefix_.length uri := by
      unfold rest_after
      cases uri.drop path_prefix_.length with
      | nil => simp
      | cons d t => simp
    rw [hrest]
    generalize rest_after path_prefix_.length uri = path
    rw [find_char_eq]
    by_cases hm : '/' ∈ path
    · simp only [hm, if_true, substr, List.drop_zero, take_takeWhile_length,
        drop_takeWhile_length]
      have hd := dropWhile_ne_of_mem '/' path hm
      have hdrop : path.drop ((path.takeWhile (fun x => decide (x ≠ '/'))).length + 1)
          = (path.dropWhile (fun x => decide (x ≠ '/'))).drop 1 := by
        rw [← List.drop_drop, drop_takeWhile_length]
      rw [hdrop]
      by_cases he : path.takeWhile (fun x => decide (x ≠ '/')) = []
      · simp [he]
      · simp [he, isEmpty_eq_false_of_ne _ he]
    · obtain ⟨h1, h2⟩ := takeWhile_ne_of_not_mem '/' path hm
      simp only [hm, if_false, h1, h2, List.drop_nil]
      by_cases he : path = []
      · simp [he]
      · simp [he, isEmpty_eq_false_of_ne _ he]
  · have hp : ¬ path_prefix_ <+: uri := fun x => hc ((compare_eq_iff_starts _ _).mpr x)
    simp [hc, hp]

theorem rest_after_slash (n : Nat) (uri : Str) :
    ∃ slash : Str, (slash = [] ∨ slash = ['/']) ∧ uri.drop n = slash ++ rest_after n uri := by
  unfold rest_after
  cases h : uri.drop n with
  | nil => exact ⟨[], Or.inl rfl, by simp⟩
  | cons d t =>
    by_cases hd : d = '/'
    · subst hd
      exact ⟨['/'], Or.inr rfl, by simp⟩
    · exact ⟨[], Or.inl rfl, by simp [hd]⟩

/-- C28: `ParseUri` succeeds exactly when the path prefix is a byte-wise prefix of the
URI and the rest of the URI, after at most one leading `/` is dropped, has a non-empty
part before its first `/`. On success `entity_type` is that part, is non-empty and holds
no `/`, `id` is everything after that first `/` (empty when there is none), and the URI
is the prefix, an optional `/`, `entity_type`, and then `/` and `id` when the rest holds
a `/`. -/
theorem ParseUri_succeeds_iff (path_prefix_ uri : Str) :
    ((APIHandler.ParseUri path_prefix_ uri).isSome = true
        ↔ path_prefix_ <+: uri
          ∧ (rest_after path_prefix_.length uri).takeWhile (fun x => decide (x ≠ '/')) ≠ [])
      ∧ ∀ entity_type id,
          APIHandler.ParseUri path_prefix_ uri = some (entity_type, id) →
          entity_type
              = (rest_after path_prefix_.length uri).takeWhile (fun x => decide (x ≠ '/'))
            ∧ entity_type ≠ []
            ∧ '/' ∉ entity_type
            ∧ id = ((rest_after path_prefix_.length uri).dropWhile
                (fun x => decide (x ≠ '/'))).drop 1
            ∧ ('/' ∉ rest_after path_prefix_.length uri → id = [])
            ∧ ∃ slash : Str, (slash = [] ∨ slash = ['/'])
                ∧ uri = path_prefix_ ++ slash ++ entity_type
                    ++ (if '/' ∈ rest_after path_prefix_.length uri then '/' :: id
                        else []) := by
  rw [ParseUri_eq]
  refine ⟨?_, ?_⟩
  · split <;> simp_all
  · intro entity_type id h
    split at h
    · rename_i hc
      simp only [Option.some.injEq, Prod.mk.injEq] at h
      obtain ⟨h1, h2⟩ := h
      obtain ⟨hp, hne⟩ := hc
      obtain ⟨slash, hslash, hdrop⟩ := rest_after_slash path_prefix_.length uri
      refine ⟨h1.symm, h1 ▸ hne, h1 ▸ not_mem_takeWhile_ne '/' _, h2.symm, ?_, slash, hslash, ?_⟩
      · intro hm
        rw [← h2, (takeWhile_ne_of_not_mem '/' _ hm).2]
        rfl
      · obtain ⟨t, ht⟩ := hp
        have hu : uri = path_prefix_ ++ uri.drop path_prefix_.length := by
          rw [← ht, List.drop_left]
        rw [hdrop, ← List.append_assoc] at hu
        have hsplit := List.takeWhile_append_dropWhile (fun x => decide (x ≠ '/'))
          (rest_after path_prefix_.length uri)
        by_cases hm : '/' ∈ rest_after path_prefix_.length uri
        · rw [if_pos hm, ← h1, ← h2, ← dropWhile_ne_of_mem '/' _ hm, List.append_assoc,
            List.append_assoc, hsplit, ← List.append_assoc]
          exact hu
        · rw [if_neg hm, ← h1, (takeWhile_ne_of_not_mem '/' _ hm).1, List.append_nil]
          exact hu
    · exact absurd h (by simp)

/-- Witness of C28: under the prefix `/api`, the URI `/api/Shoes/1/../x` gives the entity
type `Shoes` and the id `1/../x`, and `/api//Shoes`, whose rest has nothing before its
first `/` after one `/` is dropped, is rejected. -/
theorem ParseUri_succeeds_iff_witness :
    (APIHandler.ParseUri "/api".toList "/api/Shoes/1/../x".toList
        = some ("Shoes".toList, "1/../x".toList)
      ∧ '/' ∉ "Shoes".toList)
      ∧ (APIHandler.ParseUri "/api".toList "/api//Shoes".toList).isSome ≠ true :=
  ⟨⟨by decide,
    ((ParseUri_succeeds_iff "/api".toList "/api/Shoes/1/../x".toList).2
      "Shoes".toList "1/../x".toList (by decide)).2.2.1⟩,
   fun h => ((ParseUri_succeeds_iff "/api".toList "/api//Shoes".toList).1.mp h).2
      (by decide)⟩

theorem find_ge (s sub : Str) (pos i : Nat) (h : find s sub pos = some i) : pos ≤ i :=
  ((find_eq_some_iff s sub pos i).mp h).1

/-- One iteration of the loop of `parse_multipart_form` that stays in the loop moves the
position forward by the length of the delimiter and four bytes at least. -/
theorem parse_multipart_step_forward (body delimiter : Str) (pos pos2 : Nat)
    (form_data form_data2 : FormData)
    (h : UploadHandler.parse_multipart_step body delimiter pos form_data
      = some (pos2, form_data2)) :
    pos + delimiter.length + 4 ≤ pos2 := by
  unfold UploadHandler.parse_multipart_step at h
  cases h1 : find body delimiter pos with
  | none => simp [h1] at h
  | some boundary_start =>
    simp only [h1] at h
    have hb := find_ge _ _ _ _ h1
    split at h
    · exact absurd h (by simp)
    · rename_i headers_end h2
      have hh := find_ge _ _ _ _ h2
      split at h
      · exact absurd h (by simp)
      · rename_i next_boundary h3
        have hn := find_ge _ _ _ _ h3
        simp only [Option.some.injEq, Prod.mk.injEq] at h
        have hpos : boundary_start + delimiter.length ≤ headers_end := by
          split at hh <;> omega
        omega

/-- The loop of `parse_multipart_form` gives the same form data for every number of
iterations allowed beyond the bytes left in the body: it has left the loop by then. -/
theorem parse_multipart_loop_fuel (body delimiter : Str) (f1 : Nat) :
    ∀ (f2 pos : Nat) (form_data : FormData),
      body.length < pos + f1 → body.length < pos + f2 →
      UploadHandler.parse_multipart_loop body delimiter f1 pos form_data
        = UploadHandler.parse_multipart_loop body delimiter f2 pos form_data := by
  induction f1 with
  | zero =>
    intro f2 pos form_data h1 h2
    cases f2 with
    | zero => rfl
    | succ f2 =>
      have hp : ¬ pos < body.length := by omega
      simp [UploadHandler.parse_multipart_loop, hp]
  | succ f1 ih =>
    intro f2 pos form_data h1 h2
    cases f2 with
    | zero =>
      have hp : ¬ pos < body.length := by omega
      simp [UploadHandler.parse_multipart_loop, hp]
    | succ f2 =>
      simp only [UploadHandler.parse_multipart_loop]
      split
      · cases hs : UploadHandler.parse_multipart_step body delimiter pos form_data with
        | none => rfl
        | some r =>
          obtain ⟨pos2, form_data2⟩ := r
          have := parse_multipart_step_forward body delimiter pos pos2 form_data form_data2 hs
          exact ih f2 pos2 form_data2 (by omega) (by omega)
      · rfl

/-- C29: `parse_multipart_form` terminates for every body and every boundary: an
iteration of its loop that does not leave the loop moves the position forward by at
least the length of the delimiter `--` + boundary, which is at least two, and the loop
has ended after at most `body.length() + 1` iterations, so that allowing more of them
does not change the result. -/
theorem parse_multipart_form_terminates (body boundary : Str) :
    (∀ (pos pos2 : Nat) (form_data form_data2 : FormData),
        UploadHandler.parse_multipart_step body ("--".toList ++ boundary) pos form_data
            = some (pos2, form_data2) →
          pos + ("--".toList ++ boundary).length ≤ pos2 ∧ pos < pos2)
      ∧ ∀ (fuel : Nat) (form_data : FormData), body.length + 1 ≤ fuel →
          UploadHandler.parse_multipart_loop body ("--".toList ++ boundary) fuel 0 form_data
            = (UploadHandler.parse_multipart_form body boundary form_data).2 := by
  refine ⟨?_, ?_⟩
  · intro pos pos2 form_data form_data2 h
    have := parse_multipart_step_forward body _ pos pos2 form_data form_data2 h
    constructor <;> omega
  · intro fuel form_data hf
    unfold UploadHandler.parse_multipart_form
    exact parse_multipart_loop_fuel body _ fuel (body.length + 1) 0 form_data
      (by omega) (by omega)

/-- Witness of C29: on a short body with the boundary `B`, the first iteration moves the
position from 0 to 24, and 1000 iterations allowed give the result of
`parse_multipart_form`. -/
theorem parse_multipart_form_terminates_witness :
    UploadHandler.parse_multipart_step short_form_body ("--".toList ++ "B".toList) 0
        empty_form_data
      = some (24, { empty_form_data with title := "T".toList })
      ∧ (0 + ("--".toList ++ "B".toList).length ≤ 24 ∧ 0 < 24)
      ∧ UploadHandler.parse_multipart_loop short_form_body ("--".toList ++ "B".toList) 1000 0
          empty_form_data
        = (UploadHandler.parse_multipart_form short_form_body "B".toList empty_form_data).2 :=
  ⟨by decide,
   (parse_multipart_form_terminates short_form_body "B".toList).1 0 24 empty_form_data
      { empty_form_data with title := "T".toList } (by decide),
   (parse_multipart_form_terminates short_form_body "B".toList).2 1000 empty_form_data
      (by decide)⟩

open entity_processor

/-! ## Decimal numerals -/

/-- C22 (the code at the failing input): in a directory whose only entry is named
`12abc`, which is not a decimal integer, `std::stoi` reads 12 from the name and
`CreateEntity` returns the id `13`, not `1`; the entry `abc` of the test
`NonNumericFilenamesAreIgnored` is skipped, and three creations on a fresh entity type
return `1`, `2` and `3`. -/
theorem CreateEntity_counts_numeric_prefix :
    stoi "12abc".toList = .ok 12
      ∧ CreateEntity (.directory ["12abc".toList]) willing "\x7b\x7d".toList
        = ("13".toList, .directory ["12abc".toList, "13".toList])
      ∧ CreateEntity (.directory ["abc".toList]) willing "\x7b\x7d".toList
        = ("1".toList, .directory ["abc".toList, "1".toList])
      ∧ CreateEntity_calls .missing [willing, willing, willing]
        = (["1".toList, "2".toList, "3".toList],
            .directory ["1".toList, "2".toList, "3".toList]) :=
  ⟨rfl, by decide, by decide, by decide⟩

/-- The call `s.find(sub)` finds a position exactly when `sub` occurs in `s`. -/
theorem find_isSome_iff_contains (s sub : Str) : (find s sub 0).isSome = true ↔ sub <:+: s := by
  constructor
  · intro h
    obtain ⟨i, hi⟩ := Option.isSome_iff_exists.mp h
    obtain ⟨_, _, ⟨t, ht⟩, _⟩ := (find_eq_some_iff s sub 0 i).mp hi
    refine ⟨s.take i, t, ?_⟩
    rw [List.append_assoc, ht, List.take_append_drop]
  · rintro ⟨a, b, hab⟩
    by_contra hn
    have hnone : find s sub 0 = none := by
      cases hf : find s sub 0 with
      | none => rfl
      | some i => rw [hf] at hn; exact absurd rfl hn
    have := (find_eq_npos_iff s sub 0).mp hnone a.length (Nat.zero_le _)
      (by rw [← hab]; simp)
    apply this
    rw [← hab, List.append_assoc, List.drop_left]
    exact ⟨b, rfl⟩

/-- The function `parse_uri` accepts `/view/` followed by an id that is not empty, holds
no `..` and does not begin with `/`. -/
theorem parse_uri_eq_some_iff (uri id : Str) :
    TextViewHandler.parse_uri uri = some id
      ↔ uri = "/view/".toList ++ id ∧ id ≠ [] ∧ ¬ "..".toList <:+: id
          ∧ id.head? ≠ some '/' := by
  have hinfix : ∀ t : Str, (find t "..".toList 0).isSome = true ↔ "..".toList <:+: t :=
    fun t => find_isSome_iff_contains t _
  have hdrop : ∀ t : Str, List.drop 6 ("/view/".toList ++ t) = t :=
    fun t => List.drop_left "/view/".toList t
  unfold TextViewHandler.parse_uri
  constructor
  · intro h
    dsimp only at h
    split_ifs at h with hc hbad
    simp only [Bool.and_eq_true, decide_eq_true_eq] at hc
    obtain ⟨t, ht⟩ := List.isPrefixOf_iff_prefix.mp hc.1
    subst ht
    rw [hdrop] at h hbad
    simp only [Option.some.injEq] at h
    subst h
    simp only [Bool.or_eq_true, decide_eq_true_eq, hinfix, not_or] at hbad
    refine ⟨rfl, ?_, hbad.1, hbad.2⟩
    intro hnil
    subst hnil
    exact absurd hc.2 (by decide)
  · rintro ⟨h1, h2, h3, h4⟩
    subst h1
    have hc : ("/view/".toList.isPrefixOf ("/view/".toList ++ id)
        && decide (("/view/".toList ++ id).length > 6)) = true := by
      simp only [Bool.and_eq_true, decide_eq_true_eq]
      refine ⟨List.isPrefixOf_iff_prefix.mpr ⟨id, rfl⟩, ?_⟩
      cases id with
      | nil => exact absurd rfl h2
      | cons c t =>
        rw [List.length_append]
        show 6 + (t.length + 1) > 6
        omega
    have hbad : ¬ ((find id "..".toList 0).isSome || decide (id.head? = some '/')) = true := by
      simp only [Bool.or_eq_true, decide_eq_true_eq, hinfix, not_or]
      exact ⟨h3, h4⟩
    dsimp only
    rw [if_pos hc, hdrop, if_neg hbad]

/-- C26: `TextViewHandler::handle_request` accesses a file only when the URL-decoded
URI is `/view/` followed by an id that is not empty, holds no `..` and does not begin
with `/`; every other request is answered with 400 without a file access, also the
percent-encoded path `/view/%2e%2e/etc/passwd`, in which `%2e` decodes to `.`. -/
theorem TextViewHandler_reads_valid_ids_only (w : World) (view_dir_ : Str)
    (request : request) :
    (TextViewHandler.handle_request_accesses w view_dir_ request ≠ [] →
        ∃ id, urlDecode w request.uri = "/view/".toList ++ id ∧ id ≠ []
          ∧ ¬ "..".toList <:+: id ∧ id.head? ≠ some '/'
          ∧ ∀ a ∈ TextViewHandler.handle_request_accesses w view_dir_ request,
              a = FileAccess.read_file id ∨ a = FileAccess.read_pdf id)
      ∧ ((¬ ∃ id, urlDecode w request.uri = "/view/".toList ++ id ∧ id ≠ []
            ∧ ¬ "..".toList <:+: id ∧ id.head? ≠ some '/') →
          (TextViewHandler.handle_request w view_dir_ request).status = 400
            ∧ TextViewHandler.handle_request_accesses w view_dir_ request = [])
      ∧ (w.hex_value '2' 'e' = '.' →
          (TextViewHandler.handle_request w view_dir_
              { request with uri := "/view/%2e%2e/etc/passwd".toList }).status = 400
            ∧ TextViewHandler.handle_request_accesses w view_dir_
              { request with uri := "/view/%2e%2e/etc/passwd".toList } = []) := by
  have hbad : ∀ r : Marko.request,
      TextViewHandler.parse_uri (urlDecode w r.uri) = none →
      (TextViewHandler.handle_request w view_dir_ r).status = 400
        ∧ TextViewHandler.handle_request_accesses w view_dir_ r = [] := by
    intro r h
    simp [TextViewHandler.handle_request, TextViewHandler.handle_request_accesses, h,
      BuildResponse_status, reply.bad_request]
  refine ⟨?_, ?_, ?_⟩
  · intro h
    cases hp : TextViewHandler.parse_uri (urlDecode w request.uri) with
    | none => exact absurd (hbad request hp).2 h
    | some id =>
      obtain ⟨h1, h2, h3, h4⟩ := (parse_uri_eq_some_iff _ _).mp hp
      refine ⟨id, h1, h2, h3, h4, ?_⟩
      intro a ha
      simp only [TextViewHandler.handle_request_accesses, hp] at ha
      repeat' split at ha
      all_goals simp at ha
      all_goals tauto
  · intro h
    apply hbad
    cases hp : TextViewHandler.parse_uri (urlDecode w request.uri) with
    | none => rfl
    | some id => exact absurd ⟨id, (parse_uri_eq_some_iff _ _).mp hp⟩ h
  · intro hx
    apply hbad
    have hd : urlDecode w "/view/%2e%2e/etc/passwd".toList = "/view/../etc/passwd".toList := by
      simp [urlDecode, hx]
    show TextViewHandler.parse_uri (urlDecode w "/view/%2e%2e/etc/passwd".toList) = none
    rw [hd]
    decide

/-- Witness of C26: in a world with the file `notes.txt`, the request for
`/view/notes.txt` reads that file, and the request for `/view/%2e%2e/etc/passwd` is
answered with 400 and reads nothing. -/
theorem TextViewHandler_reads_valid_ids_only_witness :
    (∃ id, urlDecode view_world "/view/notes.txt".toList = "/view/".toList ++ id ∧ id ≠ []
        ∧ ¬ "..".toList <:+: id ∧ id.head? ≠ some '/'
        ∧ ∀ a ∈ TextViewHandler.handle_request_accesses view_world "./files".toList
              (simple_request "GET".toList "/view/notes.txt".toList []),
            a = FileAccess.read_file id ∨ a = FileAccess.read_pdf id)
      ∧ ((TextViewHandler.handle_request view_world "./files".toList
            (simple_request "GET".toList "/view/%2e%2e/etc/passwd".toList [])).status = 400
        ∧ TextViewHandler.handle_request_accesses view_world "./files".toList
            (simple_request "GET".toList "/view/%2e%2e/etc/passwd".toList []) = []) :=
  ⟨(TextViewHandler_reads_valid_ids_only view_world "./files".toList
      (simple_request "GET".toList "/view/notes.txt".toList [])).1 (by decide),
   (TextViewHandler_reads_valid_ids_only view_world "./files".toList
      (simple_request "GET".toList "/view/%2e%2e/etc/passwd".toList [])).2.2 (by decide)⟩

theorem findAux_shift (sub s : Str) (a i : Nat) :
    findAux sub s (a + i) = (findAux sub s i).map (fun k => a + k) := by
  induction s generalizing i with
  | nil => simp only [findAux]; split_ifs <;> rfl
  | cons c cs ih =>
    simp only [findAux]
    split_ifs
    · rfl
    · exact ih (i + 1)

theorem find_shift (pre s sub : Str) (p : Nat) :
    find (pre ++ s) sub (pre.length + p) = (find s sub p).map (fun k => pre.length + k) := by
  unfold find
  have hd : List.drop (pre.length + p) (pre ++ s) = List.drop p s := by
    rw [← List.drop_drop, List.drop_left]
  by_cases h : p > s.length
  · have h2 : pre.length + p > (pre ++ s).length := by rw [List.length_append]; omega
    simp only [h, h2, if_true, Option.map]
  · have h2 : ¬ pre.length + p > (pre ++ s).length := by rw [List.length_append]; omega
    simp only [h, h2, if_false, hd]
    exact findAux_shift sub _ pre.length p

theorem substr_shift (pre s : Str) (p n : Nat) :
    substr (pre ++ s) (pre.length + p) n = substr s p n := by
  unfold substr
  rw [← List.drop_drop, List.drop_left]

theorem findAux_skip (c : Char) (sub pre rest : Str) (i : Nat) (h : c ∉ pre) :
    findAux (c :: sub) (pre ++ rest) i = findAux (c :: sub) rest (i + pre.length) := by
  induction pre generalizing i with
  | nil => rfl
  | cons x xs ih =>
    have hx : x ≠ c := fun e => h (e ▸ List.mem_cons_self _ _)
    have hxs : c ∉ xs := fun e => h (List.mem_cons_of_mem _ e)
    simp only [List.cons_append, findAux, List.isPrefixOf]
    have : (c == x) = false := by simpa using fun e => hx e.symm
    simp only [this, Bool.false_and, if_false, Bool.false_eq_true]
    show findAux (c :: sub) (xs ++ rest) (i + 1) = _
    rw [ih (i + 1) hxs, List.length_cons]
    congr 1
    omega

theorem find_of_prefix (s sub : Str) (h : sub <+: s) : find s sub 0 = some 0 :=
  (find_eq_some_iff s sub 0 0).mpr ⟨le_refl _, Nat.zero_le _, h, fun j h1 h2 => by omega⟩

end Marko
namespace Marko

theorem parse_multipart_step_shift (pre s d : Str) (p : Nat) (fd : FormData) :
    UploadHandler.parse_multipart_step (pre ++ s) d (pre.length + p) fd
      = (UploadHandler.parse_multipart_step s d p fd).map
          (fun r => (pre.length + r.1, r.2)) := by
  unfold UploadHandler.parse_multipart_step
  rw [find_shift]
  cases find s d p with
  | none => rfl
  | some b =>
    dsimp only [Option.map]
    have hq : (if pre.length + b + d.length + 1 < (pre ++ s).length
          && substr (pre ++ s) (pre.length + b + d.length) 2 = "\r\n".toList
        then pre.length + b + d.length + 2 else pre.length + b + d.length)
        = pre.length + (if b + d.length + 1 < s.length
          && substr s (b + d.length) 2 = "\r\n".toList
        then b + d.length + 2 else b + d.length) := by
      have e : pre.length + b + d.length = pre.length + (b + d.length) := by omega
      rw [e, substr_shift, List.length_append]
      have e2 : decide (pre.length + (b + d.length) + 1 < pre.length + s.length)
          = decide (b + d.length + 1 < s.length) := by
        apply decide_eq_decide.mpr; constructor <;> intro h <;> omega
      rw [e2]
      split_ifs <;> omega
    rw [hq]
    generalize (if b + d.length + 1 < s.length
          && substr s (b + d.length) 2 = "\r\n".toList
        then b + d.length + 2 else b + d.length) = q
    rw [find_shift]
    cases find s "\r\n\r\n".toList q with
    | none => rfl
    | some he =>
      dsimp only [Option.map]
      have e3 : pre.length + he + 4 = pre.length + (he + 4) := by omega
      have e4 : pre.length + he - (pre.length + q) = he - q := by omega
      rw [e3, find_shift, e4, substr_shift]
      cases find s d (he + 4) with
      | none => rfl
      | some nb =>
        dsimp only [Option.map]
        have e5 : pre.length + nb - (pre.length + (he + 4)) = nb - (he + 4) := by omega
        rw [e5, substr_shift]

end Marko
namespace Marko

theorem prefix_of_prefix_append_cons (d a u : Str) (c : Char) (hc : c ∉ d)
    (h : d <+: a ++ c :: u) : d <+: a := by
  have ha : a <+: a ++ c :: u := List.prefix_append _ _
  by_cases hl : d.length ≤ a.length
  · exact List.prefix_of_prefix_length_le h ha hl
  · exfalso
    have hac : a ++ [c] <+: a ++ c :: u := ⟨u, by simp⟩
    have : a ++ [c] <+: d :=
      List.prefix_of_prefix_length_le hac h (by simp; omega)
    exact hc (this.subset (by simp))

theorem find_after_content (d X rest : Str) (t : Str) (hd : d = '-' :: t) (hr : '\r' ∉ d)
    (hX : ¬ d <:+: X) :
    find (X ++ ("\r\n".toList ++ (d ++ rest))) d 0 = some (X.length + 2) := by
  rw [find_eq_some_iff]
  refine ⟨Nat.zero_le _, by simp, ?_, ?_⟩
  · rw [List.drop_append]
    exact List.prefix_append _ _
  · intro j _ hj hp
    by_cases h1 : j < X.length
    · rw [List.drop_append_of_le_length (le_of_lt h1)] at hp
      have := prefix_of_prefix_append_cons d (X.drop j) _ '\r' hr hp
      exact hX (this.isInfix.trans (List.drop_suffix j X).isInfix)
    · obtain ⟨k, hk⟩ : ∃ k, j = X.length + k := ⟨j - X.length, by omega⟩
      subst hk
      rw [List.drop_append, hd] at hp
      have hk2 : k = 0 ∨ k = 1 := by omega
      rcases hk2 with rfl | rfl
      · obtain ⟨u, hu⟩ := hp
        cases hu
      · obtain ⟨u, hu⟩ := hp
        cases hu

theorem find_at_append (pre s sub : Str) (n : Nat) (hn : n = pre.length) :
    find (pre ++ s) sub n = (find s sub 0).map (fun k => pre.length + k) := by
  subst hn
  exact find_shift pre s sub 0

theorem substr_at_append (pre s : Str) (n m : Nat) (hn : n = pre.length) :
    substr (pre ++ s) n m = s.take m := by
  subst hn
  exact substr_shift pre s 0 m

end Marko
namespace Marko

theorem strip_content (X : Str) :
    (if (X ++ "\r\n".toList).length ≥ 2
        && (X ++ "\r\n".toList).drop ((X ++ "\r\n".toList).length - 2) = "\r\n".toList then
      substr (X ++ "\r\n".toList) 0 ((X ++ "\r\n".toList).length - 2)
    else X ++ "\r\n".toList) = X := by
  have hl : (X ++ "\r\n".toList).length - 2 = X.length := by
    rw [List.length_append]; rfl
  rw [hl, List.drop_left, substr, List.drop_zero, List.take_left]
  have : (X ++ "\r\n".toList).length ≥ 2 := by rw [List.length_append]; exact Nat.le_add_left _ _
  simp only [this, decide_True, Bool.and_self, if_true]

/-- One iteration of the loop of `parse_multipart_form` on a part that starts at the
position of the iteration and is followed by a delimiter. -/
theorem parse_multipart_step_part (d t H X rest pre : Str) (form_data : FormData)
    (hd : d = '-' :: t) (hr : '\r' ∉ d)
    (hH : ∀ tail, find (H ++ ("\r\n\r\n".toList ++ tail)) "\r\n\r\n".toList 0 = some H.length)
    (hX : ¬ d <:+: X) :
    UploadHandler.parse_multipart_step
        (pre ++ (d ++ "\r\n".toList ++ H ++ "\r\n\r\n".toList ++ X ++ "\r\n".toList
          ++ (d ++ rest))) d pre.length form_data
      = some (pre.length
            + (d ++ "\r\n".toList ++ H ++ "\r\n\r\n".toList ++ X ++ "\r\n".toList).length,
          if (find H "name=\"file\"".toList 0).isSome then
            UploadHandler.parse_file_field H X form_data
          else if (find H "name=\"course_code\"".toList 0).isSome then
            { form_data with course_code := X }
          else if (find H "name=\"title\"".toList 0).isSome then
            { form_data with title := X }
          else form_data) := by
  have hs := parse_multipart_step_shift pre
    (d ++ "\r\n".toList ++ H ++ "\r\n\r\n".toList ++ X ++ "\r\n".toList ++ (d ++ rest)) d 0
    form_data
  rw [Nat.add_zero] at hs
  rw [hs]
  clear hs
  generalize hsdef : d ++ "\r\n".toList ++ H ++ "\r\n\r\n".toList ++ X ++ "\r\n".toList
    ++ (d ++ rest) = s
  have s1 : s = d ++ ("\r\n".toList ++ (H ++ ("\r\n\r\n".toList ++ (X ++ ("\r\n".toList
      ++ (d ++ rest)))))) := by
    rw [← hsdef]; simp only [List.append_assoc]
  have s2 : s = (d ++ "\r\n".toList) ++ (H ++ ("\r\n\r\n".toList ++ (X ++ ("\r\n".toList
      ++ (d ++ rest))))) := by
    rw [← hsdef]; simp only [List.append_assoc]
  have s3 : s = (d ++ "\r\n".toList ++ H ++ "\r\n\r\n".toList) ++ (X ++ ("\r\n".toList
      ++ (d ++ rest))) := by
    rw [← hsdef]; simp only [List.append_assoc]
  have h1 : find s d 0 = some 0 := find_of_prefix s d ⟨_, s1.symm⟩
  have h2 : substr s (0 + d.length) 2 = "\r\n".toList := by
    rw [s1, substr_at_append _ _ _ _ (Nat.zero_add _)]; rfl
  have hlen : 0 + d.length + 1 < s.length := by
    rw [s1]; simp only [List.length_append]
    have : ("\r\n".toList).length = 2 := rfl
    omega
  have l2 : ("\r\n".toList).length = 2 := rfl
  have l4 : ("\r\n\r\n".toList).length = 4 := rfl
  have p2 : (d ++ "\r\n".toList).length = d.length + 2 := by
    simp only [List.length_append, l2]
  have p3 : (d ++ "\r\n".toList ++ H ++ "\r\n\r\n".toList).length
      = d.length + 2 + H.length + 4 := by
    simp only [List.length_append, l2, l4]
  have h3 : find s "\r\n\r\n".toList (0 + d.length + 2) = some (d.length + 2 + H.length) := by
    rw [s2, find_at_append _ _ _ _ (by rw [p2, Nat.zero_add]), hH, p2]
    rfl
  have h4 : substr s (0 + d.length + 2) (d.length + 2 + H.length - (0 + d.length + 2)) = H := by
    rw [s2, substr_at_append _ _ _ _ (by rw [p2, Nat.zero_add])]
    have : d.length + 2 + H.length - (0 + d.length + 2) = H.length := by omega
    rw [this, List.take_left]
  have h5 : find s d (d.length + 2 + H.length + 4)
      = some (d.length + 2 + H.length + 4 + (X.length + 2)) := by
    rw [s3, find_at_append _ _ _ _ p3.symm,
      find_after_content d X rest t hd hr hX, p3]
    rfl
  have h6 : substr s (d.length + 2 + H.length + 4)
      (d.length + 2 + H.length + 4 + (X.length + 2) - (d.length + 2 + H.length + 4))
      = X ++ "\r\n".toList := by
    rw [s3, substr_at_append _ _ _ _ p3.symm]
    have : d.length + 2 + H.length + 4 + (X.length + 2) - (d.length + 2 + H.length + 4)
        = (X ++ "\r\n".toList).length := by rw [List.length_append, l2]; omega
    rw [this, ← List.append_assoc, List.take_left]
  have hlen2 : d.length + 2 + H.length + 4 + (X.length + 2)
      = (d ++ "\r\n".toList ++ H ++ "\r\n\r\n".toList ++ X ++ "\r\n".toList).length := by
    simp only [List.length_append, l2, l4]
    omega
  unfold UploadHandler.parse_multipart_step
  rw [h1]
  dsimp only
  simp only [hlen, h2, decide_True, Bool.and_self, if_true]
  rw [h3]
  dsimp only
  rw [h4, h5]
  dsimp only
  rw [h6, strip_content, hlen2]
  rfl

theorem findAux_of_prefix (sub s : Str) (i : Nat) (h : sub <+: s) : findAux sub s i = some i :=
  (findAux_eq_some_iff sub s i i).mpr ⟨0, rfl, Nat.zero_le _, h, fun j h2 => by omega⟩

theorem find_headers_end_no_cr (H : Str) (h : '\r' ∉ H) (tail : Str) :
    find (H ++ ("\r\n\r\n".toList ++ tail)) "\r\n\r\n".toList 0 = some H.length := by
  unfold find
  rw [if_neg (by omega), List.drop_zero]
  show findAux ('\r' :: "\n\r\n".toList) _ 0 = _
  rw [findAux_skip '\r' _ H _ 0 h, Nat.zero_add]
  exact findAux_of_prefix _ _ _ (List.prefix_append _ _)

theorem find_headers_end_file_part (F : Str) (h : '\r' ∉ F) (tail : Str) :
    find (file_part_headers F ++ ("\r\n\r\n".toList ++ tail)) "\r\n\r\n".toList 0
      = some (file_part_headers F).length := by
  have e : file_part_headers F ++ ("\r\n\r\n".toList ++ tail)
      = ("Content-Disposition: form-data; name=\"file\"; filename=\"".toList ++ F
          ++ "\"".toList)
        ++ ('\r' :: '\n' :: ("Content-Type: text/plain".toList
          ++ ("\r\n\r\n".toList ++ tail))) := by
    simp [file_part_headers]
  have hl : (file_part_headers F).length
      = 0 + ("Content-Disposition: form-data; name=\"file\"; filename=\"".toList ++ F
          ++ "\"".toList).length + 1 + 1 + ("Content-Type: text/plain".toList).length := by
    simp [file_part_headers]
  have hm : '\r' ∉ "Content-Disposition: form-data; name=\"file\"; filename=\"".toList ++ F
      ++ "\"".toList := by
    intro hm
    rcases List.mem_append.mp hm with hm | hm
    · rcases List.mem_append.mp hm with hm | hm
      · revert hm; decide
      · exact h hm
    · revert hm; decide
  rw [e, hl]
  unfold find
  rw [if_neg (by omega), List.drop_zero]
  show findAux ('\r' :: "\n\r\n".toList) _ 0 = _
  rw [findAux_skip '\r' _ _ _ 0 hm]
  generalize 0 + ("Content-Disposition: form-data; name=\"file\"; filename=\"".toList ++ F
      ++ "\"".toList).length = n
  have e2 : findAux ('\r' :: "\n\r\n".toList)
      ('\r' :: '\n' :: ("Content-Type: text/plain".toList ++ ("\r\n\r\n".toList ++ tail))) n
      = findAux ('\r' :: "\n\r\n".toList)
          ("Content-Type: text/plain".toList ++ ("\r\n\r\n".toList ++ tail)) (n + 1 + 1) := by
    simp [findAux, List.isPrefixOf]
  rw [e2, findAux_skip '\r' _ _ _ _ (by decide)]
  exact findAux_of_prefix _ _ _ (List.prefix_append _ _)

theorem parse_file_field_fields (H X : Str) (form_data : FormData) (k e : Nat)
    (h1 : find H "filename=\"".toList 0 = some k)
    (h2 : find H "\"".toList (k + 10) = some e) :
    (UploadHandler.parse_file_field H X form_data).filename = substr H (k + 10) (e - (k + 10))
      ∧ (UploadHandler.parse_file_field H X form_data).content = X := by
  unfold UploadHandler.parse_file_field
  rw [h1]
  dsimp only
  rw [h2]
  dsimp only
  cases find H "Content-Type: ".toList 0 with
  | none => exact ⟨rfl, rfl⟩
  | some c =>
    dsimp only
    cases find H "\r\n".toList (c + 14) with
    | none => exact ⟨rfl, rfl⟩
    | some c2 => exact ⟨rfl, rfl⟩

theorem find_filename_file_part (F : Str) :
    find (file_part_headers F) "filename=\"".toList 0 = some 45 := by
  simp [file_part_headers, find, findAux, List.isPrefixOf]

theorem find_quote_file_part (F : Str) (h : '"' ∉ F) :
    find (file_part_headers F) "\"".toList (45 + 10) = some (55 + F.length) := by
  have e : file_part_headers F
      = "Content-Disposition: form-data; name=\"file\"; filename=\"".toList
        ++ (F ++ "\"\r\nContent-Type: text/plain".toList) := by
    simp [file_part_headers]
  rw [e, find_at_append ("Content-Disposition: form-data; name=\"file\"; filename=\"".toList) _ _
      (45 + 10) rfl]
  unfold find
  rw [if_neg (by omega), List.drop_zero]
  show Option.map _ (findAux ('"' :: []) _ 0) = _
  rw [findAux_skip '"' _ _ _ 0 h,
    findAux_of_prefix ['"'] "\"\r\nContent-Type: text/plain".toList _
      ⟨"\r\nContent-Type: text/plain".toList, rfl⟩, Nat.zero_add]
  show some (55 + F.length) = _
  rfl

theorem substr_filename_file_part (F : Str) :
    substr (file_part_headers F) (45 + 10) (55 + F.length - (45 + 10)) = F := by
  have e : file_part_headers F
      = "Content-Disposition: form-data; name=\"file\"; filename=\"".toList
        ++ (F ++ "\"\r\nContent-Type: text/plain".toList) := by
    simp [file_part_headers]
  rw [e, substr_at_append ("Content-Disposition: form-data; name=\"file\"; filename=\"".toList) _
      (45 + 10) _ rfl]
  have : 55 + F.length - (45 + 10) = F.length := by omega
  rw [this, List.take_left]

theorem find_name_file_part (F : Str) :
    (find (file_part_headers F) "name=\"file\"".toList 0).isSome = true :=
  (find_isSome_iff_contains _ _).mpr
    ⟨"Content-Disposition: form-data; ".toList,
      "; filename=\"".toList ++ F ++ "\"\r\nContent-Type: text/plain".toList,
      by simp [file_part_headers]⟩

theorem parse_multipart_step_closing (d pre : Str) (form_data : FormData) :
    UploadHandler.parse_multipart_step (pre ++ (d ++ "--\r\n".toList)) d pre.length form_data
      = none := by
  have hs := parse_multipart_step_shift pre (d ++ "--\r\n".toList) d 0 form_data
  rw [Nat.add_zero] at hs
  rw [hs]
  have h1 : find (d ++ "--\r\n".toList) d 0 = some 0 := find_of_prefix _ _ (List.prefix_append _ _)
  have h2 : substr (d ++ "--\r\n".toList) (0 + d.length) 2 = "--".toList := by
    rw [substr_at_append _ _ _ _ (Nat.zero_add _)]; rfl
  have h3 : find (d ++ "--\r\n".toList) "\r\n\r\n".toList (0 + d.length) = none := by
    rw [find_at_append _ _ _ _ (Nat.zero_add _)]; rfl
  unfold UploadHandler.parse_multipart_step
  rw [h1]
  dsimp only
  rw [h2, if_neg (by simp), h3]
  rfl

theorem parse_multipart_loop_four (body d : Str) (p1 p2 p3 : Nat)
    (fd fd1 fd2 fd3 : FormData)
    (e1 : UploadHandler.parse_multipart_step body d 0 fd = some (p1, fd1))
    (e2 : UploadHandler.parse_multipart_step body d p1 fd1 = some (p2, fd2))
    (e3 : UploadHandler.parse_multipart_step body d p2 fd2 = some (p3, fd3))
    (e4 : UploadHandler.parse_multipart_step body d p3 fd3 = none)
    (hp : p3 < body.length) (fuel : Nat) :
    UploadHandler.parse_multipart_loop body d (fuel + 4) 0 fd = fd3 := by
  have f1 := parse_multipart_step_forward body d 0 p1 fd fd1 e1
  have f2 := parse_multipart_step_forward body d p1 p2 fd1 fd2 e2
  have f3 := parse_multipart_step_forward body d p2 p3 fd2 fd3 e3
  have q0 : 0 < body.length := by omega
  have q1 : p1 < body.length := by omega
  have q2 : p2 < body.length := by omega
  simp only [UploadHandler.parse_multipart_loop, q0, q1, q2, hp, if_true, e1, e2, e3, e4]

/-- C25 (amended): for every boundary `B` without CR, every non-empty filename `F` without
double quote, CR, LF and delimiter `--B`, every non-empty content `C` without `--B`, and
every course code and title without `--B`, `parse_multipart_form` on the body made of
the file part, the course code part, the title part and the closing delimiter returns
true and leaves `F` as the filename and `C` as the content. -/
theorem parse_multipart_form_round_trip (B F C CC T : Str) (form_data : FormData)
    (hB : '\r' ∉ B)
    (hF : F ≠ []) (hFq : '"' ∉ F) (hFr : '\r' ∉ F) (hFn : '\n' ∉ F)
    (hFd : ¬ ("--".toList ++ B) <:+: F)
    (hC : C ≠ []) (hCd : ¬ ("--".toList ++ B) <:+: C)
    (hCC : ¬ ("--".toList ++ B) <:+: CC) (hT : ¬ ("--".toList ++ B) <:+: T) :
    (UploadHandler.parse_multipart_form (create_multipart_form B F C CC T) B form_data).1 = true
      ∧ (UploadHandler.parse_multipart_form (create_multipart_form B F C CC T) B
          form_data).2.filename = F
      ∧ (UploadHandler.parse_multipart_form (create_multipart_form B F C CC T) B
          form_data).2.content = C := by
  have hr : '\r' ∉ "--".toList ++ B := by
    intro h
    rcases List.mem_append.mp h with h | h
    · revert h; decide
    · exact hB h
  have hd : "--".toList ++ B = '-' :: ('-' :: B) := rfl
  obtain ⟨d, hdd⟩ : ∃ d, d = "--".toList ++ B := ⟨_, rfl⟩
  rw [← hdd] at hr hd hCd hCC hT
  obtain ⟨P1, hP1⟩ : ∃ P, P = d ++ "\r\n".toList ++ file_part_headers F ++ "\r\n\r\n".toList
      ++ C ++ "\r\n".toList := ⟨_, rfl⟩
  obtain ⟨P2, hP2⟩ : ∃ P, P = d ++ "\r\n".toList ++ course_code_part_headers
      ++ "\r\n\r\n".toList ++ CC ++ "\r\n".toList := ⟨_, rfl⟩
  obtain ⟨P3, hP3⟩ : ∃ P, P = d ++ "\r\n".toList ++ title_part_headers
      ++ "\r\n\r\n".toList ++ T ++ "\r\n".toList := ⟨_, rfl⟩
  obtain ⟨body, hbody⟩ : ∃ b, b = P1 ++ (P2 ++ (P3 ++ (d ++ "--\r\n".toList))) := ⟨_, rfl⟩
  have hcreate : create_multipart_form B F C CC T = body := by
    rw [hbody, hP1, hP2, hP3, hdd]
    rfl
  have e1 := parse_multipart_step_part d ('-' :: B) (file_part_headers F) C
    ("\r\n".toList ++ (course_code_part_headers ++ ("\r\n\r\n".toList ++ (CC ++ ("\r\n".toList
      ++ (P3 ++ (d ++ "--\r\n".toList))))))) [] form_data hd hr
    (find_headers_end_file_part F hFr) hCd
  rw [← hP1, if_pos (find_name_file_part F), List.length_nil, Nat.zero_add, List.nil_append,
    show P1 ++ (d ++ ("\r\n".toList ++ (course_code_part_headers ++ ("\r\n\r\n".toList
        ++ (CC ++ ("\r\n".toList ++ (P3 ++ (d ++ "--\r\n".toList)))))))) = body from by
      rw [hbody, hP2]; simp only [List.append_assoc]] at e1
  have e2 := parse_multipart_step_part d ('-' :: B) course_code_part_headers CC
    ("\r\n".toList ++ (title_part_headers ++ ("\r\n\r\n".toList ++ (T ++ ("\r\n".toList
      ++ (d ++ "--\r\n".toList)))))) P1
    (UploadHandler.parse_file_field (file_part_headers F) C form_data) hd hr
    (find_headers_end_no_cr _ (by decide)) hCC
  rw [← hP2, if_neg (by decide), if_pos (by decide),
    show P1 ++ (P2 ++ (d ++ ("\r\n".toList ++ (title_part_headers ++ ("\r\n\r\n".toList
        ++ (T ++ ("\r\n".toList ++ (d ++ "--\r\n".toList)))))))) = body from by
      rw [hbody, hP3]; simp only [List.append_assoc]] at e2
  have e3 := parse_multipart_step_part d ('-' :: B) title_part_headers T
    "--\r\n".toList (P1 ++ P2)
    { UploadHandler.parse_file_field (file_part_headers F) C form_data with course_code := CC }
    hd hr (find_headers_end_no_cr _ (by decide)) hT
  rw [← hP3, if_neg (by decide), if_neg (by decide), if_pos (by decide),
    List.length_append P1 P2,
    show P1 ++ P2 ++ (P3 ++ (d ++ "--\r\n".toList)) = body from by
      rw [hbody]; simp only [List.append_assoc]] at e3
  have e4 := parse_multipart_step_closing d (P1 ++ P2 ++ P3)
    { UploadHandler.parse_file_field (file_part_headers F) C form_data with
      course_code := CC, title := T }
  rw [List.length_append (P1 ++ P2) P3, List.length_append P1 P2,
    show P1 ++ P2 ++ P3 ++ (d ++ "--\r\n".toList) = body from by
      rw [hbody]; simp only [List.append_assoc]] at e4
  have hbl : body.length = P1.length + P2.length + P3.length + d.length + 4 := by
    rw [hbody]
    simp only [List.length_append]
    have : ("--\r\n".toList).length = 4 := rfl
    omega
  have hp : P1.length + P2.length + P3.length < body.length := by omega
  have hfuel : body.length + 1 = (body.length - 3) + 4 := by omega
  have hloop := parse_multipart_loop_four body d _ _ _ _ _ _ _ e1 e2 e3 e4 hp (body.length - 3)
  have hfields := parse_file_field_fields (file_part_headers F) C form_data 45 (55 + F.length)
    (find_filename_file_part F) (find_quote_file_part F hFq)
  rw [substr_filename_file_part] at hfields
  unfold UploadHandler.parse_multipart_form
  dsimp only
  rw [hcreate, ← hdd, hfuel, hloop]
  dsimp only
  rw [hfields.1, hfields.2]
  refine ⟨?_, rfl, rfl⟩
  cases F with
  | nil => exact absurd rfl hF
  | cons a as =>
    cases C with
    | nil => exact absurd rfl hC
    | cons b bs => rfl

/-- Counterexample to C25: with the boundary made of a single CR the content `x--` ends
in the delimiter once its final CR LF is appended, so the content read is `x`; and with
the boundary `B` a course code that holds `--B` and the headers of a file field replaces
the filename `f` and the content `x` by `g` and `y`. -/
theorem parse_multipart_form_round_trip_fails :
    ("f".toList ≠ [] ∧ '"' ∉ "f".toList ∧ '\r' ∉ "f".toList ∧ '\n' ∉ "f".toList
        ∧ ¬ ("--".toList ++ "\r".toList) <:+: "f".toList
        ∧ "x--".toList ≠ [] ∧ ¬ ("--".toList ++ "\r".toList) <:+: "x--".toList
        ∧ (UploadHandler.parse_multipart_form
            (create_multipart_form "\r".toList "f".toList "x--".toList "c".toList "t".toList)
            "\r".toList empty_form_data).2.content = "x".toList)
      ∧ ('\r' ∉ "B".toList
        ∧ ¬ ("--".toList ++ "B".toList) <:+: "f".toList
        ∧ ¬ ("--".toList ++ "B".toList) <:+: "x".toList
        ∧ (UploadHandler.parse_multipart_form
            (create_multipart_form "B".toList "f".toList "x".toList nested_file_course_code
              "t".toList)
            "B".toList empty_form_data)
          = (true, { filename := "g".toList, content := "y".toList, course_code := [],
                     title := "t".toList, content_type := [] })) := by
  decide!

/-- Witness of C25 (amended): the body with the boundary `B`, the filename `f`, the
content `x`, the course code `c` and the title `t`. -/
theorem parse_multipart_form_round_trip_witness :
    (UploadHandler.parse_multipart_form
        (create_multipart_form "B".toList "f".toList "x".toList "c".toList "t".toList)
        "B".toList empty_form_data).1 = true
      ∧ (UploadHandler.parse_multipart_form
        (create_multipart_form "B".toList "f".toList "x".toList "c".toList "t".toList)
        "B".toList empty_form_data).2.filename = "f".toList
      ∧ (UploadHandler.parse_multipart_form
        (create_multipart_form "B".toList "f".toList "x".toList "c".toList "t".toList)
        "B".toList empty_form_data).2.content = "x".toList :=
  parse_multipart_form_round_trip "B".toList "f".toList "x".toList "c".toList "t".toList
    empty_form_data (by decide) (by decide) (by decide) (by decide) (by decide) (by decide)
    (by decide) (by decide) (by decide) (by decide)

end Marko
